import Mathlib

/-!
# Terraform provider for Bitbucket: client and resource adapters

A shallow embedding of the Go packages `client` and `internal/provider`.

* Go `error` values are the inductive `GoError`; a function returning
  `(T, error)` returns `Except GoError T`.
* A `[]byte` is a `List UInt8`; Go strings that only ever hold text
  (slugs, tokens, URLs, messages) are `String`.
* The standard library and the network are not part of the repository: their
  behaviour (URL parsing, the HTTP round trip, `encoding/json`) is a field of
  `World`, and every general theorem holds for every `World`.
* Every client operation returns, next to its result, the list of requests it
  handed to `HTTPClient.Do`; the theorems about requests are stated through
  `World.Do` itself, whose argument is that request.
* A request keeps the URL text it was built with; `requestTarget` is what
  `net/url` and the transport make of that text (scheme, host, request URI).
-/

deriving instance DecidableEq for Except

namespace Bitbucket

/-! ## Errors -/

/-- Go `client.StatusErr`. -/
structure StatusErr where
  StatusCode : Int
  Message : String
deriving DecidableEq, Repr

/-- Go `client.Error`. -/
structure Error where
  Message : String
deriving DecidableEq, Repr

/-- Go `client.ResponseErr`. -/
structure ResponseErr where
  ErrorDetails : Error
deriving DecidableEq, Repr

/-- The values of Go's `error` interface that reach this code: a
`client.StatusErr`, a value made by `fmt.Errorf` without a wrapping verb, or an
error made by the standard library (`net/http`, `net/url`, `io`,
`encoding/json`, `strconv`). -/
inductive GoError where
  | statusErr (s : StatusErr)
  | errorf (text : String)
  | foreign (text : String)
deriving DecidableEq, Repr

/-- The method `Error()`; for a `StatusErr` it is `return s.Message`. -/
def GoError.Error : GoError → String
  | .statusErr s => s.Message
  | .errorf text => text
  | .foreign text => text

/-- The call `errors.As(err, &statusErr)` with `statusErr` of type
`client.StatusErr`: the value found, if any. -/
def errorsAsStatusErr : GoError → Option StatusErr
  | .statusErr s => some s
  | .errorf _ => none
  | .foreign _ => none

/-- The verb `%d` of `fmt` on an `int`. -/
def decimal (n : Int) : String :=
  match n with
  | Int.ofNat k => Nat.repr k
  | Int.negSucc k => "-" ++ Nat.repr (k + 1)

/-! ## HTTP requests and responses -/

abbrev Bytes := List UInt8

/-- Validity of a byte in a header field name (`httpguts` token table),
on characters. -/
def validHeaderFieldChar (c : Char) : Bool :=
  c.isAlphanum || "!#$%&*+-.^_|~".toList.contains c || c == Char.ofNat 39 || c == Char.ofNat 96

/-- The loop of `textproto.CanonicalMIMEHeaderKey` over a valid key. -/
def canonicalLoop : Bool → List Char → List Char
  | _, [] => []
  | upper, c :: cs =>
    let c1 := if upper && c.isLower then c.toUpper
              else if !upper && c.isUpper then c.toLower
              else c
    c1 :: canonicalLoop (c1 == '-') cs

/-- Go `textproto.CanonicalMIMEHeaderKey`: a key with a byte that is not a
token byte is returned unchanged. -/
def canonicalMIMEHeaderKey (s : String) : String :=
  if s.toList.all validHeaderFieldChar then String.mk (canonicalLoop true s.toList) else s

/-- Go `http.Header`: the values in the order they were added, under their
canonical key. -/
abbrev Header := List (String × String)

/-- Go `Header.Add`. -/
def Header.Add (h : Header) (key value : String) : Header :=
  h ++ [(canonicalMIMEHeaderKey key, value)]

/-- Go `Header.Values`: all values of a key. -/
def Header.Values (h : Header) (key : String) : List String :=
  (h.filter (fun kv => kv.1 == canonicalMIMEHeaderKey key)).map (fun kv => kv.2)

/-- Go `Header.Get`: the first value of a key, or the empty string. -/
def Header.Get (h : Header) (key : String) : String :=
  (Header.Values h key).headD ""

/-- The part of `http.Request` the client fills: method, URL as given to
`http.NewRequest`, headers and body (`none` for a `nil` reader). -/
structure Request where
  Method : String
  URL : String
  Header : Header
  Body : Option Bytes
deriving DecidableEq, Repr

/-- The part of `http.Response` the client reads: the status code and the
outcome of `io.ReadAll(res.Body)`. -/
structure Response where
  StatusCode : Int
  Body : Except GoError Bytes

/-! ## Wire records (`client/models.go`) -/

/-- A Go slice; `none` is the nil slice. -/
abbrev Slice (α : Type) := Option (List α)

structure Project where
  Key : String
deriving DecidableEq, Repr

structure Paginated (T : Type) where
  Values : Slice T
deriving DecidableEq, Repr

structure Repository where
  Slug : String
  IsPrivate : Bool
  Scm : String
  Project : Project
  Website : Option String
deriving DecidableEq, Repr

structure User where
  Uuid : String
deriving DecidableEq, Repr

structure Group where
  Slug : String
deriving DecidableEq, Repr

structure BranchRestriction where
  ID : Int
  Kind : String
  BranchMatchKind : String
  Pattern : String
  Users : Slice User
  Groups : Slice Group
deriving DecidableEq, Repr

structure GroupPermission where
  Permission : String
deriving DecidableEq, Repr

/-- The zero value of `Repository`. -/
def Repository.zero : Repository :=
  { Slug := "", IsPrivate := false, Scm := "", Project := { Key := "" }, Website := none }

/-- The zero value of `BranchRestriction`. -/
def BranchRestriction.zero : BranchRestriction :=
  { ID := 0, Kind := "", BranchMatchKind := "", Pattern := "", Users := none, Groups := none }

/-- The zero value of `GroupPermission`. -/
def GroupPermission.zero : GroupPermission :=
  { Permission := "" }

/-! ## The world outside the repository -/

/-- Behaviour of the standard library and of the server.  `urlParse` is the
error of `url.Parse` inside `http.NewRequest`, if it fails on that URL; `Do`
is `HTTPClient.Do`; `unmarshal*` is `json.Unmarshal` into a zero value of the
type and `marshal*` is `json.Marshal`. -/
structure World where
  urlParse : String → Option GoError
  Do : Request → Except GoError Response
  unmarshalResponseErr : Bytes → Except GoError ResponseErr
  unmarshalRepository : Bytes → Except GoError Repository
  unmarshalRepositories : Bytes → Except GoError (Paginated Repository)
  unmarshalBranchRestriction : Bytes → Except GoError BranchRestriction
  unmarshalBranchRestrictions : Bytes → Except GoError (Paginated BranchRestriction)
  unmarshalGroupPermission : Bytes → Except GoError GroupPermission
  unmarshalGroupPermissions : Bytes → Except GoError (Paginated GroupPermission)
  marshalRepository : Repository → Except GoError Bytes
  marshalBranchRestriction : BranchRestriction → Except GoError Bytes
  marshalGroupPermission : GroupPermission → Except GoError Bytes

/-- Go `http.NewRequest` for the constant methods used here: it fails exactly
when the URL does not parse, and then returns a nil request.  The request
keeps the URL as the text it was given; what goes on the wire for that text
(the parsed URL, escaped again and without its fragment) is `requestTarget`
below. -/
def World.NewRequest (w : World) (method url : String) (body : Option Bytes) :
    Except GoError Request :=
  match w.urlParse url with
  | some err => .error err
  | none => .ok { Method := method, URL := url, Header := [], Body := body }

/-- The result of a client operation and the requests it handed to
`HTTPClient.Do`, in order. -/
structure Call (α : Type) where
  result : α
  sent : List Request

/-- The result of an operation that can also panic. -/
inductive Outcome (α : Type) where
  | value (v : α)
  | error (err : GoError)
  | panic (reason : String)
deriving DecidableEq, Repr

/-- The runtime error of calling `req.Header.Add` on a nil `*http.Request`. -/
def nilDereference : String :=
  "runtime error: invalid memory address or nil pointer dereference"

/-! ## `client/client.go` -/

/-- The constant `Host`. -/
def Host : String := "https://api.bitbucket.org/2.0"

/-- Go `client.Client`; `HTTPClient.Do` is `World.Do`. -/
structure Client where
  Host : String
  Workspace : String
  Token : String
deriving DecidableEq, Repr

/-- Go `NewClient`. -/
def NewClient (host workspace token : Option String) : Except GoError Client :=
  let c : Client := { Host := Host, Workspace := "", Token := "" }
  let c := match host with
    | some h => { c with Host := h }
    | none => c
  let c := match workspace with
    | some ws => { c with Workspace := ws }
    | none => c
  let c := match token with
    | some t => { c with Token := t }
    | none => c
  .ok c

/-- Go `(*Client).doRequest`. -/
def Client.doRequest (c : Client) (w : World) (req : Request) : Call (Except GoError Bytes) :=
  let req : Request := { req with Header := req.Header.Add "Authorization" ("Basic " ++ c.Token) }
  match w.Do req with
  | .error err => ⟨.error err, [req]⟩
  | .ok res =>
    match res.Body with
    | .error err => ⟨.error err, [req]⟩
    | .ok body =>
      if res.StatusCode < 200 ∨ res.StatusCode > 299 then
        match w.unmarshalResponseErr body with
        | .error _ =>
          ⟨.error (.errorf ("the Bitbucket API returned, status: " ++ decimal res.StatusCode)), [req]⟩
        | .ok responseErr =>
          if res.StatusCode = 404 then
            ⟨.error (.statusErr
              { StatusCode := res.StatusCode
                Message := "the Bitbucket API returned, status: " ++ decimal res.StatusCode
                  ++ " message: " ++ responseErr.ErrorDetails.Message }), [req]⟩
          else
            ⟨.error (.errorf ("the Bitbucket API returned, status: " ++ decimal res.StatusCode
              ++ " message: " ++ responseErr.ErrorDetails.Message)), [req]⟩
      else
        ⟨.ok body, [req]⟩

/-! ## `client/repositories.go`

The format `%s/repositories/%s/%s` of `fmt.Sprintf` is written as a concatenation. -/

/-- Go `(*Client).GetRepositories`. -/
def Client.GetRepositories (c : Client) (w : World) :
    Call (Except GoError (Paginated Repository)) :=
  match w.NewRequest "GET" (c.Host ++ "/repositories/" ++ c.Workspace) none with
  | .error err => ⟨.error err, []⟩
  | .ok req =>
    let r := c.doRequest w req
    match r.result with
    | .error err => ⟨.error err, r.sent⟩
    | .ok body =>
      match w.unmarshalRepositories body with
      | .error err => ⟨.error err, r.sent⟩
      | .ok v => ⟨.ok v, r.sent⟩

/-- Go `(*Client).GetRepository`. -/
def Client.GetRepository (c : Client) (w : World) (slug : String) :
    Call (Except GoError Repository) :=
  match w.NewRequest "GET" (c.Host ++ "/repositories/" ++ c.Workspace ++ "/" ++ slug) none with
  | .error err => ⟨.error err, []⟩
  | .ok req =>
    let r := c.doRequest w req
    match r.result with
    | .error err => ⟨.error err, r.sent⟩
    | .ok body =>
      match w.unmarshalRepository body with
      | .error err => ⟨.error err, r.sent⟩
      | .ok v => ⟨.ok v, r.sent⟩

/-- Go `(*Client).CreateRepository`.  The call `req.Header.Add` comes before the
error of `http.NewRequest` is looked at, so a nil request is dereferenced. -/
def Client.CreateRepository (c : Client) (w : World) (slug : String)
    (newRepository : Repository) :
    Call (Outcome Repository) :=
  match w.marshalRepository newRepository with
  | .error err => ⟨.error err, []⟩
  | .ok rb =>
    match w.NewRequest "POST" (c.Host ++ "/repositories/" ++ c.Workspace ++ "/" ++ slug) (some rb) with
    | .error _ => ⟨.panic nilDereference, []⟩
    | .ok req =>
      let req : Request := { req with Header := req.Header.Add "content-type" "application/json" }
      let r := c.doRequest w req
      match r.result with
      | .error err => ⟨.error err, r.sent⟩
      | .ok body =>
        match w.unmarshalRepository body with
        | .error err => ⟨.error err, r.sent⟩
        | .ok v => ⟨.value v, r.sent⟩

/-- Go `(*Client).UpdateRepository`.  The call `req.Header.Add` comes before the
error of `http.NewRequest` is looked at, so a nil request is dereferenced. -/
def Client.UpdateRepository (c : Client) (w : World) (slug : String)
    (newRepository : Repository) :
    Call (Outcome Repository) :=
  match w.marshalRepository newRepository with
  | .error err => ⟨.error err, []⟩
  | .ok rb =>
    match w.NewRequest "PUT" (c.Host ++ "/repositories/" ++ c.Workspace ++ "/" ++ slug) (some rb) with
    | .error _ => ⟨.panic nilDereference, []⟩
    | .ok req =>
      let req : Request := { req with Header := req.Header.Add "content-type" "application/json" }
      let r := c.doRequest w req
      match r.result with
      | .error err => ⟨.error err, r.sent⟩
      | .ok body =>
        match w.unmarshalRepository body with
        | .error err => ⟨.error err, r.sent⟩
        | .ok v => ⟨.value v, r.sent⟩

/-- Go `(*Client).DeleteRepository`; the result is the returned `error`, `none` for nil. -/
def Client.DeleteRepository (c : Client) (w : World) (slug : String) :
    Call (Option GoError) :=
  match w.NewRequest "DELETE" (c.Host ++ "/repositories/" ++ c.Workspace ++ "/" ++ slug) none with
  | .error err => ⟨some err, []⟩
  | .ok req =>
    let r := c.doRequest w req
    match r.result with
    | .error err => ⟨some err, r.sent⟩
    | .ok _ => ⟨none, r.sent⟩

/-! ## `client/branch_restrictions.go` -/

/-- Go `(*Client).GetBranchRestrictions`. -/
def Client.GetBranchRestrictions (c : Client) (w : World) (repositorySlug : String) :
    Call (Except GoError (Paginated BranchRestriction)) :=
  match w.NewRequest "GET" (c.Host ++ "/repositories/" ++ c.Workspace ++ "/" ++ repositorySlug ++ "/branch-restrictions") none with
  | .error err => ⟨.error err, []⟩
  | .ok req =>
    let r := c.doRequest w req
    match r.result with
    | .error err => ⟨.error err, r.sent⟩
    | .ok body =>
      match w.unmarshalBranchRestrictions body with
      | .error err => ⟨.error err, r.sent⟩
      | .ok v => ⟨.ok v, r.sent⟩

/-- Go `(*Client).GetBranchRestriction`. -/
def Client.GetBranchRestriction (c : Client) (w : World) (repositorySlug : String) (id : Int) :
    Call (Except GoError BranchRestriction) :=
  match w.NewRequest "GET" (c.Host ++ "/repositories/" ++ c.Workspace ++ "/" ++ repositorySlug ++ "/branch-restrictions/" ++ decimal id) none with
  | .error err => ⟨.error err, []⟩
  | .ok req =>
    let r := c.doRequest w req
    match r.result with
    | .error err => ⟨.error err, r.sent⟩
    | .ok body =>
      match w.unmarshalBranchRestriction body with
      | .error err => ⟨.error err, r.sent⟩
      | .ok v => ⟨.ok v, r.sent⟩

/-- Go `(*Client).CreateBranchRestriction`.  The call `req.Header.Add` comes before the
error of `http.NewRequest` is looked at, so a nil request is dereferenced. -/
def Client.CreateBranchRestriction (c : Client) (w : World) (repositorySlug : String)
    (newBranchRestriction : BranchRestriction) :
    Call (Outcome BranchRestriction) :=
  match w.marshalBranchRestriction newBranchRestriction with
  | .error err => ⟨.error err, []⟩
  | .ok rb =>
    match w.NewRequest "POST" (c.Host ++ "/repositories/" ++ c.Workspace ++ "/" ++ repositorySlug ++ "/branch-restrictions") (some rb) with
    | .error _ => ⟨.panic nilDereference, []⟩
    | .ok req =>
      let req : Request := { req with Header := req.Header.Add "content-type" "application/json" }
      let r := c.doRequest w req
      match r.result with
      | .error err => ⟨.error err, r.sent⟩
      | .ok body =>
        match w.unmarshalBranchRestriction body with
        | .error err => ⟨.error err, r.sent⟩
        | .ok v => ⟨.value v, r.sent⟩

/-- Go `(*Client).UpdateBranchRestriction`.  The call `req.Header.Add` comes before the
error of `http.NewRequest` is looked at, so a nil request is dereferenced. -/
def Client.UpdateBranchRestriction (c : Client) (w : World) (repositorySlug : String) (id : Int)
    (newBranchRestriction : BranchRestriction) :
    Call (Outcome BranchRestriction) :=
  match w.marshalBranchRestriction newBranchRestriction with
  | .error err => ⟨.error err, []⟩
  | .ok rb =>
    match w.NewRequest "PUT" (c.Host ++ "/repositories/" ++ c.Workspace ++ "/" ++ repositorySlug ++ "/branch-restrictions/" ++ decimal id) (some rb) with
    | .error _ => ⟨.panic nilDereference, []⟩
    | .ok req =>
      let req : Request := { req with Header := req.Header.Add "content-type" "application/json" }
      let r := c.doRequest w req
      match r.result with
      | .error err => ⟨.error err, r.sent⟩
      | .ok body =>
        match w.unmarshalBranchRestriction body with
        | .error err => ⟨.error err, r.sent⟩
        | .ok v => ⟨.value v, r.sent⟩

/-- Go `(*Client).DeleteBranchRestriction`; the result is the returned `error`, `none` for nil. -/
def Client.DeleteBranchRestriction (c : Client) (w : World) (repositorySlug : String) (id : Int) :
    Call (Option GoError) :=
  match w.NewRequest "DELETE" (c.Host ++ "/repositories/" ++ c.Workspace ++ "/" ++ repositorySlug ++ "/branch-restrictions/" ++ decimal id) none with
  | .error err => ⟨some err, []⟩
  | .ok req =>
    let r := c.doRequest w req
    match r.result with
    | .error err => ⟨some err, r.sent⟩
    | .ok _ => ⟨none, r.sent⟩

/-! ## `client/group_permissions.go` -/

/-- Go `(*Client).GetGroupPermissions`. -/
def Client.GetGroupPermissions (c : Client) (w : World) (repositorySlug : String) :
    Call (Except GoError (Paginated GroupPermission)) :=
  match w.NewRequest "GET" (c.Host ++ "/repositories/" ++ c.Workspace ++ "/" ++ repositorySlug ++ "/permissions-config/groups") none with
  | .error err => ⟨.error err, []⟩
  | .ok req =>
    let r := c.doRequest w req
    match r.result with
    | .error err => ⟨.error err, r.sent⟩
    | .ok body =>
      match w.unmarshalGroupPermissions body with
      | .error err => ⟨.error err, r.sent⟩
      | .ok v => ⟨.ok v, r.sent⟩

/-- Go `(*Client).GetGroupPermission`. -/
def Client.GetGroupPermission (c : Client) (w : World) (repositorySlug groupSlug : String) :
    Call (Except GoError GroupPermission) :=
  match w.NewRequest "GET" (c.Host ++ "/repositories/" ++ c.Workspace ++ "/" ++ repositorySlug ++ "/permissions-config/groups/" ++ groupSlug) none with
  | .error err => ⟨.error err, []⟩
  | .ok req =>
    let r := c.doRequest w req
    match r.result with
    | .error err => ⟨.error err, r.sent⟩
    | .ok body =>
      match w.unmarshalGroupPermission body with
      | .error err => ⟨.error err, r.sent⟩
      | .ok v => ⟨.ok v, r.sent⟩

/-- Go `(*Client).CreateGroupPermission`.  The call `req.Header.Add` comes before the
error of `http.NewRequest` is looked at, so a nil request is dereferenced. -/
def Client.CreateGroupPermission (c : Client) (w : World) (repositorySlug groupSlug : String)
    (newGroupPermission : GroupPermission) :
    Call (Outcome GroupPermission) :=
  match w.marshalGroupPermission newGroupPermission with
  | .error err => ⟨.error err, []⟩
  | .ok rb =>
    match w.NewRequest "PUT" (c.Host ++ "/repositories/" ++ c.Workspace ++ "/" ++ repositorySlug ++ "/permissions-config/groups/" ++ groupSlug) (some rb) with
    | .error _ => ⟨.panic nilDereference, []⟩
    | .ok req =>
      let req : Request := { req with Header := req.Header.Add "content-type" "application/json" }
      let r := c.doRequest w req
      match r.result with
      | .error err => ⟨.error err, r.sent⟩
      | .ok body =>
        match w.unmarshalGroupPermission body with
        | .error err => ⟨.error err, r.sent⟩
        | .ok v => ⟨.value v, r.sent⟩

/-- Go `(*Client).UpdateGroupPermission`.  The call `req.Header.Add` comes before the
error of `http.NewRequest` is looked at, so a nil request is dereferenced. -/
def Client.UpdateGroupPermission (c : Client) (w : World) (repositorySlug groupSlug : String)
    (newGroupPermission : GroupPermission) :
    Call (Outcome GroupPermission) :=
  match w.marshalGroupPermission newGroupPermission with
  | .error err => ⟨.error err, []⟩
  | .ok rb =>
    match w.NewRequest "PUT" (c.Host ++ "/repositories/" ++ c.Workspace ++ "/" ++ repositorySlug ++ "/permissions-config/groups/" ++ groupSlug) (some rb) with
    | .error _ => ⟨.panic nilDereference, []⟩
    | .ok req =>
      let req : Request := { req with Header := req.Header.Add "content-type" "application/json" }
      let r := c.doRequest w req
      match r.result with
      | .error err => ⟨.error err, r.sent⟩
      | .ok body =>
        match w.unmarshalGroupPermission body with
        | .error err => ⟨.error err, r.sent⟩
        | .ok v => ⟨.value v, r.sent⟩

/-- Go `(*Client).DeleteGroupPermission`; the result is the returned `error`, `none` for nil. -/
def Client.DeleteGroupPermission (c : Client) (w : World) (repositorySlug groupSlug : String) :
    Call (Option GoError) :=
  match w.NewRequest "DELETE" (c.Host ++ "/repositories/" ++ c.Workspace ++ "/" ++ repositorySlug ++ "/permissions-config/groups/" ++ groupSlug) none with
  | .error err => ⟨some err, []⟩
  | .ok req =>
    let r := c.doRequest w req
    match r.result with
    | .error err => ⟨some err, r.sent⟩
    | .ok _ => ⟨none, r.sent⟩

/-! ## The plugin framework: attribute values, diagnostics, state -/

/-- Go `types.String`. -/
inductive TfString where
  | null
  | unknown
  | known (value : String)
deriving DecidableEq, Repr

def TfString.IsNull : TfString → Bool
  | .null => true
  | _ => false

def TfString.IsUnknown : TfString → Bool
  | .unknown => true
  | _ => false

def TfString.ValueString : TfString → String
  | .known value => value
  | _ => ""

/-- Go `types.StringPointerValue`. -/
def TfString.StringPointerValue : Option String → TfString
  | none => .null
  | some value => .known value

/-- Go `ValueStringPointer`: nil for a null value, else a pointer to the value
(the empty string when unknown). -/
def TfString.ValueStringPointer : TfString → Option String
  | .null => none
  | .unknown => some ""
  | .known value => some value

/-- Go `types.Bool`. -/
inductive TfBool where
  | null
  | unknown
  | known (value : Bool)
deriving DecidableEq, Repr

def TfBool.ValueBool : TfBool → Bool
  | .known value => value
  | _ => false

/-- Go `types.Int64`. -/
inductive TfInt64 where
  | null
  | unknown
  | known (value : Int)
deriving DecidableEq, Repr

def TfInt64.ValueInt64 : TfInt64 → Int
  | .known value => value
  | _ => 0

/-- The method `String()` of `types.Int64`. -/
def TfInt64.String : TfInt64 → String
  | .null => "<null>"
  | .unknown => "<unknown>"
  | .known value => decimal value

inductive Severity where
  | error
  | warning
deriving DecidableEq, Repr

/-- Go `diag.Diagnostic`; `path` is the attribute path of an attribute
diagnostic. -/
structure Diagnostic where
  severity : Severity
  summary : String
  detail : String
  path : Option String
deriving DecidableEq, Repr

abbrev Diagnostics := List Diagnostic

/-- Go `Diagnostics.HasError`. -/
def Diagnostics.HasError (diags : Diagnostics) : Bool :=
  diags.any (fun d => d.severity == Severity.error)

/-- Go `Diagnostics.Append`: a diagnostic equal to one already held is
skipped. -/
def Diagnostics.Append (diags : Diagnostics) : Diagnostics → Diagnostics
  | [] => diags
  | d :: rest =>
    if diags.contains d then Diagnostics.Append diags rest
    else Diagnostics.Append (diags ++ [d]) rest

/-- Go `Diagnostics.AddError`. -/
def Diagnostics.AddError (diags : Diagnostics) (summary detail : String) : Diagnostics :=
  Diagnostics.Append diags [{ severity := .error, summary := summary, detail := detail, path := none }]

/-- Go `Diagnostics.AddAttributeError`, the path `path.Root(name)` given by its
name. -/
def Diagnostics.AddAttributeError (diags : Diagnostics) (name summary detail : String) :
    Diagnostics :=
  Diagnostics.Append diags
    [{ severity := .error, summary := summary, detail := detail, path := some name }]

/-- What `Get(ctx, &target)` of a `tfsdk.State` or `tfsdk.Config` yields: the
filled target and the diagnostics of the conversion. -/
structure Decoded (M : Type) where
  target : M
  diags : Diagnostics

/-- Go `tfsdk.State` for a resource whose model is `M`; `none` is the null
state of a removed resource. -/
structure State (M : Type) where
  Raw : Option M
deriving DecidableEq, Repr

/-- Go `State.RemoveResource`. -/
def State.RemoveResource {M : Type} (_s : State M) : State M :=
  { Raw := none }

/-- Go `State.Set`; `convert` gives the diagnostics of converting the model,
and the state is replaced only when they hold no error. -/
def State.Set {M : Type} (convert : M → Diagnostics) (s : State M) (val : M) :
    State M × Diagnostics :=
  let diags := convert val
  if Diagnostics.HasError diags then (s, diags) else ({ Raw := some val }, diags)

structure ReadRequest (M : Type) where
  State : Decoded M

structure ReadResponse (M : Type) where
  State : State M
  Diagnostics : Diagnostics

structure CreateRequest (M : Type) where
  Plan : Decoded M

structure CreateResponse (M : Type) where
  State : State M
  Diagnostics : Diagnostics

structure UpdateRequest (M : Type) where
  Plan : Decoded M

structure UpdateResponse (M : Type) where
  State : State M
  Diagnostics : Diagnostics

/-- The elements a `for _, x := range s` visits. -/
def Slice.range {α : Type} (s : Slice α) : List α :=
  s.getD []

/-- Go `append(s, x)`. -/
def Slice.append {α : Type} (s : Slice α) (x : α) : Slice α :=
  some (s.getD [] ++ [x])

/-! ## `strings.Split`, `strconv.Atoi` and the state of an import -/

/-- The pieces of a text between the occurrences of a separator character. -/
def splitChars (sep : Char) : List Char → List (List Char)
  | [] => [[]]
  | c :: cs =>
    if c = sep then [] :: splitChars sep cs
    else
      match splitChars sep cs with
      | [] => [[c]]
      | part :: parts => (c :: part) :: parts

/-- Go `strings.Split(s, sep)` for a separator of one ASCII character. -/
def stringsSplit (s : String) (sep : Char) : List String :=
  (splitChars sep s.toList).map String.mk

/-- The two errors of `strconv`: `ErrSyntax` and `ErrRange`. -/
inductive NumError where
  | ErrSyntax
  | ErrRange
deriving DecidableEq, Repr

/-- The loop of `strconv.ParseUint(s, 10, 64)` over the characters left, with
the value read so far: a character that is not a digit is a syntax error, and a
value past `2^64 - 1` is a range error, whichever comes first. -/
def parseUintLoop : Nat → List Char → Except NumError Nat
  | n, [] => .ok n
  | n, ch :: rest =>
    if ch.toNat < 48 ∨ 57 < ch.toNat then .error .ErrSyntax
    else if 2 ^ 64 ≤ n * 10 then .error .ErrRange
    else if 2 ^ 64 ≤ n * 10 + (ch.toNat - 48) then .error .ErrRange
    else parseUintLoop (n * 10 + (ch.toNat - 48)) rest

/-- Go `strconv.ParseInt(s, 10, 64)`: the value returned and the error, if
any.  A range error comes with the nearest bound. -/
def parseInt (s : List Char) : Int × Option NumError :=
  match s with
  | [] => (0, some .ErrSyntax)
  | sign :: rest =>
    let neg : Bool := sign.toNat = 45
    let digits : List Char := if sign.toNat = 43 ∨ sign.toNat = 45 then rest else s
    match digits with
    | [] => (0, some .ErrSyntax)
    | _ :: _ =>
      match parseUintLoop 0 digits with
      | .error .ErrSyntax => (0, some .ErrSyntax)
      | .error .ErrRange => if neg then (-(2 : Int) ^ 63, some .ErrRange)
                            else ((2 : Int) ^ 63 - 1, some .ErrRange)
      | .ok un =>
        if !neg ∧ 2 ^ 63 ≤ un then ((2 : Int) ^ 63 - 1, some .ErrRange)
        else if neg ∧ 2 ^ 63 < un then (-(2 : Int) ^ 63, some .ErrRange)
        else if neg then (-(un : Int), none)
        else ((un : Int), none)

/-- Go `strconv.Atoi(s)` on a 64-bit platform: the `int` returned and the
error, if any (its short path for texts under 19 bytes gives the same results
as `ParseInt`).  `quote` is `strconv.Quote`. -/
def strconvAtoi (quote : String → String) (s : String) : Int × Option GoError :=
  match parseInt s.toList with
  | (n, none) => (n, none)
  | (n, some .ErrSyntax) =>
    (n, some (.foreign ("strconv.Atoi: parsing " ++ quote s ++ ": invalid syntax")))
  | (n, some .ErrRange) =>
    (n, some (.foreign ("strconv.Atoi: parsing " ++ quote s ++ ": value out of range")))

/-- A value handed to `State.SetAttribute`: a Go `string` or a Go `int`. -/
inductive AttrValue where
  | string (s : String)
  | int (n : Int)
deriving DecidableEq, Repr

/-- The state of an import, as the attributes written into it, in order. -/
abbrev Attributes := List (String × AttrValue)

/-- Go `State.SetAttribute(ctx, path.Root(name), val)`; `convert` gives the
diagnostics of converting the value, and the attribute is written only when
they hold no error. -/
def Attributes.SetAttribute (convert : String → AttrValue → Diagnostics) (s : Attributes)
    (name : String) (val : AttrValue) : Attributes × Diagnostics :=
  let diags := convert name val
  if Diagnostics.HasError diags then (s, diags) else (s ++ [(name, val)], diags)

structure ImportStateRequest where
  ID : String

structure ImportStateResponse where
  State : Attributes
  Diagnostics : Diagnostics

/-! ## `internal/provider/repository_resource.go` -/

structure projectModel where
  Key : TfString
deriving DecidableEq, Repr

/-- Go `repositoryResourceModel`; `Project` is a pointer, `none` when nil. -/
structure repositoryResourceModel where
  Slug : TfString
  IsPrivate : TfBool
  Scm : TfString
  Project : Option projectModel
  Website : TfString
deriving DecidableEq, Repr

structure repositoryResource where
  client : Client

/-- Go `(*repositoryResourceModel).mapFrom`. -/
def repositoryResourceModel.mapFrom (m : repositoryResourceModel) (c : Repository) :
    repositoryResourceModel :=
  let project : projectModel := { Key := .known c.Project.Key }
  { m with
    Slug := .known c.Slug
    IsPrivate := .known c.IsPrivate
    Scm := .known c.Scm
    Project := some project
    Website := TfString.StringPointerValue c.Website }

/-- Go `(*repositoryResourceModel).mapTo` on the record `c` points to.  `Slug`
is not assigned; `m.Project.Key` dereferences `m.Project`, which panics when
the pointer is nil. -/
def repositoryResourceModel.mapTo (m : repositoryResourceModel) (c : Repository) :
    Outcome Repository :=
  match m.Project with
  | none => .panic nilDereference
  | some project =>
    .value { c with
      IsPrivate := m.IsPrivate.ValueBool
      Scm := m.Scm.ValueString
      Project := { c.Project with Key := project.Key.ValueString }
      Website := m.Website.ValueStringPointer }

/-- Go `(*repositoryResource).Read`, with a configured client.  The response comes in
as the framework made it and goes out as `Read` left it. -/
def repositoryResource.Read (r : repositoryResource) (w : World)
    (convert : repositoryResourceModel → Diagnostics)
    (req : ReadRequest repositoryResourceModel)
    (resp : ReadResponse repositoryResourceModel) :
    ReadResponse repositoryResourceModel :=
  let state := req.State.target
  let resp : ReadResponse repositoryResourceModel :=
    { resp with Diagnostics := Diagnostics.Append resp.Diagnostics req.State.diags }
  if Diagnostics.HasError resp.Diagnostics then resp
  else
    match (r.client.GetRepository w state.Slug.ValueString).result with
    | .error err =>
      match errorsAsStatusErr err with
      | some statusErr =>
        if statusErr.StatusCode = 404 then
          { resp with State := State.RemoveResource resp.State }
        else
          { resp with Diagnostics := (Diagnostics.AddError resp.Diagnostics
              "Error Reading Bitbucket Repository"
              ("Could not read Bitbucket repository " ++ state.Slug.ValueString ++ ": " ++ err.Error)) }
      | none =>
        { resp with Diagnostics := (Diagnostics.AddError resp.Diagnostics
            "Error Reading Bitbucket Repository"
            ("Could not read Bitbucket repository " ++ state.Slug.ValueString ++ ": " ++ err.Error)) }
    | .ok v =>
      let state := state.mapFrom v
      let (st, diags) := State.Set convert resp.State state
      { State := st, Diagnostics := Diagnostics.Append resp.Diagnostics diags }

/-! ## `internal/provider/branch_restriction_resource.go` -/

structure userModel where
  Uuid : TfString
deriving DecidableEq, Repr

structure groupModel where
  Slug : TfString
deriving DecidableEq, Repr

structure branchRestrictionResourceModel where
  ID : TfInt64
  RepositorySlug : TfString
  Kind : TfString
  BranchMatchKind : TfString
  Pattern : TfString
  Users : Slice userModel
  Groups : Slice groupModel
deriving DecidableEq, Repr

structure branchRestrictionResource where
  client : Client

/-- Go `(*branchRestrictionResourceModel).mapFrom`: both lists start from an
empty, non-nil slice and grow by `append`. -/
def branchRestrictionResourceModel.mapFrom (m : branchRestrictionResourceModel)
    (c : BranchRestriction) : branchRestrictionResourceModel :=
  { m with
    ID := .known c.ID
    Kind := .known c.Kind
    BranchMatchKind := .known c.BranchMatchKind
    Pattern := .known c.Pattern
    Users := (Slice.range c.Users).foldl
      (fun acc user => Slice.append acc { Uuid := .known user.Uuid }) (some [])
    Groups := (Slice.range c.Groups).foldl
      (fun acc group => Slice.append acc { Slug := .known group.Slug }) (some []) }

/-- Go `(*branchRestrictionResource).Read`, with a configured client.  The response comes in
as the framework made it and goes out as `Read` left it. -/
def branchRestrictionResource.Read (r : branchRestrictionResource) (w : World)
    (convert : branchRestrictionResourceModel → Diagnostics)
    (req : ReadRequest branchRestrictionResourceModel)
    (resp : ReadResponse branchRestrictionResourceModel) :
    ReadResponse branchRestrictionResourceModel :=
  let state := req.State.target
  let resp : ReadResponse branchRestrictionResourceModel :=
    { resp with Diagnostics := Diagnostics.Append resp.Diagnostics req.State.diags }
  if Diagnostics.HasError resp.Diagnostics then resp
  else
    match (r.client.GetBranchRestriction w state.RepositorySlug.ValueString state.ID.ValueInt64).result with
    | .error err =>
      match errorsAsStatusErr err with
      | some statusErr =>
        if statusErr.StatusCode = 404 then
          { resp with State := State.RemoveResource resp.State }
        else
          { resp with Diagnostics := (Diagnostics.AddError resp.Diagnostics
              "Error Reading Bitbucket Branch Restriction"
              ("Could not read Bitbucket branch restriction id " ++ state.ID.String ++ ": " ++ err.Error)) }
      | none =>
        { resp with Diagnostics := (Diagnostics.AddError resp.Diagnostics
            "Error Reading Bitbucket Branch Restriction"
            ("Could not read Bitbucket branch restriction id " ++ state.ID.String ++ ": " ++ err.Error)) }
    | .ok v =>
      let state := state.mapFrom v
      let (st, diags) := State.Set convert resp.State state
      { State := st, Diagnostics := Diagnostics.Append resp.Diagnostics diags }

/-- Go `(*branchRestrictionResourceModel).mapTo` on the record `c` points to:
both lists start from the nil slice and grow by `append`; `ID` is not
assigned. -/
def branchRestrictionResourceModel.mapTo (m : branchRestrictionResourceModel)
    (c : BranchRestriction) : BranchRestriction :=
  let users : Slice User := (Slice.range m.Users).foldl
    (fun acc user => Slice.append acc { Uuid := user.Uuid.ValueString }) none
  let groups : Slice Group := (Slice.range m.Groups).foldl
    (fun acc group => Slice.append acc { Slug := group.Slug.ValueString }) none
  { c with
    Kind := m.Kind.ValueString
    BranchMatchKind := m.BranchMatchKind.ValueString
    Pattern := m.Pattern.ValueString
    Users := users
    Groups := groups }

/-- Go `(*branchRestrictionResource).Create`, with a configured client; a panic of the
client call is a panic of `Create`. -/
def branchRestrictionResource.Create (r : branchRestrictionResource) (w : World)
    (convert : branchRestrictionResourceModel → Diagnostics)
    (req : CreateRequest branchRestrictionResourceModel)
    (resp : CreateResponse branchRestrictionResourceModel) :
    Outcome (CreateResponse branchRestrictionResourceModel) :=
  let plan := req.Plan.target
  let resp : CreateResponse branchRestrictionResourceModel :=
    { resp with Diagnostics := Diagnostics.Append resp.Diagnostics req.Plan.diags }
  if Diagnostics.HasError resp.Diagnostics then .value resp
  else
    let newBranchRestriction := plan.mapTo BranchRestriction.zero
    match (r.client.CreateBranchRestriction w plan.RepositorySlug.ValueString newBranchRestriction).result with
    | .panic reason => .panic reason
    | .error err =>
      .value { resp with Diagnostics := (Diagnostics.AddError resp.Diagnostics
          "Error creating branch restriction"
          ("Could not create branch restriction, unexpected error: " ++ err.Error)) }
    | .value v =>
      let plan := plan.mapFrom v
      let (st, diags) := State.Set convert resp.State plan
      .value { State := st, Diagnostics := Diagnostics.Append resp.Diagnostics diags }

/-- Go `(*branchRestrictionResource).Update`, with a configured client; a panic of the
client call is a panic of `Update`. -/
def branchRestrictionResource.Update (r : branchRestrictionResource) (w : World)
    (convert : branchRestrictionResourceModel → Diagnostics)
    (req : UpdateRequest branchRestrictionResourceModel)
    (resp : UpdateResponse branchRestrictionResourceModel) :
    Outcome (UpdateResponse branchRestrictionResourceModel) :=
  let plan := req.Plan.target
  let resp : UpdateResponse branchRestrictionResourceModel :=
    { resp with Diagnostics := Diagnostics.Append resp.Diagnostics req.Plan.diags }
  if Diagnostics.HasError resp.Diagnostics then .value resp
  else
    let newBranchRestriction := plan.mapTo BranchRestriction.zero
    match (r.client.UpdateBranchRestriction w plan.RepositorySlug.ValueString plan.ID.ValueInt64
      newBranchRestriction).result with
    | .panic reason => .panic reason
    | .error err =>
      .value { resp with Diagnostics := (Diagnostics.AddError resp.Diagnostics
          "Error Updating Bitbucket Branch Restriction"
          ("Could not update branch restriction, unexpected error: " ++ err.Error)) }
    | .value v =>
      let plan := plan.mapFrom v
      let (st, diags) := State.Set convert resp.State plan
      .value { State := st, Diagnostics := Diagnostics.Append resp.Diagnostics diags }

/-- Go `(*branchRestrictionResource).ImportState`; `quote` is `strconv.Quote`,
also the verb `%q` of `fmt`.  After the error of `strconv.Atoi` is reported
there is no `return`: both attributes are still written. -/
def branchRestrictionResource.ImportState (_r : branchRestrictionResource)
    (quote : String → String) (convert : String → AttrValue → Diagnostics)
    (req : ImportStateRequest) (resp : ImportStateResponse) : ImportStateResponse :=
  let idParts := stringsSplit req.ID ','
  if idParts.length ≠ 2 ∨ idParts.getD 0 "" = "" ∨ idParts.getD 1 "" = "" then
    { resp with Diagnostics := (Diagnostics.AddError resp.Diagnostics
        "Unexpected Import Identifier"
        ("Expected import identifier with format: repository_slug,id. Got: "
          ++ quote req.ID)) }
  else
    let (id, err) := strconvAtoi quote (idParts.getD 1 "")
    let resp : ImportStateResponse :=
      match err with
      | some err =>
        { resp with Diagnostics := (Diagnostics.AddError resp.Diagnostics
            "Error converting ID"
            ("Could not convert resource id, unexpected error: " ++ err.Error)) }
      | none => resp
    let (st, diags) := Attributes.SetAttribute convert resp.State "repository_slug"
      (.string (idParts.getD 0 ""))
    let resp : ImportStateResponse :=
      { State := st, Diagnostics := Diagnostics.Append resp.Diagnostics diags }
    let (st, diags) := Attributes.SetAttribute convert resp.State "id" (.int id)
    { State := st, Diagnostics := Diagnostics.Append resp.Diagnostics diags }

/-! ## `internal/provider/group_permission_resource.go` -/

structure groupPermissionResourceModel where
  RepositorySlug : TfString
  GroupSlug : TfString
  Permission : TfString
deriving DecidableEq, Repr

structure groupPermissionResource where
  client : Client

/-- Go `(*groupPermissionResourceModel).mapFrom`. -/
def groupPermissionResourceModel.mapFrom (m : groupPermissionResourceModel)
    (c : GroupPermission) : groupPermissionResourceModel :=
  { m with Permission := .known c.Permission }

/-- Go `(*groupPermissionResource).Read`, with a configured client.  The response comes in
as the framework made it and goes out as `Read` left it. -/
def groupPermissionResource.Read (r : groupPermissionResource) (w : World)
    (convert : groupPermissionResourceModel → Diagnostics)
    (req : ReadRequest groupPermissionResourceModel)
    (resp : ReadResponse groupPermissionResourceModel) :
    ReadResponse groupPermissionResourceModel :=
  let state := req.State.target
  let resp : ReadResponse groupPermissionResourceModel :=
    { resp with Diagnostics := Diagnostics.Append resp.Diagnostics req.State.diags }
  if Diagnostics.HasError resp.Diagnostics then resp
  else
    match (r.client.GetGroupPermission w state.RepositorySlug.ValueString state.GroupSlug.ValueString).result with
    | .error err =>
      match errorsAsStatusErr err with
      | some statusErr =>
        if statusErr.StatusCode = 404 then
          { resp with State := State.RemoveResource resp.State }
        else
          { resp with Diagnostics := (Diagnostics.AddError resp.Diagnostics
              "Error Reading Bitbucket Group Permission"
              ("Could not read Bitbucket group permission for repository " ++ state.RepositorySlug.ValueString ++ ": " ++ err.Error)) }
      | none =>
        { resp with Diagnostics := (Diagnostics.AddError resp.Diagnostics
            "Error Reading Bitbucket Group Permission"
            ("Could not read Bitbucket group permission for repository " ++ state.RepositorySlug.ValueString ++ ": " ++ err.Error)) }
    | .ok v =>
      let state := state.mapFrom v
      let (st, diags) := State.Set convert resp.State state
      { State := st, Diagnostics := Diagnostics.Append resp.Diagnostics diags }

/-- Go `(*groupPermissionResourceModel).mapTo` on the record `c` points to. -/
def groupPermissionResourceModel.mapTo (m : groupPermissionResourceModel)
    (c : GroupPermission) : GroupPermission :=
  { c with Permission := m.Permission.ValueString }

/-- Go `(*groupPermissionResource).Create`, with a configured client; a panic of the
client call is a panic of `Create`. -/
def groupPermissionResource.Create (r : groupPermissionResource) (w : World)
    (convert : groupPermissionResourceModel → Diagnostics)
    (req : CreateRequest groupPermissionResourceModel)
    (resp : CreateResponse groupPermissionResourceModel) :
    Outcome (CreateResponse groupPermissionResourceModel) :=
  let plan := req.Plan.target
  let resp : CreateResponse groupPermissionResourceModel :=
    { resp with Diagnostics := Diagnostics.Append resp.Diagnostics req.Plan.diags }
  if Diagnostics.HasError resp.Diagnostics then .value resp
  else
    let newGroupPermission := plan.mapTo GroupPermission.zero
    match (r.client.CreateGroupPermission w plan.RepositorySlug.ValueString
      plan.GroupSlug.ValueString newGroupPermission).result with
    | .panic reason => .panic reason
    | .error err =>
      .value { resp with Diagnostics := (Diagnostics.AddError resp.Diagnostics
          "Error creating group permission"
          ("Could not create group permission, unexpected error: " ++ err.Error)) }
    | .value v =>
      let plan := plan.mapFrom v
      let (st, diags) := State.Set convert resp.State plan
      .value { State := st, Diagnostics := Diagnostics.Append resp.Diagnostics diags }

/-- Go `(*groupPermissionResource).Update`, with a configured client; a panic of the
client call is a panic of `Update`. -/
def groupPermissionResource.Update (r : groupPermissionResource) (w : World)
    (convert : groupPermissionResourceModel → Diagnostics)
    (req : UpdateRequest groupPermissionResourceModel)
    (resp : UpdateResponse groupPermissionResourceModel) :
    Outcome (UpdateResponse groupPermissionResourceModel) :=
  let plan := req.Plan.target
  let resp : UpdateResponse groupPermissionResourceModel :=
    { resp with Diagnostics := Diagnostics.Append resp.Diagnostics req.Plan.diags }
  if Diagnostics.HasError resp.Diagnostics then .value resp
  else
    let newGroupPermission := plan.mapTo GroupPermission.zero
    match (r.client.UpdateGroupPermission w plan.RepositorySlug.ValueString
      plan.GroupSlug.ValueString newGroupPermission).result with
    | .panic reason => .panic reason
    | .error err =>
      .value { resp with Diagnostics := (Diagnostics.AddError resp.Diagnostics
          "Error Updating Bitbucket Group Permission"
          ("Could not update group permission, unexpected error: " ++ err.Error)) }
    | .value v =>
      let plan := plan.mapFrom v
      let (st, diags) := State.Set convert resp.State plan
      .value { State := st, Diagnostics := Diagnostics.Append resp.Diagnostics diags }

/-- Go `(*groupPermissionResource).ImportState`; `quote` is the verb `%q` of
`fmt`.  The tests on `idParts[0]` and `idParts[1]` are reached only when the
length is two. -/
def groupPermissionResource.ImportState (_r : groupPermissionResource)
    (quote : String → String) (convert : String → AttrValue → Diagnostics)
    (req : ImportStateRequest) (resp : ImportStateResponse) : ImportStateResponse :=
  let idParts := stringsSplit req.ID ','
  if idParts.length ≠ 2 ∨ idParts.getD 0 "" = "" ∨ idParts.getD 1 "" = "" then
    { resp with Diagnostics := (Diagnostics.AddError resp.Diagnostics
        "Unexpected Import Identifier"
        ("Expected import identifier with format: repository_slug,group_slug. Got: "
          ++ quote req.ID)) }
  else
    let (st, diags) := Attributes.SetAttribute convert resp.State "repository_slug"
      (.string (idParts.getD 0 ""))
    let resp : ImportStateResponse :=
      { State := st, Diagnostics := Diagnostics.Append resp.Diagnostics diags }
    let (st, diags) := Attributes.SetAttribute convert resp.State "group_slug"
      (.string (idParts.getD 1 ""))
    { State := st, Diagnostics := Diagnostics.Append resp.Diagnostics diags }

/-! ## `internal/provider/provider.go` -/

structure bitbucketProvider where
  version : String

structure bitbucketProviderModel where
  Host : TfString
  Workspace : TfString
  Token : TfString
deriving DecidableEq, Repr

structure ConfigureRequest where
  Config : Decoded bitbucketProviderModel

/-- Go `provider.ConfigureResponse`; the two data fields only ever receive the
`*client.Client`, `none` while they are nil. -/
structure ConfigureResponse where
  Diagnostics : Diagnostics
  DataSourceData : Option Client
  ResourceData : Option Client

/-- Go `(*bitbucketProvider).Configure`; `getenv` is `os.Getenv`.  The calls
to `tflog` write log lines only and are left out. -/
def bitbucketProvider.Configure (_p : bitbucketProvider) (getenv : String → String)
    (req : ConfigureRequest) (resp : ConfigureResponse) : ConfigureResponse :=
  let config := req.Config.target
  let resp : ConfigureResponse :=
    { resp with Diagnostics := Diagnostics.Append resp.Diagnostics req.Config.diags }
  if Diagnostics.HasError resp.Diagnostics then resp
  else
  let resp : ConfigureResponse :=
    if config.Host.IsUnknown then
      { resp with Diagnostics := (Diagnostics.AddAttributeError resp.Diagnostics "host"
          "Unknown Bitbucket API Host"
          ("The provider cannot create the Bitbucket API client as there is an unknown configuration value for the Bitbucket API host. "
            ++ "Either target apply the source of the value first, set the value statically in the configuration, or use the BITBUCKET_HOST environment variable.")) }
    else resp
  let resp : ConfigureResponse :=
    if config.Workspace.IsUnknown then
      { resp with Diagnostics := (Diagnostics.AddAttributeError resp.Diagnostics "workspace"
          "Unknown Bitbucket API Workspace"
          ("The provider cannot create the Bitbucket API client as there is an unknown configuration value for the Bitbucket API workspace. "
            ++ "Either target apply the source of the value first, set the value statically in the configuration, or use the BITBUCKET_WORKSPACE environment variable.")) }
    else resp
  let resp : ConfigureResponse :=
    if config.Token.IsUnknown then
      { resp with Diagnostics := (Diagnostics.AddAttributeError resp.Diagnostics "token"
          "Unknown Bitbucket API Token"
          ("The provider cannot create the Bitbucket API client as there is an unknown configuration value for the Bitbucket API token. "
            ++ "Either target apply the source of the value first, set the value statically in the configuration, or use the BITBUCKET_TOKEN environment variable.")) }
    else resp
  if Diagnostics.HasError resp.Diagnostics then resp
  else
    let host := getenv "BITBUCKET_HOST"
    let workspace := getenv "BITBUCKET_WORKSPACE"
    let token := getenv "BITBUCKET_TOKEN"
    let host := if !config.Host.IsNull then config.Host.ValueString else host
    let workspace := if !config.Workspace.IsNull then config.Workspace.ValueString else workspace
    let token := if !config.Token.IsNull then config.Token.ValueString else token
    let resp : ConfigureResponse :=
      if host = "" then
        { resp with Diagnostics := (Diagnostics.AddAttributeError resp.Diagnostics "host"
            "Missing Bitbucket API Host"
            ("The provider cannot create the Bitbucket API client as there is a missing or empty value for the Bitbucket API host. "
              ++ "Set the host value in the configuration or use the BITBUCKET_HOST environment variable. "
              ++ "If either is already set, ensure the value is not empty.")) }
      else resp
    let resp : ConfigureResponse :=
      if workspace = "" then
        { resp with Diagnostics := (Diagnostics.AddAttributeError resp.Diagnostics "workspace"
            "Missing Bitbucket API Workspace"
            ("The provider cannot create the Bitbucket API client as there is a missing or empty value for the Bitbucket API workspace. "
              ++ "Set the workspace value in the configuration or use the BITBUCKET_WORKSPACE environment variable. "
              ++ "If either is already set, ensure the value is not empty.")) }
      else resp
    let resp : ConfigureResponse :=
      if token = "" then
        { resp with Diagnostics := (Diagnostics.AddAttributeError resp.Diagnostics "token"
            "Missing Bitbucket API Token"
            ("The provider cannot create the Bitbucket API client as there is a missing or empty value for the Bitbucket API token. "
              ++ "Set the token value in the configuration or use the BITBUCKET_TOKEN environment variable. "
              ++ "If either is already set, ensure the value is not empty.")) }
      else resp
    if Diagnostics.HasError resp.Diagnostics then resp
    else
      match NewClient (some host) (some workspace) (some token) with
      | .error err =>
        { resp with Diagnostics := (Diagnostics.AddError resp.Diagnostics
            "Unable to Create Bitbucket API Client"
            ("An unexpected error occurred when creating the Bitbucket API client. "
              ++ "If the error is not clear, please contact the provider developers.\n\n"
              ++ "Bitbucket Client Error: " ++ err.Error)) }
      | .ok client =>
        { resp with DataSourceData := some client, ResourceData := some client }

/-! ## A model of `encoding/json`

The theorems below hold for every `World`.  This model of `json.Unmarshal` and
`json.Marshal` on the types of the client gives the concrete world `goWorld`
in which the code is evaluated on concrete responses.  Texts of the errors of
`encoding/json` are not modelled. -/

/-- Go `unicode.ReplacementChar`, also `utf8.RuneError`. -/
def runeError : Nat := 0xFFFD

/-- Go `utf8.DecodeRune`: the rune at the head of the bytes and its width; an
invalid or short encoding gives `RuneError` of width one. -/
def decodeRune : Bytes → Nat × Nat
  | [] => (runeError, 0)
  | p0 :: rest =>
    let p0 := p0.toNat
    if p0 < 0x80 then (p0, 1)
    else if p0 < 0xC2 ∨ 0xF4 < p0 then (runeError, 1)
    else
      let lo : Nat := if p0 = 0xE0 then 0xA0 else if p0 = 0xF0 then 0x90 else 0x80
      let hi : Nat := if p0 = 0xED then 0x9F else if p0 = 0xF4 then 0x8F else 0xBF
      let cont (b : UInt8) : Bool := 0x80 ≤ b.toNat && b.toNat ≤ 0xBF
      if p0 < 0xE0 then
        match rest with
        | b1 :: _ =>
          if b1.toNat < lo ∨ hi < b1.toNat then (runeError, 1)
          else ((p0 % 32) * 64 + b1.toNat % 64, 2)
        | _ => (runeError, 1)
      else if p0 < 0xF0 then
        match rest with
        | b1 :: b2 :: _ =>
          if b1.toNat < lo ∨ hi < b1.toNat then (runeError, 1)
          else if !cont b2 then (runeError, 1)
          else ((p0 % 16) * 4096 + (b1.toNat % 64) * 64 + b2.toNat % 64, 3)
        | _ => (runeError, 1)
      else
        match rest with
        | b1 :: b2 :: b3 :: _ =>
          if b1.toNat < lo ∨ hi < b1.toNat then (runeError, 1)
          else if !cont b2 then (runeError, 1)
          else if !cont b3 then (runeError, 1)
          else ((p0 % 8) * 262144 + (b1.toNat % 64) * 4096 + (b2.toNat % 64) * 64
            + b3.toNat % 64, 4)
        | _ => (runeError, 1)

/-- The runes of a byte string, as `for _, r := range string(b)` visits them;
the first argument counts bytes of the current rune still to skip. -/
def runesFrom : Nat → Bytes → List Nat
  | _, [] => []
  | skip + 1, _ :: rest => runesFrom skip rest
  | 0, b :: rest => (decodeRune (b :: rest)).1 :: runesFrom ((decodeRune (b :: rest)).2 - 1) rest

def runes (data : Bytes) : List Nat :=
  runesFrom 0 data

/-- A JSON value; a number keeps its literal. -/
inductive Json where
  | null
  | bool (b : Bool)
  | number (literal : List Nat)
  | string (s : String)
  | array (items : List Json)
  | object (members : List (String × Json))

/-- Go `maxNestingDepth` of the scanner. -/
def maxNestingDepth : Nat := 10000

def isSpace (r : Nat) : Bool :=
  r == 0x20 || r == 0x09 || r == 0x0D || r == 0x0A

def skipSpace : List Nat → List Nat
  | [] => []
  | r :: rest => if isSpace r then skipSpace rest else r :: rest

def hexDigit (r : Nat) : Option Nat :=
  if 48 ≤ r ∧ r ≤ 57 then some (r - 48)
  else if 97 ≤ r ∧ r ≤ 102 then some (r - 87)
  else if 65 ≤ r ∧ r ≤ 70 then some (r - 55)
  else none

/-- Go `getu4` on the text after a backslash: `uXXXX`. -/
def getu4 : List Nat → Option (Nat × List Nat)
  | u :: a :: b :: c :: d :: rest =>
    if u = 117 then
      match hexDigit a, hexDigit b, hexDigit c, hexDigit d with
      | some a, some b, some c, some d => some (a * 4096 + b * 256 + c * 16 + d, rest)
      | _, _, _, _ => none
    else none
  | _ => none

/-- One escape sequence, given the text after its backslash: the rune it
stands for and the text after it.  A surrogate that does not start a valid
pair becomes the replacement rune. -/
def unescape : List Nat → Option (Nat × List Nat)
  | [] => none
  | e :: rest =>
    if e = 34 ∨ e = 92 ∨ e = 47 then some (e, rest)
    else if e = 98 then some (8, rest)
    else if e = 102 then some (12, rest)
    else if e = 110 then some (10, rest)
    else if e = 114 then some (13, rest)
    else if e = 116 then some (9, rest)
    else
      match getu4 (e :: rest) with
      | none => none
      | some (rr, rest1) =>
        if 0xD800 ≤ rr ∧ rr < 0xE000 then
          match rest1 with
          | bs :: rest2 =>
            if bs = 92 then
              match getu4 rest2 with
              | some (rr1, rest3) =>
                if rr < 0xDC00 ∧ 0xDC00 ≤ rr1 ∧ rr1 < 0xE000 then
                  some ((rr - 0xD800) * 1024 + (rr1 - 0xDC00) + 0x10000, rest3)
                else some (runeError, rest1)
              | none => some (runeError, rest1)
            else some (runeError, rest1)
          | [] => some (runeError, rest1)
        else some (rr, rest1)

/-- The text of a string literal after its opening quote: the string and the
text after the closing quote. -/
def scanString : Nat → List Nat → List Nat → Option (String × List Nat)
  | 0, _, _ => none
  | fuel + 1, acc, cs =>
    match cs with
    | [] => none
    | r :: rest =>
      if r = 34 then some (String.mk (acc.reverse.map Char.ofNat), rest)
      else if r = 92 then
        match unescape rest with
        | none => none
        | some (c, rest1) => scanString fuel (c :: acc) rest1
      else if r < 0x20 then none
      else scanString fuel (r :: acc) rest

def isDigit (r : Nat) : Bool :=
  48 ≤ r && r ≤ 57

def takeDigits : List Nat → List Nat × List Nat
  | [] => ([], [])
  | r :: rest =>
    if isDigit r then ((takeDigits rest).1.cons r, (takeDigits rest).2) else ([], r :: rest)

/-- A number literal at the head of the text. -/
def scanNumber (cs : List Nat) : Option (List Nat × List Nat) :=
  let signed : List Nat × List Nat :=
    match cs with
    | r :: rest => if r = 45 then ([45], rest) else ([], cs)
    | [] => ([], cs)
  let whole : Option (List Nat × List Nat) :=
    match signed.2 with
    | [] => none
    | d :: rest =>
      if d = 48 then some (signed.1 ++ [48], rest)
      else if isDigit d then some (signed.1 ++ d :: (takeDigits rest).1, (takeDigits rest).2)
      else none
  match whole with
  | none => none
  | some (lit, cs1) =>
    let frac : Option (List Nat × List Nat) :=
      match cs1 with
      | r :: rest =>
        if r = 46 then
          if (takeDigits rest).1 = [] then none
          else some (lit ++ 46 :: (takeDigits rest).1, (takeDigits rest).2)
        else some (lit, cs1)
      | [] => some (lit, cs1)
    match frac with
    | none => none
    | some (lit1, cs2) =>
      match cs2 with
      | r :: rest =>
        if r = 101 ∨ r = 69 then
          let sign : List Nat × List Nat :=
            match rest with
            | s :: rest1 => if s = 43 ∨ s = 45 then ([s], rest1) else ([], rest)
            | [] => ([], rest)
          if (takeDigits sign.2).1 = [] then none
          else some (lit1 ++ r :: sign.1 ++ (takeDigits sign.2).1, (takeDigits sign.2).2)
        else some (lit1, cs2)
      | [] => some (lit1, cs2)

/-- The text with a leading `word` removed. -/
def stripWord : List Nat → List Nat → Option (List Nat)
  | [], cs => some cs
  | _ :: _, [] => none
  | x :: word, r :: cs => if x = r then stripWord word cs else none

mutual

/-- One value at the head of the text (leading space already skipped), at the
given nesting depth. -/
def parseValue : Nat → Nat → List Nat → Option (Json × List Nat)
  | 0, _, _ => none
  | fuel + 1, depth, cs =>
    match cs with
    | [] => none
    | r :: rest =>
      if r = 123 then
        if maxNestingDepth ≤ depth then none
        else
          match skipSpace rest with
          | [] => none
          | r1 :: rest1 =>
            if r1 = 125 then some (.object [], rest1)
            else parseMembers fuel (depth + 1) [] (r1 :: rest1)
      else if r = 91 then
        if maxNestingDepth ≤ depth then none
        else
          match skipSpace rest with
          | [] => none
          | r1 :: rest1 =>
            if r1 = 93 then some (.array [], rest1)
            else parseElements fuel (depth + 1) [] (r1 :: rest1)
      else if r = 34 then
        match scanString (rest.length + 1) [] rest with
        | none => none
        | some (s, rest1) => some (.string s, rest1)
      else if r = 116 then (stripWord [116, 114, 117, 101] cs).map (fun rest1 => (.bool true, rest1))
      else if r = 102 then
        (stripWord [102, 97, 108, 115, 101] cs).map (fun rest1 => (.bool false, rest1))
      else if r = 110 then (stripWord [110, 117, 108, 108] cs).map (fun rest1 => (.null, rest1))
      else
        match scanNumber cs with
        | none => none
        | some (lit, rest1) => some (.number lit, rest1)

/-- The members of an object from the start of a key on. -/
def parseMembers : Nat → Nat → List (String × Json) → List Nat → Option (Json × List Nat)
  | 0, _, _, _ => none
  | fuel + 1, depth, acc, cs =>
    match cs with
    | [] => none
    | q :: rest =>
      if q = 34 then
        match scanString (rest.length + 1) [] rest with
        | none => none
        | some (key, rest1) =>
          match skipSpace rest1 with
          | [] => none
          | colon :: rest2 =>
            if colon = 58 then
              match parseValue fuel depth (skipSpace rest2) with
              | none => none
              | some (v, rest3) =>
                match skipSpace rest3 with
                | [] => none
                | sep :: rest4 =>
                  if sep = 44 then parseMembers fuel depth (acc ++ [(key, v)]) (skipSpace rest4)
                  else if sep = 125 then some (.object (acc ++ [(key, v)]), rest4)
                  else none
            else none
      else none

/-- The elements of an array from the start of an element on. -/
def parseElements : Nat → Nat → List Json → List Nat → Option (Json × List Nat)
  | 0, _, _, _ => none
  | fuel + 1, depth, acc, cs =>
    match parseValue fuel depth cs with
    | none => none
    | some (v, rest) =>
      match skipSpace rest with
      | [] => none
      | sep :: rest1 =>
        if sep = 44 then parseElements fuel depth (acc ++ [v]) (skipSpace rest1)
        else if sep = 93 then some (.array (acc ++ [v]), rest1)
        else none

end

/-- The scanner and value builder of `encoding/json` on a whole document:
`none` stands for a syntax error.  Every step of the parser consumes input, so
the length of the text is fuel enough. -/
def Json.parse (data : Bytes) : Option Json :=
  match parseValue ((runes data).length + 1) 0 (skipSpace (runes data)) with
  | none => none
  | some (v, rest) => if skipSpace rest = [] then some v else none


/-- Go `foldRune` of `encoding/json`, on the runes that can meet a letter of
an ASCII field name: the letters themselves, U+017F and U+212A. -/
def foldRune (c : Char) : Char :=
  if c.isLower then c.toUpper
  else if c.toNat = 0x17F then Char.ofNat 83
  else if c.toNat = 0x212A then Char.ofNat 75
  else c

/-- Whether an object key names the field with this JSON name: exactly, or up
to case folding. -/
def nameMatches (field key : String) : Bool :=
  key == field || key.toList.map foldRune == field.toList.map foldRune

/-- Decoding into a struct that holds `old`: an object fills fields member by
member, `null` leaves the struct alone, any other value is a type error. -/
def decodeStruct {σ : Type} (field : σ → String → Json → Option σ) (old : σ) :
    Json → Option σ
  | .object members => members.foldlM (fun acc kv => field acc kv.1 kv.2) old
  | .null => some old
  | _ => none

def decodeString (old : String) : Json → Option String
  | .string s => some s
  | .null => some old
  | _ => none

def decodeBool (old : Bool) : Json → Option Bool
  | .bool b => some b
  | .null => some old
  | _ => none

/-- Decoding into a `*string`. -/
def decodeStringPointer : Json → Option (Option String)
  | .string s => some (some s)
  | .null => some none
  | _ => none

/-- Go `strconv.ParseInt(lit, 10, 64)` on a JSON number literal. -/
def parseInt64 (lit : List Nat) : Option Int :=
  let digits : List Nat :=
    match lit with
    | r :: rest => if r = 45 then rest else lit
    | [] => lit
  if digits.all isDigit then
    let magnitude : Nat := digits.foldl (fun acc d => acc * 10 + (d - 48)) 0
    let value : Int := if lit.head? = some 45 then - (magnitude : Int) else magnitude
    if - (2 : Int) ^ 63 ≤ value ∧ value < (2 : Int) ^ 63 then some value else none
  else none

def decodeInt (old : Int) : Json → Option Int
  | .number lit => parseInt64 lit
  | .null => some old
  | _ => none

/-- Decoding into a slice: `null` gives the nil slice, an array a non-nil
slice whose elements are decoded from zero values. -/
def decodeSlice {α : Type} (elem : Json → Option α) : Json → Option (Slice α)
  | .array items => (items.mapM elem).map some
  | .null => some none
  | _ => none

def decodeError (old : Error) : Json → Option Error :=
  decodeStruct (fun e key v =>
    if nameMatches "message" key then (decodeString e.Message v).map (fun s => { e with Message := s })
    else some e) old

def decodeResponseErr : Json → Option ResponseErr :=
  decodeStruct (fun r key v =>
    if nameMatches "error" key then
      (decodeError r.ErrorDetails v).map (fun e => { r with ErrorDetails := e })
    else some r) { ErrorDetails := { Message := "" } }

def decodeProject (old : Project) : Json → Option Project :=
  decodeStruct (fun p key v =>
    if nameMatches "key" key then (decodeString p.Key v).map (fun s => { p with Key := s })
    else some p) old

def decodeRepository : Json → Option Repository :=
  decodeStruct (fun r key v =>
    if nameMatches "slug" key then (decodeString r.Slug v).map (fun s => { r with Slug := s })
    else if nameMatches "is_private" key then
      (decodeBool r.IsPrivate v).map (fun b => { r with IsPrivate := b })
    else if nameMatches "scm" key then (decodeString r.Scm v).map (fun s => { r with Scm := s })
    else if nameMatches "project" key then
      (decodeProject r.Project v).map (fun q => { r with Project := q })
    else if nameMatches "website" key then
      (decodeStringPointer v).map (fun q => { r with Website := q })
    else some r)
    { Slug := "", IsPrivate := false, Scm := "", Project := { Key := "" }, Website := none }

def decodeUser : Json → Option User :=
  decodeStruct (fun u key v =>
    if nameMatches "uuid" key then (decodeString u.Uuid v).map (fun s => { u with Uuid := s })
    else some u) { Uuid := "" }

def decodeGroup : Json → Option Group :=
  decodeStruct (fun g key v =>
    if nameMatches "slug" key then (decodeString g.Slug v).map (fun s => { g with Slug := s })
    else some g) { Slug := "" }

def decodeBranchRestriction : Json → Option BranchRestriction :=
  decodeStruct (fun r key v =>
    if nameMatches "id" key then (decodeInt r.ID v).map (fun n => { r with ID := n })
    else if nameMatches "kind" key then (decodeString r.Kind v).map (fun s => { r with Kind := s })
    else if nameMatches "branch_match_kind" key then
      (decodeString r.BranchMatchKind v).map (fun s => { r with BranchMatchKind := s })
    else if nameMatches "pattern" key then
      (decodeString r.Pattern v).map (fun s => { r with Pattern := s })
    else if nameMatches "users" key then
      (decodeSlice decodeUser v).map (fun l => { r with Users := l })
    else if nameMatches "groups" key then
      (decodeSlice decodeGroup v).map (fun l => { r with Groups := l })
    else some r)
    { ID := 0, Kind := "", BranchMatchKind := "", Pattern := "", Users := none, Groups := none }

def decodeGroupPermission : Json → Option GroupPermission :=
  decodeStruct (fun g key v =>
    if nameMatches "permission" key then
      (decodeString g.Permission v).map (fun s => { g with Permission := s })
    else some g) { Permission := "" }

def decodePaginated {T : Type} (elem : Json → Option T) : Json → Option (Paginated T) :=
  decodeStruct (fun q key v =>
    if nameMatches "values" key then (decodeSlice elem v).map (fun l => { q with Values := l })
    else some q) { Values := none }

/-- Go `json.Unmarshal(data, &v)` with `v` a zero value, given the decoder of
the type of `v`. -/
def jsonUnmarshal {α : Type} (decode : Json → Option α) (data : Bytes) : Except GoError α :=
  match Json.parse data with
  | none => .error (.foreign "json: syntax error")
  | some j =>
    match decode j with
    | none => .error (.foreign "json: cannot unmarshal value into Go value")
    | some v => .ok v

/-- The text the encoder writes for one rune of a string, with HTML escaping
on (Go 1.22 and later). -/
def encodeRune (c : Char) : List Char :=
  let n := c.toNat
  let bs : Char := Char.ofNat 92
  if n = 92 ∨ n = 34 then [bs, c]
  else if n = 8 then [bs, Char.ofNat 98]
  else if n = 12 then [bs, Char.ofNat 102]
  else if n = 10 then [bs, Char.ofNat 110]
  else if n = 13 then [bs, Char.ofNat 114]
  else if n = 9 then [bs, Char.ofNat 116]
  else if n < 0x20 ∨ n = 60 ∨ n = 62 ∨ n = 38 then
    [bs, Char.ofNat 117, Char.ofNat 48, Char.ofNat 48, Nat.digitChar (n / 16), Nat.digitChar (n % 16)]
  else if n = 0x2028 ∨ n = 0x2029 then
    [bs, Char.ofNat 117, Char.ofNat 50, Char.ofNat 48, Char.ofNat 50, Nat.digitChar (n % 16)]
  else [c]

/-- A string as a JSON string literal. -/
def encodeString (s : String) : String :=
  "\"" ++ String.mk (s.toList.map encodeRune).flatten ++ "\""

def encodeBool (b : Bool) : String :=
  if b then "true" else "false"

/-- A slice as JSON: `null` for the nil slice. -/
def encodeSlice {α : Type} (elem : α → String) : Slice α → String
  | none => "null"
  | some items => "[" ++ ",".intercalate (items.map elem) ++ "]"

def encodeRepository (r : Repository) : String :=
  "\x7b\"slug\":" ++ encodeString r.Slug
    ++ ",\"is_private\":" ++ encodeBool r.IsPrivate
    ++ ",\"scm\":" ++ encodeString r.Scm
    ++ ",\"project\":\x7b\"key\":" ++ encodeString r.Project.Key ++ "\x7d"
    ++ ",\"website\":" ++ (match r.Website with
      | none => "null"
      | some site => encodeString site) ++ "\x7d"

def encodeBranchRestriction (r : BranchRestriction) : String :=
  "\x7b\"id\":" ++ decimal r.ID
    ++ ",\"kind\":" ++ encodeString r.Kind
    ++ ",\"branch_match_kind\":" ++ encodeString r.BranchMatchKind
    ++ ",\"pattern\":" ++ encodeString r.Pattern
    ++ ",\"users\":" ++ encodeSlice (fun u => "\x7b\"uuid\":" ++ encodeString u.Uuid ++ "\x7d") r.Users
    ++ ",\"groups\":" ++ encodeSlice (fun g => "\x7b\"slug\":" ++ encodeString g.Slug ++ "\x7d") r.Groups
    ++ "\x7d"

def encodeGroupPermission (g : GroupPermission) : String :=
  "\x7b\"permission\":" ++ encodeString g.Permission ++ "\x7d"

/-- The bytes of a text (UTF-8). -/
def bytesOf (s : String) : Bytes :=
  (s.toList.map String.utf8EncodeChar).flatten

/-- The world whose `encoding/json` is the model above, for a given URL parser
and server. -/
def goWorld (urlParse : String → Option GoError) (Do : Request → Except GoError Response) :
    World :=
  { urlParse := urlParse
    Do := Do
    unmarshalResponseErr := jsonUnmarshal decodeResponseErr
    unmarshalRepository := jsonUnmarshal decodeRepository
    unmarshalRepositories := jsonUnmarshal (decodePaginated decodeRepository)
    unmarshalBranchRestriction := jsonUnmarshal decodeBranchRestriction
    unmarshalBranchRestrictions := jsonUnmarshal (decodePaginated decodeBranchRestriction)
    unmarshalGroupPermission := jsonUnmarshal decodeGroupPermission
    unmarshalGroupPermissions := jsonUnmarshal (decodePaginated decodeGroupPermission)
    marshalRepository := fun r => .ok (bytesOf (encodeRepository r))
    marshalBranchRestriction := fun r => .ok (bytesOf (encodeBranchRestriction r))
    marshalGroupPermission := fun g => .ok (bytesOf (encodeGroupPermission g)) }

/-- A server that answers every request with the same status and body, behind
a URL parser that accepts every URL. -/
def fixedServer (status : Int) (body : String) : World :=
  goWorld (fun _ => none) (fun _ => .ok { StatusCode := status, Body := .ok (bytesOf body) })

/-! ## `net/url` and `net/http`: where a request for a URL text goes

`http.NewRequest` keeps the result of `url.Parse`, not the text it was given,
and the transport writes `URL.RequestURI()` to the host of that URL; the
fragment is never sent.  Go strings are byte strings, so the functions below
work on the UTF-8 bytes of the text; the byte values are written in decimal.
What `parseAuthority` makes of the authority is a parameter. -/

namespace neturl

/-- The fields of Go `url.URL` that `Parse` fills, without the user information. -/
structure URL where
  Scheme : Bytes
  Opaque : Bytes
  Host : Bytes
  Path : Bytes
  RawPath : Bytes
  ForceQuery : Bool
  RawQuery : Bytes
  Fragment : Bytes
deriving DecidableEq, Repr

/-- The zero value of `url.URL`. -/
def URL.zero : URL :=
  { Scheme := [], Opaque := [], Host := [], Path := [], RawPath := [], ForceQuery := false
    RawQuery := [], Fragment := [] }

/-- One byte of Go `stringContainsCTLByte`: `b < ' ' || b == 0x7f`. -/
def isCTL (b : UInt8) : Bool :=
  decide (b.toNat < 32) || decide (b.toNat = 127)

/-- ASCII letters: `'a' <= c && c <= 'z' || 'A' <= c && c <= 'Z'`. -/
def isLetter (c : UInt8) : Bool :=
  (decide (97 ≤ c.toNat) && decide (c.toNat ≤ 122))
    || (decide (65 ≤ c.toNat) && decide (c.toNat ≤ 90))

/-- ASCII digits: `'0' <= c && c <= '9'`. -/
def isDigit (c : UInt8) : Bool :=
  decide (48 ≤ c.toNat) && decide (c.toNat ≤ 57)

/-- Go `ishex`. -/
def ishex (c : UInt8) : Bool :=
  isDigit c || (decide (97 ≤ c.toNat) && decide (c.toNat ≤ 102))
    || (decide (65 ≤ c.toNat) && decide (c.toNat ≤ 70))

/-- Go `unhex`. -/
def unhex (c : UInt8) : Nat :=
  if 48 ≤ c.toNat ∧ c.toNat ≤ 57 then c.toNat - 48
  else if 97 ≤ c.toNat ∧ c.toNat ≤ 102 then c.toNat - 97 + 10
  else if 65 ≤ c.toNat ∧ c.toNat ≤ 70 then c.toNat - 65 + 10
  else 0

/-- The unreserved characters of RFC 3986: letters, digits and `-` (45),
`_` (95), `.` (46), `~` (126). -/
def unreserved (c : UInt8) : Bool :=
  isLetter c || isDigit c || decide (c.toNat = 45) || decide (c.toNat = 95)
    || decide (c.toNat = 46) || decide (c.toNat = 126)

/-- Go `shouldEscape(c, encodePath)`: unreserved characters are left alone, and
of the reserved `$ & + , / : ; = ? @` only `?` is escaped in a path; every
other byte is escaped. -/
def shouldEscape (c : UInt8) : Bool :=
  !(unreserved c || decide (c.toNat = 36) || decide (c.toNat = 38) || decide (c.toNat = 43)
    || decide (c.toNat = 44) || decide (c.toNat = 47) || decide (c.toNat = 58)
    || decide (c.toNat = 59) || decide (c.toNat = 61) || decide (c.toNat = 64))

/-- Go `unescape(s, mode)` for the path and the fragment, where it differs from
the identity only by decoding `%XX`; it fails on a `%` that two hexadecimal
digits do not follow. -/
def unescape : Bytes → Option Bytes
  | [] => some []
  | c :: rest =>
    if c.toNat = 37 then
      match rest with
      | h1 :: h2 :: rest' =>
        if ishex h1 && ishex h2 then
          (unescape rest').map (fun p => UInt8.ofNat (unhex h1 * 16 + unhex h2) :: p)
        else none
      | _ => none
    else (unescape rest).map (fun p => c :: p)

/-- The digit `"0123456789ABCDEF"[n]` of Go `upperhex`. -/
def upperhex (n : Nat) : UInt8 :=
  if n < 10 then UInt8.ofNat (48 + n) else UInt8.ofNat (55 + n)

/-- Go `escape(s, encodePath)`: `%XX` for every byte that `shouldEscape`. -/
def escape (s : Bytes) : Bytes :=
  (s.map (fun c =>
    if shouldEscape c then [37, upperhex (c.toNat / 16), upperhex (c.toNat % 16)]
    else [c])).flatten

/-- Go `validEncoded(s, encodePath)`: the sub-delimiters
`! $ & ' ( ) * + , ; = : @`, the brackets and `%` are accepted, and every
other byte that `shouldEscape` does not name. -/
def validEncoded (s : Bytes) : Bool :=
  s.all (fun c =>
    decide (c.toNat ∈ [33, 36, 38, 39, 40, 41, 42, 43, 44, 59, 61, 58, 64, 91, 93, 37])
      || !shouldEscape c)

/-- The bytes Go `getScheme` accepts in a scheme after its first letter:
`'0' <= c && c <= '9' || c == '+' || c == '-' || c == '.'`. -/
def isSchemeMark (c : UInt8) : Bool :=
  isDigit c || decide (c.toNat = 43) || decide (c.toNat = 45) || decide (c.toNat = 46)

/-- The loop of Go `getScheme`; `first` is `i == 0` and `scheme` is `rawURL[:i]`.
The result is `none` for the error `missing protocol scheme`. -/
def getSchemeLoop (rawURL : Bytes) : Bool → Bytes → Bytes → Option (Bytes × Bytes)
  | _, _, [] => some ([], rawURL)
  | first, scheme, c :: rest =>
    if isLetter c then getSchemeLoop rawURL false (scheme ++ [c]) rest
    else if isSchemeMark c then
      if first then some ([], rawURL) else getSchemeLoop rawURL false (scheme ++ [c]) rest
    else if c.toNat = 58 then
      if first then none else some (scheme, rest)
    else some ([], rawURL)

/-- Go `getScheme`: the scheme and the text after its colon. -/
def getScheme (rawURL : Bytes) : Option (Bytes × Bytes) :=
  getSchemeLoop rawURL true [] rawURL

/-- One byte of Go `strings.ToLower` on ASCII text. -/
def toLower (c : UInt8) : UInt8 :=
  if 65 ≤ c.toNat ∧ c.toNat ≤ 90 then UInt8.ofNat (c.toNat + 32) else c

/-- Go `strings.Cut(s, sep)` for a separator of one byte: the text before the
first separator and the text after it; the whole text and nothing when there
is no separator. -/
def cut (sep : Nat) : Bytes → Bytes × Bytes
  | [] => ([], [])
  | c :: rest =>
    if c.toNat = sep then ([], rest) else (c :: (cut sep rest).1, (cut sep rest).2)

/-- Go `strings.HasPrefix(s, prefix)`. -/
def hasPrefix (s : Bytes) : List Nat → Bool
  | [] => true
  | p :: ps =>
    match s with
    | [] => false
    | c :: rest => decide (c.toNat = p) && hasPrefix rest ps

/-- Go `(*URL).setPath` and the end of `parse`: the path is unescaped, and the
text is kept as `RawPath` when it is not the default escaping of the path. -/
def setPath (u : URL) (p : Bytes) : Option URL :=
  match unescape p with
  | none => none
  | some path =>
    some { u with Path := path, RawPath := if p = escape path then [] else p }

/-- Go `parse(rawURL, false)` after the query is split off. -/
def parseRest (parseAuthority : Bytes → Option Bytes) (u : URL) (rest : Bytes) : Option URL :=
  if ¬ hasPrefix rest [47] ∧ u.Scheme ≠ [] then
    some { u with Opaque := rest }
  else if ¬ hasPrefix rest [47] ∧ (cut 47 rest).1.any (fun c => decide (c.toNat = 58)) then
    none
  else if (u.Scheme ≠ [] ∨ ¬ hasPrefix rest [47, 47, 47]) ∧ hasPrefix rest [47, 47] then
    match parseAuthority (cut 47 (rest.drop 2)).1 with
    | none => none
    | some host =>
      setPath { u with Host := host }
        (if (rest.drop 2).any (fun c => decide (c.toNat = 47)) then
          47 :: (cut 47 (rest.drop 2)).2 else [])
  else setPath u rest

/-- Go `parse(rawURL, false)`.  `parseAuthority` gives the host of an
authority as `http.NewRequest` keeps it, `none` when the authority is rejected. -/
def parse (parseAuthority : Bytes → Option Bytes) (rawURL : Bytes) : Option URL :=
  if rawURL.any isCTL then none
  else if rawURL.map UInt8.toNat = [42] then some { URL.zero with Path := rawURL }
  else
    match getScheme rawURL with
    | none => none
    | some (scheme, rest) =>
      if rest.getLast?.map UInt8.toNat = some 63
          ∧ (rest.filter (fun c => decide (c.toNat = 63))).length = 1 then
        parseRest parseAuthority
          { URL.zero with Scheme := scheme.map toLower, ForceQuery := true } rest.dropLast
      else
        parseRest parseAuthority
          { URL.zero with Scheme := scheme.map toLower, RawQuery := (cut 63 rest).2 }
          (cut 63 rest).1

/-- Go `url.Parse`: the fragment is cut off at the first `#` and unescaped. -/
def Parse (parseAuthority : Bytes → Option Bytes) (rawURL : Bytes) : Option URL :=
  match parse parseAuthority (cut 35 rawURL).1 with
  | none => none
  | some u =>
    if (cut 35 rawURL).2 = [] then some u
    else
      match unescape (cut 35 rawURL).2 with
      | none => none
      | some frag => some { u with Fragment := frag }

/-- Go `(*URL).EscapedPath`. -/
def URL.EscapedPath (u : URL) : Bytes :=
  if u.RawPath ≠ [] ∧ validEncoded u.RawPath = true ∧ unescape u.RawPath = some u.Path then
    u.RawPath
  else if u.Path.map UInt8.toNat = [42] then u.Path
  else escape u.Path

/-- Go `(*URL).RequestURI`: what the transport writes in the request line. -/
def URL.RequestURI (u : URL) : Bytes :=
  (if u.Opaque = [] then
    (if u.EscapedPath = [] then [47] else u.EscapedPath)
  else if hasPrefix u.Opaque [47, 47] then u.Scheme ++ 58 :: u.Opaque
  else u.Opaque)
    ++ (if u.ForceQuery = true ∨ u.RawQuery ≠ [] then 63 :: u.RawQuery else [])

end neturl

/-- Where the transport sends a request: scheme and host of the parsed URL and
the request URI written in the request line. -/
structure Target where
  Scheme : Bytes
  Host : Bytes
  RequestURI : Bytes
deriving DecidableEq, Repr

/-- The target of a request that `http.NewRequest` makes for a URL text;
`none` when `url.Parse` rejects the text. -/
def requestTarget (parseAuthority : Bytes → Option Bytes) (url : String) : Option Target :=
  (neturl.Parse parseAuthority (bytesOf url)).map
    (fun u => { Scheme := u.Scheme, Host := u.Host, RequestURI := u.RequestURI })

/-! ## Values used to evaluate the code -/

/-- Go `req.Header.Add("Authorization", "Basic "+c.Token)` on a request. -/
def Client.authorize (c : Client) (req : Request) : Request :=
  { req with Header := req.Header.Add "Authorization" ("Basic " ++ c.Token) }

/-- What `doRequest` makes of the answer of `HTTPClient.Do` (client.go, from
`res, err := c.HTTPClient.Do(req)` on): the error of the round trip or of
reading the body, the body for a status in 200..299, and otherwise the error
made of the status and of the decoded message. -/
def World.readAnswer (w : World) (answer : Except GoError Response) : Except GoError Bytes :=
  match answer with
  | .error err => .error err
  | .ok res =>
    match res.Body with
    | .error err => .error err
    | .ok body =>
      if res.StatusCode < 200 ∨ res.StatusCode > 299 then
        match w.unmarshalResponseErr body with
        | .error _ =>
          .error (.errorf ("the Bitbucket API returned, status: " ++ decimal res.StatusCode))
        | .ok responseErr =>
          if res.StatusCode = 404 then
            .error (.statusErr
              { StatusCode := res.StatusCode
                Message := "the Bitbucket API returned, status: " ++ decimal res.StatusCode
                  ++ " message: " ++ responseErr.ErrorDetails.Message })
          else
            .error (.errorf ("the Bitbucket API returned, status: " ++ decimal res.StatusCode
              ++ " message: " ++ responseErr.ErrorDetails.Message))
      else
        .ok body

/-- A configured client. -/
def sampleClient : Client :=
  { Host := "https://api.bitbucket.org/2.0", Workspace := "acme", Token := "dG9rZW4=" }

/-- A request as `GetRepository` builds it. -/
def sampleRequest : Request :=
  { Method := "GET", URL := "https://api.bitbucket.org/2.0/repositories/acme/site"
    Header := [], Body := none }

/-- The error body Bitbucket sends with a 404. -/
def notFoundBody : String :=
  "\x7b\"type\": \"error\", \"error\": \x7b\"message\": \"Repository acme/site not found\"\x7d\x7d"

/-- The prior state of a repository resource. -/
def sampleRepositoryModel : repositoryResourceModel :=
  { Slug := .known "site", IsPrivate := .known true, Scm := .known "git"
    Project := some { Key := .known "WEB" }, Website := .null }

/-- The prior state of a branch restriction resource. -/
def sampleBranchRestrictionModel : branchRestrictionResourceModel :=
  { ID := .known 7, RepositorySlug := .known "site", Kind := .known "push"
    BranchMatchKind := .known "glob", Pattern := .known "main"
    Users := some [{ Uuid := .known "\x7b1f0e\x7d" }], Groups := none }

/-- The prior state of a group permission resource. -/
def sampleGroupPermissionModel : groupPermissionResourceModel :=
  { RepositorySlug := .known "site", GroupSlug := .known "developers"
    Permission := .known "write" }

/-- What `doRequest` makes of a 404 with `notFoundBody`. -/
def notFoundErr : StatusErr :=
  { StatusCode := 404
    Message := "the Bitbucket API returned, status: 404 message: Repository acme/site not found" }

/-- The error body of a failing server. -/
def serverErrorBody : String :=
  "\x7b\"error\": \x7b\"message\": \"Something went wrong\"\x7d\x7d"

/-- What `doRequest` makes of a 500 with `serverErrorBody`. -/
def serverErr : GoError :=
  .errorf "the Bitbucket API returned, status: 500 message: Something went wrong"

/-- One guarded `resp.Diagnostics.AddAttributeError(...)` of `Configure`. -/
def ConfigureResponse.addAttributeErrorIf (resp : ConfigureResponse) (b : Prop) [Decidable b]
    (name summary detail : String) : ConfigureResponse :=
  if b then
    { resp with Diagnostics := Diagnostics.AddAttributeError resp.Diagnostics name summary detail }
  else resp

/-- The resolved value of a provider setting, as the specification words it:
the configuration value when it is non-null, the environment variable
otherwise. -/
def resolved (config : TfString) (env : String) : String :=
  if config.IsNull then env else config.ValueString

/-- The client made of the three resolved values. -/
def resolvedClient (config : bitbucketProviderModel) (getenv : String → String) : Client :=
  { Host := resolved config.Host (getenv "BITBUCKET_HOST")
    Workspace := resolved config.Workspace (getenv "BITBUCKET_WORKSPACE")
    Token := resolved config.Token (getenv "BITBUCKET_TOKEN") }

/-- No configuration value is unknown and every resolved value is non-empty. -/
def usable (config : bitbucketProviderModel) (getenv : String → String) : Prop :=
  config.Host.IsUnknown = false ∧ config.Workspace.IsUnknown = false
    ∧ config.Token.IsUnknown = false
    ∧ resolved config.Host (getenv "BITBUCKET_HOST") ≠ ""
    ∧ resolved config.Workspace (getenv "BITBUCKET_WORKSPACE") ≠ ""
    ∧ resolved config.Token (getenv "BITBUCKET_TOKEN") ≠ ""

/-- An environment in which the three variables are set. -/
def sampleEnv (name : String) : String :=
  if name = "BITBUCKET_HOST" then "https://bitbucket.example/2.0"
  else if name = "BITBUCKET_WORKSPACE" then "acme"
  else if name = "BITBUCKET_TOKEN" then "dG9rZW4="
  else ""

/-- A repository as the API returns it. -/
def sampleRepository : Repository :=
  { Slug := "site", IsPrivate := true, Scm := "git", Project := { Key := "WEB" }
    Website := some "https://acme.example" }

/-- A plan that names a user whose UUID is not known yet and omits the
groups. -/
def samplePlanWithUnknownUser : branchRestrictionResourceModel :=
  { ID := .unknown, RepositorySlug := .known "site", Kind := .known "push"
    BranchMatchKind := .known "glob", Pattern := .known "main"
    Users := some [{ Uuid := .unknown }], Groups := none }

/-- A branch restriction as the API returns it after a create. -/
def branchRestrictionBody : String :=
  "\x7b\"id\": 42, \"kind\": \"push\", \"branch_match_kind\": \"glob\", \"pattern\": \"main\", "
    ++ "\"users\": [\x7b\"uuid\": \"\\u007b1f0e\\u007d\"\x7d], \"groups\": []\x7d"

/-- The state `Create` writes for `samplePlanWithUnknownUser` when the API
answers with `branchRestrictionBody`. -/
def createdBranchRestrictionModel : branchRestrictionResourceModel :=
  { ID := .known 42, RepositorySlug := .known "site", Kind := .known "push"
    BranchMatchKind := .known "glob", Pattern := .known "main"
    Users := some [{ Uuid := .known "\x7b1f0e\x7d" }], Groups := some [] }

/-- The first check of `url.Parse`: a URL that holds an ASCII control
character is rejected.  Every other URL is taken as parsable. -/
def rejectControlCharacters (url : String) : Option GoError :=
  if url.toList.any (fun c => c.toNat < 0x20 || c.toNat == 0x7F) then
    some (.foreign "net/url: invalid control character in URL")
  else none

/-- A server behind `rejectControlCharacters` that answers every request with
the same status and body. -/
def strictServer (status : Int) (body : String) : World :=
  goWorld rejectControlCharacters
    (fun _ => .ok { StatusCode := status, Body := .ok (bytesOf body) })

/-- A slug read with its line end. -/
def slugWithLineEnd : String := "site\n"

/-- What `strconv.Quote` gives for a text of printable ASCII characters other
than the double quote and the backslash. -/
def plainQuote (s : String) : String :=
  "\"" ++ s ++ "\""

/-- A fresh response of an import. -/
def freshImport : ImportStateResponse :=
  { State := [], Diagnostics := [] }

/-- Go `parseAuthority` on a registered name written in letters, digits, `-`
and `.`, which is the host as it stands.  Other authorities (user information,
ports, IP literals, escapes) are left out here and count as rejected. -/
def registeredName (authority : Bytes) : Option Bytes :=
  if authority.all (fun c => neturl.isLetter c || neturl.isDigit c
      || decide (c.toNat = 45) || decide (c.toNat = 46)) then some authority
  else none

/-- A transport that fails every round trip with an error naming the request
it was handed: method, URL text and Authorization value.  It makes the
argument of `HTTPClient.Do` visible in the result of an operation. -/
def echoServer : World :=
  goWorld (fun _ => none)
    (fun q => .error (.foreign (q.Method ++ " " ++ q.URL ++ " "
      ++ Header.Get q.Header "Authorization")))

/-- A client whose Host ends in a `#`. -/
def clientWithFragment : Client :=
  { Host := "https://api.bitbucket.org/2.0#", Workspace := "acme", Token := "dG9rZW4=" }

/-- ASCII bytes shown as characters. -/
def showBytes (b : Bytes) : String :=
  String.mk (b.map (fun c => Char.ofNat c.toNat))

/-- A transport behind `url.Parse` that fails every round trip with an error
naming what goes on the wire for the request it was handed: the method and
the scheme, host and request URI of `requestTarget`. -/
def wireEchoServer : World :=
  goWorld
    (fun url =>
      match requestTarget registeredName url with
      | none => some (.foreign "net/url: parse error")
      | some _ => none)
    (fun q =>
      match requestTarget registeredName q.URL with
      | none => .error (.foreign "net/url: parse error")
      | some t =>
        .error (.foreign (q.Method ++ " " ++ showBytes t.Scheme ++ "://" ++ showBytes t.Host
          ++ showBytes t.RequestURI)))

/-! ## Theorems -/

/-! ### `doRequest` -/

theorem doRequest_sent (c : Client) (w : World) (req : Request) :
    (c.doRequest w req).sent = [c.authorize req] := by
  unfold Client.doRequest Client.authorize
  dsimp only
  repeat' split
  all_goals rfl

theorem doRequest_result (c : Client) (w : World) (req : Request) (res : Response)
    (body : Bytes) (hDo : w.Do (c.authorize req) = .ok res) (hBody : res.Body = .ok body) :
    (c.doRequest w req).result =
      if 200 ≤ res.StatusCode ∧ res.StatusCode ≤ 299 then .ok body
      else
        match w.unmarshalResponseErr body with
        | .error _ =>
          .error (.errorf ("the Bitbucket API returned, status: " ++ decimal res.StatusCode))
        | .ok responseErr =>
          if res.StatusCode = 404 then
            .error (.statusErr
              { StatusCode := 404
                Message := "the Bitbucket API returned, status: " ++ decimal res.StatusCode
                  ++ " message: " ++ responseErr.ErrorDetails.Message })
          else
            .error (.errorf ("the Bitbucket API returned, status: " ++ decimal res.StatusCode
              ++ " message: " ++ responseErr.ErrorDetails.Message)) := by
  unfold Client.doRequest
  unfold Client.authorize at hDo
  simp only [hDo, hBody]
  by_cases h : res.StatusCode < 200 ∨ res.StatusCode > 299
  · have h2 : ¬ (200 ≤ res.StatusCode ∧ res.StatusCode ≤ 299) := by omega
    simp only [h, h2, if_true, if_false]
    cases hu : w.unmarshalResponseErr body with
    | error e => simp
    | ok r =>
      by_cases h4 : res.StatusCode = 404
      · simp [h4]
      · simp [h4]
  · have h2 : 200 ≤ res.StatusCode ∧ res.StatusCode ≤ 299 := by omega
    simp only [h, h2, if_true, if_false, and_self]

theorem Header.mem_Values_Add (h : Header) (key value : String) :
    value ∈ Header.Values (Header.Add h key value) key := by
  unfold Header.Values Header.Add
  simp [List.filter_append]

/-- Whatever the world, a response outside 200..299 whose body `json.Unmarshal`
rejects gives a plain error, also when the status is 404. -/
theorem doRequest_undecodable_body (c : Client) (w : World) (req : Request) (res : Response)
    (body : Bytes) (jsonErr : GoError) (hDo : w.Do (c.authorize req) = .ok res)
    (hBody : res.Body = .ok body)
    (hStatus : ¬ (200 ≤ res.StatusCode ∧ res.StatusCode ≤ 299))
    (hDecode : w.unmarshalResponseErr body = .error jsonErr) :
    (c.doRequest w req).result
        = .error (.errorf ("the Bitbucket API returned, status: " ++ decimal res.StatusCode))
      ∧ errorsAsStatusErr
          (.errorf ("the Bitbucket API returned, status: " ++ decimal res.StatusCode)) = none := by
  rw [doRequest_result c w req res body hDo hBody, if_neg hStatus, hDecode]
  exact ⟨rfl, rfl⟩

/-- C1, at the failing input.  A 404 response whose body is not a JSON
document (empty, or an HTML page) makes `doRequest` return the plain error of
`fmt.Errorf`, in which `errors.As` finds no `StatusErr`, and `Read` then
reports an error and keeps the resource; the same status with the JSON error
body gives the `StatusErr` with `StatusCode = 404`. -/
theorem doRequest_404_undecodable_body_is_not_StatusErr :
    (sampleClient.doRequest (fixedServer 404 "") sampleRequest).result
        = .error (.errorf "the Bitbucket API returned, status: 404")
      ∧ (sampleClient.doRequest (fixedServer 404 "<html>Not Found</html>") sampleRequest).result
        = .error (.errorf "the Bitbucket API returned, status: 404")
      ∧ errorsAsStatusErr (.errorf "the Bitbucket API returned, status: 404") = none
      ∧ (sampleClient.doRequest (fixedServer 404 notFoundBody) sampleRequest).result
        = .error (.statusErr
            { StatusCode := 404
              Message := "the Bitbucket API returned, status: 404 message: "
                ++ "Repository acme/site not found" })
      ∧ (repositoryResource.Read { client := sampleClient } (fixedServer 404 "") (fun _ => [])
          { State := { target := sampleRepositoryModel, diags := [] } }
          { State := { Raw := some sampleRepositoryModel }, Diagnostics := [] })
        = { State := { Raw := some sampleRepositoryModel }
            Diagnostics := [{ severity := .error
                              summary := "Error Reading Bitbucket Repository"
                              detail := "Could not read Bitbucket repository site: "
                                ++ "the Bitbucket API returned, status: 404"
                              path := none }] } := by
  refine ⟨?_, ?_, ?_, ?_, ?_⟩ <;> rfl

/-- C3.  When the round trip and the reading of the body succeed, `doRequest`
returns the body of the response without error exactly when the status code is
between 200 and 299, the body it returns is that of the response, and for every
other status code it returns an error (and so no body). -/
theorem doRequest_ok_iff_status_2xx (c : Client) (w : World) (req : Request) (res : Response)
    (body : Bytes) (hDo : w.Do (c.authorize req) = .ok res) (hBody : res.Body = .ok body) :
    ((c.doRequest w req).result = .ok body ↔ 200 ≤ res.StatusCode ∧ res.StatusCode ≤ 299)
      ∧ (∀ b, (c.doRequest w req).result = .ok b → b = body)
      ∧ (¬ (200 ≤ res.StatusCode ∧ res.StatusCode ≤ 299) →
          ∃ err, (c.doRequest w req).result = .error err) := by
  rw [doRequest_result c w req res body hDo hBody]
  by_cases h : 200 ≤ res.StatusCode ∧ res.StatusCode ≤ 299
  · simp [h]
  · simp only [h, if_false, iff_false, not_false_eq_true, true_implies]
    refine ⟨?_, ?_, ?_⟩
    · split
      · simp
      · split <;> simp
    · intro b
      split
      · simp
      · split <;> simp
    · split
      · exact ⟨_, rfl⟩
      · split <;> exact ⟨_, rfl⟩

theorem doRequest_ok_iff_status_2xx_witness :
    ((sampleClient.doRequest (fixedServer 503 "busy") sampleRequest).result
          = .ok (bytesOf "busy") ↔ (200 : Int) ≤ 503 ∧ (503 : Int) ≤ 299)
      ∧ (∀ b, (sampleClient.doRequest (fixedServer 503 "busy") sampleRequest).result = .ok b →
          b = bytesOf "busy")
      ∧ (¬ ((200 : Int) ≤ 503 ∧ (503 : Int) ≤ 299) →
          ∃ err, (sampleClient.doRequest (fixedServer 503 "busy") sampleRequest).result
            = .error err) :=
  doRequest_ok_iff_status_2xx sampleClient (fixedServer 503 "busy") sampleRequest
    { StatusCode := 503, Body := .ok (bytesOf "busy") } (bytesOf "busy") rfl rfl

/-- C4.  For a status code outside 200..299 (404 or not) and a body that
decodes into a `ResponseErr` whose `error.message` is `m`, the error returned
by `doRequest` has the text
`"the Bitbucket API returned, status: " + decimal(s) + " message: " + m`. -/
theorem doRequest_error_text (c : Client) (w : World) (req : Request) (res : Response)
    (body : Bytes) (m : String) (hDo : w.Do (c.authorize req) = .ok res)
    (hBody : res.Body = .ok body)
    (hStatus : ¬ (200 ≤ res.StatusCode ∧ res.StatusCode ≤ 299))
    (hDecode : w.unmarshalResponseErr body = .ok { ErrorDetails := { Message := m } }) :
    ∃ err, (c.doRequest w req).result = .error err
      ∧ err.Error = "the Bitbucket API returned, status: " ++ decimal res.StatusCode
          ++ " message: " ++ m := by
  rw [doRequest_result c w req res body hDo hBody]
  simp only [hStatus, if_false, hDecode]
  split
  · exact ⟨_, rfl, rfl⟩
  · exact ⟨_, rfl, rfl⟩

theorem doRequest_error_text_witness :
    ∃ err, (sampleClient.doRequest (fixedServer 404 notFoundBody) sampleRequest).result
        = .error err
      ∧ err.Error = "the Bitbucket API returned, status: " ++ decimal 404
          ++ " message: " ++ "Repository acme/site not found" :=
  doRequest_error_text sampleClient (fixedServer 404 notFoundBody) sampleRequest
    { StatusCode := 404, Body := .ok (bytesOf notFoundBody) } (bytesOf notFoundBody)
    "Repository acme/site not found" rfl rfl (by decide) rfl

theorem canonical_content_type : canonicalMIMEHeaderKey "content-type" = "Content-Type" := by
  decide

theorem canonical_authorization : canonicalMIMEHeaderKey "Authorization" = "Authorization" := by
  decide

theorem doRequest_reads_answer (c : Client) (w : World) (req : Request) :
    (c.doRequest w req).result = w.readAnswer (w.Do (c.authorize req)) := by
  unfold Client.doRequest World.readAnswer Client.authorize
  dsimp only
  repeat' split
  all_goals simp_all

/-- C6.  `doRequest` calls the HTTP client on the request it was given with
the Authorization value `"Basic " + Token` added and nothing else changed: its
result is what the answer of `HTTPClient.Do` to that very request gives,
whatever the world, so a transport that tells requests apart sees the header.
It hands the client exactly that one request on every path, and against a
transport that echoes the request it was handed the header shows in the
result. -/
theorem doRequest_sends_basic_authorization (c : Client) (w : World) (req : Request) :
    (c.doRequest w req).result = w.readAnswer (w.Do (c.authorize req))
      ∧ ("Basic " ++ c.Token) ∈ Header.Values (c.authorize req).Header "Authorization"
      ∧ c.authorize req
        = { Method := req.Method, URL := req.URL
            Header := req.Header ++ [("Authorization", "Basic " ++ c.Token)]
            Body := req.Body }
      ∧ (c.doRequest w req).sent = [c.authorize req]
      ∧ (c.doRequest w req).sent.length = 1
      ∧ (∀ q ∈ (c.doRequest w req).sent,
          ("Basic " ++ c.Token) ∈ Header.Values q.Header "Authorization")
      ∧ (sampleClient.doRequest echoServer sampleRequest).result
        = .error (.foreign
            "GET https://api.bitbucket.org/2.0/repositories/acme/site Basic dG9rZW4=") := by
  refine ⟨doRequest_reads_answer c w req,
    Header.mem_Values_Add req.Header "Authorization" ("Basic " ++ c.Token), ?_,
    doRequest_sent c w req, ?_, ?_, rfl⟩
  · unfold Client.authorize Header.Add
    rw [canonical_authorization]
  · rw [doRequest_sent]
    rfl
  · rw [doRequest_sent]
    intro q hq
    rw [List.mem_singleton] at hq
    subst hq
    exact Header.mem_Values_Add req.Header "Authorization" ("Basic " ++ c.Token)

/-! ### Diagnostics -/

theorem Diagnostics.not_contains_error (diags : Diagnostics) (d : Diagnostic)
    (h : Diagnostics.HasError diags = false) (hd : d.severity = Severity.error) :
    diags.contains d = false := by
  unfold Diagnostics.HasError at h
  rw [List.any_eq_false] at h
  cases hc : diags.contains d with
  | false => rfl
  | true =>
    have hmem : d ∈ diags := by simpa using hc
    exact absurd (by simp [hd]) (h d hmem)

theorem Diagnostics.AddError_of_no_error (diags : Diagnostics) (summary detail : String)
    (h : Diagnostics.HasError diags = false) :
    Diagnostics.AddError diags summary detail
      = diags ++ [{ severity := .error, summary := summary, detail := detail, path := none }] := by
  unfold Diagnostics.AddError Diagnostics.Append
  rw [Diagnostics.not_contains_error diags _ h rfl]
  simp [Diagnostics.Append]

/-! ### `Read` when the client returns an error -/

theorem repository_Read_not_found (r : repositoryResource) (w : World)
    (convert : repositoryResourceModel → Diagnostics) (req : ReadRequest repositoryResourceModel)
    (resp : ReadResponse repositoryResourceModel) (err : GoError) (statusErr : StatusErr)
    (hState : Diagnostics.HasError (Diagnostics.Append resp.Diagnostics req.State.diags) = false)
    (hGet : (r.client.GetRepository w req.State.target.Slug.ValueString).result = .error err)
    (hAs : errorsAsStatusErr err = some statusErr) (h404 : statusErr.StatusCode = 404) :
    repositoryResource.Read r w convert req resp
      = { State := { Raw := none }
          Diagnostics := Diagnostics.Append resp.Diagnostics req.State.diags } := by
  unfold repositoryResource.Read
  simp only [hState, hGet, hAs, h404]
  rfl

theorem repository_Read_other_error (r : repositoryResource) (w : World)
    (convert : repositoryResourceModel → Diagnostics) (req : ReadRequest repositoryResourceModel)
    (resp : ReadResponse repositoryResourceModel) (err : GoError)
    (hState : Diagnostics.HasError (Diagnostics.Append resp.Diagnostics req.State.diags) = false)
    (hGet : (r.client.GetRepository w req.State.target.Slug.ValueString).result = .error err)
    (hAs : ∀ statusErr, errorsAsStatusErr err = some statusErr → statusErr.StatusCode ≠ 404) :
    ∃ d : Diagnostic,
      (repositoryResource.Read r w convert req resp).Diagnostics
          = Diagnostics.Append resp.Diagnostics req.State.diags ++ [d]
        ∧ d.severity = Severity.error
        ∧ (∃ head : String, d.detail = head ++ err.Error)
        ∧ (repositoryResource.Read r w convert req resp).State = resp.State := by
  unfold repositoryResource.Read
  simp only [hState, hGet]
  cases hE : errorsAsStatusErr err with
  | none =>
    simp only [Diagnostics.AddError_of_no_error _ _ _ hState]
    exact ⟨_, rfl, rfl, ⟨_, rfl⟩, rfl⟩
  | some statusErr =>
    simp only [hAs statusErr hE, Diagnostics.AddError_of_no_error _ _ _ hState]
    exact ⟨_, rfl, rfl, ⟨_, rfl⟩, rfl⟩

theorem branchRestriction_Read_not_found (r : branchRestrictionResource) (w : World)
    (convert : branchRestrictionResourceModel → Diagnostics) (req : ReadRequest branchRestrictionResourceModel)
    (resp : ReadResponse branchRestrictionResourceModel) (err : GoError) (statusErr : StatusErr)
    (hState : Diagnostics.HasError (Diagnostics.Append resp.Diagnostics req.State.diags) = false)
    (hGet : (r.client.GetBranchRestriction w req.State.target.RepositorySlug.ValueString
        req.State.target.ID.ValueInt64).result = .error err)
    (hAs : errorsAsStatusErr err = some statusErr) (h404 : statusErr.StatusCode = 404) :
    branchRestrictionResource.Read r w convert req resp
      = { State := { Raw := none }
          Diagnostics := Diagnostics.Append resp.Diagnostics req.State.diags } := by
  unfold branchRestrictionResource.Read
  simp only [hState, hGet, hAs, h404]
  rfl

theorem branchRestriction_Read_other_error (r : branchRestrictionResource) (w : World)
    (convert : branchRestrictionResourceModel → Diagnostics) (req : ReadRequest branchRestrictionResourceModel)
    (resp : ReadResponse branchRestrictionResourceModel) (err : GoError)
    (hState : Diagnostics.HasError (Diagnostics.Append resp.Diagnostics req.State.diags) = false)
    (hGet : (r.client.GetBranchRestriction w req.State.target.RepositorySlug.ValueString
        req.State.target.ID.ValueInt64).result = .error err)
    (hAs : ∀ statusErr, errorsAsStatusErr err = some statusErr → statusErr.StatusCode ≠ 404) :
    ∃ d : Diagnostic,
      (branchRestrictionResource.Read r w convert req resp).Diagnostics
          = Diagnostics.Append resp.Diagnostics req.State.diags ++ [d]
        ∧ d.severity = Severity.error
        ∧ (∃ head : String, d.detail = head ++ err.Error)
        ∧ (branchRestrictionResource.Read r w convert req resp).State = resp.State := by
  unfold branchRestrictionResource.Read
  simp only [hState, hGet]
  cases hE : errorsAsStatusErr err with
  | none =>
    simp only [Diagnostics.AddError_of_no_error _ _ _ hState]
    exact ⟨_, rfl, rfl, ⟨_, rfl⟩, rfl⟩
  | some statusErr =>
    simp only [hAs statusErr hE, Diagnostics.AddError_of_no_error _ _ _ hState]
    exact ⟨_, rfl, rfl, ⟨_, rfl⟩, rfl⟩

theorem groupPermission_Read_not_found (r : groupPermissionResource) (w : World)
    (convert : groupPermissionResourceModel → Diagnostics) (req : ReadRequest groupPermissionResourceModel)
    (resp : ReadResponse groupPermissionResourceModel) (err : GoError) (statusErr : StatusErr)
    (hState : Diagnostics.HasError (Diagnostics.Append resp.Diagnostics req.State.diags) = false)
    (hGet : (r.client.GetGroupPermission w req.State.target.RepositorySlug.ValueString
        req.State.target.GroupSlug.ValueString).result = .error err)
    (hAs : errorsAsStatusErr err = some statusErr) (h404 : statusErr.StatusCode = 404) :
    groupPermissionResource.Read r w convert req resp
      = { State := { Raw := none }
          Diagnostics := Diagnostics.Append resp.Diagnostics req.State.diags } := by
  unfold groupPermissionResource.Read
  simp only [hState, hGet, hAs, h404]
  rfl

theorem groupPermission_Read_other_error (r : groupPermissionResource) (w : World)
    (convert : groupPermissionResourceModel → Diagnostics) (req : ReadRequest groupPermissionResourceModel)
    (resp : ReadResponse groupPermissionResourceModel) (err : GoError)
    (hState : Diagnostics.HasError (Diagnostics.Append resp.Diagnostics req.State.diags) = false)
    (hGet : (r.client.GetGroupPermission w req.State.target.RepositorySlug.ValueString
        req.State.target.GroupSlug.ValueString).result = .error err)
    (hAs : ∀ statusErr, errorsAsStatusErr err = some statusErr → statusErr.StatusCode ≠ 404) :
    ∃ d : Diagnostic,
      (groupPermissionResource.Read r w convert req resp).Diagnostics
          = Diagnostics.Append resp.Diagnostics req.State.diags ++ [d]
        ∧ d.severity = Severity.error
        ∧ (∃ head : String, d.detail = head ++ err.Error)
        ∧ (groupPermissionResource.Read r w convert req resp).State = resp.State := by
  unfold groupPermissionResource.Read
  simp only [hState, hGet]
  cases hE : errorsAsStatusErr err with
  | none =>
    simp only [Diagnostics.AddError_of_no_error _ _ _ hState]
    exact ⟨_, rfl, rfl, ⟨_, rfl⟩, rfl⟩
  | some statusErr =>
    simp only [hAs statusErr hE, Diagnostics.AddError_of_no_error _ _ _ hState]
    exact ⟨_, rfl, rfl, ⟨_, rfl⟩, rfl⟩

/-- C2.  In each of the three resources, when `Read` reaches the `Get` call
of the client (the prior state was read without error) and that call returns an
error in which `errors.As` finds a `StatusErr` with `StatusCode = 404`, `Read`
removes the resource from the state and adds no diagnostic: the diagnostics are
those of reading the prior state, none of them an error. -/
theorem Read_removes_resource_on_404 (w : World) :
    (∀ (r : repositoryResource) (convert : repositoryResourceModel → Diagnostics)
        (req : ReadRequest repositoryResourceModel) (resp : ReadResponse repositoryResourceModel)
        (err : GoError) (statusErr : StatusErr),
        Diagnostics.HasError (Diagnostics.Append resp.Diagnostics req.State.diags) = false →
        (r.client.GetRepository w req.State.target.Slug.ValueString).result = .error err →
        errorsAsStatusErr err = some statusErr → statusErr.StatusCode = 404 →
        (repositoryResource.Read r w convert req resp).State.Raw = none
          ∧ (repositoryResource.Read r w convert req resp).Diagnostics
              = Diagnostics.Append resp.Diagnostics req.State.diags
          ∧ Diagnostics.HasError (repositoryResource.Read r w convert req resp).Diagnostics = false)
      ∧ (∀ (r : branchRestrictionResource) (convert : branchRestrictionResourceModel → Diagnostics)
        (req : ReadRequest branchRestrictionResourceModel) (resp : ReadResponse branchRestrictionResourceModel)
        (err : GoError) (statusErr : StatusErr),
        Diagnostics.HasError (Diagnostics.Append resp.Diagnostics req.State.diags) = false →
        (r.client.GetBranchRestriction w req.State.target.RepositorySlug.ValueString
            req.State.target.ID.ValueInt64).result = .error err →
        errorsAsStatusErr err = some statusErr → statusErr.StatusCode = 404 →
        (branchRestrictionResource.Read r w convert req resp).State.Raw = none
          ∧ (branchRestrictionResource.Read r w convert req resp).Diagnostics
              = Diagnostics.Append resp.Diagnostics req.State.diags
          ∧ Diagnostics.HasError (branchRestrictionResource.Read r w convert req resp).Diagnostics = false)
      ∧ (∀ (r : groupPermissionResource) (convert : groupPermissionResourceModel → Diagnostics)
        (req : ReadRequest groupPermissionResourceModel) (resp : ReadResponse groupPermissionResourceModel)
        (err : GoError) (statusErr : StatusErr),
        Diagnostics.HasError (Diagnostics.Append resp.Diagnostics req.State.diags) = false →
        (r.client.GetGroupPermission w req.State.target.RepositorySlug.ValueString
            req.State.target.GroupSlug.ValueString).result = .error err →
        errorsAsStatusErr err = some statusErr → statusErr.StatusCode = 404 →
        (groupPermissionResource.Read r w convert req resp).State.Raw = none
          ∧ (groupPermissionResource.Read r w convert req resp).Diagnostics
              = Diagnostics.Append resp.Diagnostics req.State.diags
          ∧ Diagnostics.HasError (groupPermissionResource.Read r w convert req resp).Diagnostics = false) := by
  refine ⟨?_, ?_, ?_⟩
  · intro r convert req resp err statusErr hState hGet hAs h404
    rw [repository_Read_not_found r w convert req resp err statusErr hState hGet hAs h404]
    exact ⟨rfl, rfl, hState⟩
  · intro r convert req resp err statusErr hState hGet hAs h404
    rw [branchRestriction_Read_not_found r w convert req resp err statusErr hState hGet
      hAs h404]
    exact ⟨rfl, rfl, hState⟩
  · intro r convert req resp err statusErr hState hGet hAs h404
    rw [groupPermission_Read_not_found r w convert req resp err statusErr hState hGet
      hAs h404]
    exact ⟨rfl, rfl, hState⟩

theorem Read_removes_resource_on_404_witness :
    (repositoryResource.Read { client := sampleClient } (fixedServer 404 notFoundBody)
        (fun _ => []) { State := { target := sampleRepositoryModel, diags := [] } }
        { State := { Raw := some sampleRepositoryModel }, Diagnostics := [] }).State.Raw = none
      ∧ (branchRestrictionResource.Read { client := sampleClient }
          (fixedServer 404 notFoundBody) (fun _ => [])
          { State := { target := sampleBranchRestrictionModel, diags := [] } }
          { State := { Raw := some sampleBranchRestrictionModel }, Diagnostics := [] }).State.Raw
        = none
      ∧ (groupPermissionResource.Read { client := sampleClient }
          (fixedServer 404 notFoundBody) (fun _ => [])
          { State := { target := sampleGroupPermissionModel, diags := [] } }
          { State := { Raw := some sampleGroupPermissionModel }, Diagnostics := [] }).State.Raw
        = none :=
  ⟨((Read_removes_resource_on_404 (fixedServer 404 notFoundBody)).1 { client := sampleClient }
      (fun _ => []) { State := { target := sampleRepositoryModel, diags := [] } }
      { State := { Raw := some sampleRepositoryModel }, Diagnostics := [] }
      _ notFoundErr rfl rfl rfl rfl).1,
   ((Read_removes_resource_on_404 (fixedServer 404 notFoundBody)).2.1 { client := sampleClient }
      (fun _ => []) { State := { target := sampleBranchRestrictionModel, diags := [] } }
      { State := { Raw := some sampleBranchRestrictionModel }, Diagnostics := [] }
      _ notFoundErr rfl rfl rfl rfl).1,
   ((Read_removes_resource_on_404 (fixedServer 404 notFoundBody)).2.2 { client := sampleClient }
      (fun _ => []) { State := { target := sampleGroupPermissionModel, diags := [] } }
      { State := { Raw := some sampleGroupPermissionModel }, Diagnostics := [] }
      _ notFoundErr rfl rfl rfl rfl).1⟩

/-- C5.  In each of the three resources, when `Read` reaches the `Get` call
of the client and that call returns an error that is not a `StatusErr` with
`StatusCode = 404`, `Read` adds exactly one diagnostic, an error whose
detail ends with the message of that error, and leaves the state as it was:
the resource is not removed and no attribute is written. -/
theorem Read_reports_other_errors (w : World) :
    (∀ (r : repositoryResource) (convert : repositoryResourceModel → Diagnostics)
        (req : ReadRequest repositoryResourceModel) (resp : ReadResponse repositoryResourceModel)
        (err : GoError),
        Diagnostics.HasError (Diagnostics.Append resp.Diagnostics req.State.diags) = false →
        (r.client.GetRepository w req.State.target.Slug.ValueString).result = .error err →
        (∀ statusErr, errorsAsStatusErr err = some statusErr → statusErr.StatusCode ≠ 404) →
        ∃ d : Diagnostic,
          (repositoryResource.Read r w convert req resp).Diagnostics
              = Diagnostics.Append resp.Diagnostics req.State.diags ++ [d]
            ∧ d.severity = Severity.error
            ∧ (∃ head : String, d.detail = head ++ err.Error)
            ∧ (repositoryResource.Read r w convert req resp).State = resp.State)
      ∧ (∀ (r : branchRestrictionResource) (convert : branchRestrictionResourceModel → Diagnostics)
        (req : ReadRequest branchRestrictionResourceModel) (resp : ReadResponse branchRestrictionResourceModel)
        (err : GoError),
        Diagnostics.HasError (Diagnostics.Append resp.Diagnostics req.State.diags) = false →
        (r.client.GetBranchRestriction w req.State.target.RepositorySlug.ValueString
            req.State.target.ID.ValueInt64).result = .error err →
        (∀ statusErr, errorsAsStatusErr err = some statusErr → statusErr.StatusCode ≠ 404) →
        ∃ d : Diagnostic,
          (branchRestrictionResource.Read r w convert req resp).Diagnostics
              = Diagnostics.Append resp.Diagnostics req.State.diags ++ [d]
            ∧ d.severity = Severity.error
            ∧ (∃ head : String, d.detail = head ++ err.Error)
            ∧ (branchRestrictionResource.Read r w convert req resp).State = resp.State)
      ∧ (∀ (r : groupPermissionResource) (convert : groupPermissionResourceModel → Diagnostics)
        (req : ReadRequest groupPermissionResourceModel) (resp : ReadResponse groupPermissionResourceModel)
        (err : GoError),
        Diagnostics.HasError (Diagnostics.Append resp.Diagnostics req.State.diags) = false →
        (r.client.GetGroupPermission w req.State.target.RepositorySlug.ValueString
            req.State.target.GroupSlug.ValueString).result = .error err →
        (∀ statusErr, errorsAsStatusErr err = some statusErr → statusErr.StatusCode ≠ 404) →
        ∃ d : Diagnostic,
          (groupPermissionResource.Read r w convert req resp).Diagnostics
              = Diagnostics.Append resp.Diagnostics req.State.diags ++ [d]
            ∧ d.severity = Severity.error
            ∧ (∃ head : String, d.detail = head ++ err.Error)
            ∧ (groupPermissionResource.Read r w convert req resp).State = resp.State) := by
  refine ⟨?_, ?_, ?_⟩
  · intro r convert req resp err hState hGet hAs
    exact repository_Read_other_error r w convert req resp err hState hGet hAs
  · intro r convert req resp err hState hGet hAs
    exact branchRestriction_Read_other_error r w convert req resp err hState hGet hAs
  · intro r convert req resp err hState hGet hAs
    exact groupPermission_Read_other_error r w convert req resp err hState hGet hAs

theorem Read_reports_other_errors_witness :
    (∃ d : Diagnostic,
      (repositoryResource.Read { client := sampleClient } (fixedServer 500 serverErrorBody)
          (fun _ => []) { State := { target := sampleRepositoryModel, diags := [] } }
          { State := { Raw := some sampleRepositoryModel }, Diagnostics := [] }).Diagnostics
          = Diagnostics.Append [] [] ++ [d]
        ∧ d.severity = Severity.error
        ∧ (∃ head : String, d.detail = head ++ serverErr.Error)
        ∧ (repositoryResource.Read { client := sampleClient } (fixedServer 500 serverErrorBody)
            (fun _ => []) { State := { target := sampleRepositoryModel, diags := [] } }
            { State := { Raw := some sampleRepositoryModel }, Diagnostics := [] }).State
          = { Raw := some sampleRepositoryModel })
      ∧ (∃ d : Diagnostic,
        (branchRestrictionResource.Read { client := sampleClient }
            (fixedServer 500 serverErrorBody) (fun _ => [])
            { State := { target := sampleBranchRestrictionModel, diags := [] } }
            { State := { Raw := some sampleBranchRestrictionModel }
              Diagnostics := [] }).Diagnostics
            = Diagnostics.Append [] [] ++ [d]
          ∧ d.severity = Severity.error
          ∧ (∃ head : String, d.detail = head ++ serverErr.Error)
          ∧ (branchRestrictionResource.Read { client := sampleClient }
              (fixedServer 500 serverErrorBody) (fun _ => [])
              { State := { target := sampleBranchRestrictionModel, diags := [] } }
              { State := { Raw := some sampleBranchRestrictionModel }, Diagnostics := [] }).State
            = { Raw := some sampleBranchRestrictionModel })
      ∧ (∃ d : Diagnostic,
        (groupPermissionResource.Read { client := sampleClient }
            (fixedServer 500 serverErrorBody) (fun _ => [])
            { State := { target := sampleGroupPermissionModel, diags := [] } }
            { State := { Raw := some sampleGroupPermissionModel }
              Diagnostics := [] }).Diagnostics
            = Diagnostics.Append [] [] ++ [d]
          ∧ d.severity = Severity.error
          ∧ (∃ head : String, d.detail = head ++ serverErr.Error)
          ∧ (groupPermissionResource.Read { client := sampleClient }
              (fixedServer 500 serverErrorBody) (fun _ => [])
              { State := { target := sampleGroupPermissionModel, diags := [] } }
              { State := { Raw := some sampleGroupPermissionModel }, Diagnostics := [] }).State
            = { Raw := some sampleGroupPermissionModel }) :=
  ⟨(Read_reports_other_errors (fixedServer 500 serverErrorBody)).1 { client := sampleClient }
      (fun _ => []) { State := { target := sampleRepositoryModel, diags := [] } }
      { State := { Raw := some sampleRepositoryModel }, Diagnostics := [] }
      serverErr rfl rfl (by intro statusErr h; cases h),
   (Read_reports_other_errors (fixedServer 500 serverErrorBody)).2.1 { client := sampleClient }
      (fun _ => []) { State := { target := sampleBranchRestrictionModel, diags := [] } }
      { State := { Raw := some sampleBranchRestrictionModel }, Diagnostics := [] }
      serverErr rfl rfl (by intro statusErr h; cases h),
   (Read_reports_other_errors (fixedServer 500 serverErrorBody)).2.2 { client := sampleClient }
      (fun _ => []) { State := { target := sampleGroupPermissionModel, diags := [] } }
      { State := { Raw := some sampleGroupPermissionModel }, Diagnostics := [] }
      serverErr rfl rfl (by intro statusErr h; cases h)⟩

/-! ### The requests the client operations send -/

/-! ### The requests the client operations hand to the HTTP client -/

theorem GetRepository_result (c : Client) (w : World) (s : String) :
    (c.GetRepository w s).result
        = (match w.urlParse (c.Host ++ "/repositories/" ++ c.Workspace ++ "/" ++ s) with
          | some err => .error err
          | none =>
            match w.readAnswer (w.Do (c.authorize
                { Method := "GET"
                  URL := c.Host ++ "/repositories/" ++ c.Workspace ++ "/" ++ s
                  Header := [], Body := none })) with
            | .error err => .error err
            | .ok body => w.unmarshalRepository body) := by
  unfold Client.GetRepository World.NewRequest
  cases w.urlParse (c.Host ++ "/repositories/" ++ c.Workspace ++ "/" ++ s)
  · simp only [doRequest_reads_answer]
    repeat' split
    all_goals simp_all
  · rfl

theorem CreateRepository_result (c : Client) (w : World) (s : String) (newRepository : Repository) :
    (c.CreateRepository w s newRepository).result
        = (match w.marshalRepository newRepository with
          | .error err => .error err
          | .ok rb =>
            match w.urlParse (c.Host ++ "/repositories/" ++ c.Workspace ++ "/" ++ s) with
            | some _ => .panic nilDereference
            | none =>
              match w.readAnswer (w.Do (c.authorize
                  { Method := "POST"
                    URL := c.Host ++ "/repositories/" ++ c.Workspace ++ "/" ++ s
                    Header := [("Content-Type", "application/json")], Body := some rb })) with
              | .error err => .error err
              | .ok body =>
                match w.unmarshalRepository body with
                | .error err => .error err
                | .ok r => .value r) := by
  unfold Client.CreateRepository World.NewRequest
  cases w.marshalRepository newRepository
  · rfl
  · cases w.urlParse (c.Host ++ "/repositories/" ++ c.Workspace ++ "/" ++ s)
    · simp only [doRequest_reads_answer, Header.Add, canonical_content_type, List.nil_append]
      repeat' split
      all_goals simp_all
    · rfl

theorem UpdateRepository_result (c : Client) (w : World) (s : String) (newRepository : Repository) :
    (c.UpdateRepository w s newRepository).result
        = (match w.marshalRepository newRepository with
          | .error err => .error err
          | .ok rb =>
            match w.urlParse (c.Host ++ "/repositories/" ++ c.Workspace ++ "/" ++ s) with
            | some _ => .panic nilDereference
            | none =>
              match w.readAnswer (w.Do (c.authorize
                  { Method := "PUT"
                    URL := c.Host ++ "/repositories/" ++ c.Workspace ++ "/" ++ s
                    Header := [("Content-Type", "application/json")], Body := some rb })) with
              | .error err => .error err
              | .ok body =>
                match w.unmarshalRepository body with
                | .error err => .error err
                | .ok r => .value r) := by
  unfold Client.UpdateRepository World.NewRequest
  cases w.marshalRepository newRepository
  · rfl
  · cases w.urlParse (c.Host ++ "/repositories/" ++ c.Workspace ++ "/" ++ s)
    · simp only [doRequest_reads_answer, Header.Add, canonical_content_type, List.nil_append]
      repeat' split
      all_goals simp_all
    · rfl

theorem DeleteRepository_result (c : Client) (w : World) (s : String) :
    (c.DeleteRepository w s).result
        = (match w.urlParse (c.Host ++ "/repositories/" ++ c.Workspace ++ "/" ++ s) with
          | some err => some err
          | none =>
            match w.readAnswer (w.Do (c.authorize
                { Method := "DELETE"
                  URL := c.Host ++ "/repositories/" ++ c.Workspace ++ "/" ++ s
                  Header := [], Body := none })) with
            | .error err => some err
            | .ok _ => none) := by
  unfold Client.DeleteRepository World.NewRequest
  cases w.urlParse (c.Host ++ "/repositories/" ++ c.Workspace ++ "/" ++ s)
  · simp only [doRequest_reads_answer]
    repeat' split
    all_goals simp_all
  · rfl

theorem GetRepositories_result (c : Client) (w : World) :
    (c.GetRepositories w).result
        = (match w.urlParse (c.Host ++ "/repositories/" ++ c.Workspace) with
          | some err => .error err
          | none =>
            match w.readAnswer (w.Do (c.authorize
                { Method := "GET"
                  URL := c.Host ++ "/repositories/" ++ c.Workspace
                  Header := [], Body := none })) with
            | .error err => .error err
            | .ok body => w.unmarshalRepositories body) := by
  unfold Client.GetRepositories World.NewRequest
  cases w.urlParse (c.Host ++ "/repositories/" ++ c.Workspace)
  · simp only [doRequest_reads_answer]
    repeat' split
    all_goals simp_all
  · rfl

theorem GetBranchRestriction_result (c : Client) (w : World) (s : String) (n : Int) :
    (c.GetBranchRestriction w s n).result
        = (match w.urlParse (c.Host ++ "/repositories/" ++ c.Workspace ++ "/" ++ s
              ++ "/branch-restrictions/" ++ decimal n) with
          | some err => .error err
          | none =>
            match w.readAnswer (w.Do (c.authorize
                { Method := "GET"
                  URL := c.Host ++ "/repositories/" ++ c.Workspace ++ "/" ++ s
              ++ "/branch-restrictions/" ++ decimal n
                  Header := [], Body := none })) with
            | .error err => .error err
            | .ok body => w.unmarshalBranchRestriction body) := by
  unfold Client.GetBranchRestriction World.NewRequest
  cases w.urlParse (c.Host ++ "/repositories/" ++ c.Workspace ++ "/" ++ s
              ++ "/branch-restrictions/" ++ decimal n)
  · simp only [doRequest_reads_answer]
    repeat' split
    all_goals simp_all
  · rfl

theorem UpdateBranchRestriction_result (c : Client) (w : World) (s : String) (n : Int) (newBranchRestriction : BranchRestriction) :
    (c.UpdateBranchRestriction w s n newBranchRestriction).result
        = (match w.marshalBranchRestriction newBranchRestriction with
          | .error err => .error err
          | .ok rb =>
            match w.urlParse (c.Host ++ "/repositories/" ++ c.Workspace ++ "/" ++ s
              ++ "/branch-restrictions/" ++ decimal n) with
            | some _ => .panic nilDereference
            | none =>
              match w.readAnswer (w.Do (c.authorize
                  { Method := "PUT"
                    URL := c.Host ++ "/repositories/" ++ c.Workspace ++ "/" ++ s
              ++ "/branch-restrictions/" ++ decimal n
                    Header := [("Content-Type", "application/json")], Body := some rb })) with
              | .error err => .error err
              | .ok body =>
                match w.unmarshalBranchRestriction body with
                | .error err => .error err
                | .ok r => .value r) := by
  unfold Client.UpdateBranchRestriction World.NewRequest
  cases w.marshalBranchRestriction newBranchRestriction
  · rfl
  · cases w.urlParse (c.Host ++ "/repositories/" ++ c.Workspace ++ "/" ++ s
              ++ "/branch-restrictions/" ++ decimal n)
    · simp only [doRequest_reads_answer, Header.Add, canonical_content_type, List.nil_append]
      repeat' split
      all_goals simp_all
    · rfl

theorem DeleteBranchRestriction_result (c : Client) (w : World) (s : String) (n : Int) :
    (c.DeleteBranchRestriction w s n).result
        = (match w.urlParse (c.Host ++ "/repositories/" ++ c.Workspace ++ "/" ++ s
              ++ "/branch-restrictions/" ++ decimal n) with
          | some err => some err
          | none =>
            match w.readAnswer (w.Do (c.authorize
                { Method := "DELETE"
                  URL := c.Host ++ "/repositories/" ++ c.Workspace ++ "/" ++ s
              ++ "/branch-restrictions/" ++ decimal n
                  Header := [], Body := none })) with
            | .error err => some err
            | .ok _ => none) := by
  unfold Client.DeleteBranchRestriction World.NewRequest
  cases w.urlParse (c.Host ++ "/repositories/" ++ c.Workspace ++ "/" ++ s
              ++ "/branch-restrictions/" ++ decimal n)
  · simp only [doRequest_reads_answer]
    repeat' split
    all_goals simp_all
  · rfl

theorem CreateBranchRestriction_result (c : Client) (w : World) (s : String) (newBranchRestriction : BranchRestriction) :
    (c.CreateBranchRestriction w s newBranchRestriction).result
        = (match w.marshalBranchRestriction newBranchRestriction with
          | .error err => .error err
          | .ok rb =>
            match w.urlParse (c.Host ++ "/repositories/" ++ c.Workspace ++ "/" ++ s
              ++ "/branch-restrictions") with
            | some _ => .panic nilDereference
            | none =>
              match w.readAnswer (w.Do (c.authorize
                  { Method := "POST"
                    URL := c.Host ++ "/repositories/" ++ c.Workspace ++ "/" ++ s
              ++ "/branch-restrictions"
                    Header := [("Content-Type", "application/json")], Body := some rb })) with
              | .error err => .error err
              | .ok body =>
                match w.unmarshalBranchRestriction body with
                | .error err => .error err
                | .ok r => .value r) := by
  unfold Client.CreateBranchRestriction World.NewRequest
  cases w.marshalBranchRestriction newBranchRestriction
  · rfl
  · cases w.urlParse (c.Host ++ "/repositories/" ++ c.Workspace ++ "/" ++ s
              ++ "/branch-restrictions")
    · simp only [doRequest_reads_answer, Header.Add, canonical_content_type, List.nil_append]
      repeat' split
      all_goals simp_all
    · rfl

theorem GetBranchRestrictions_result (c : Client) (w : World) (s : String) :
    (c.GetBranchRestrictions w s).result
        = (match w.urlParse (c.Host ++ "/repositories/" ++ c.Workspace ++ "/" ++ s
              ++ "/branch-restrictions") with
          | some err => .error err
          | none =>
            match w.readAnswer (w.Do (c.authorize
                { Method := "GET"
                  URL := c.Host ++ "/repositories/" ++ c.Workspace ++ "/" ++ s
              ++ "/branch-restrictions"
                  Header := [], Body := none })) with
            | .error err => .error err
            | .ok body => w.unmarshalBranchRestrictions body) := by
  unfold Client.GetBranchRestrictions World.NewRequest
  cases w.urlParse (c.Host ++ "/repositories/" ++ c.Workspace ++ "/" ++ s
              ++ "/branch-restrictions")
  · simp only [doRequest_reads_answer]
    repeat' split
    all_goals simp_all
  · rfl

theorem DeleteGroupPermission_result (c : Client) (w : World) (s g : String) :
    (c.DeleteGroupPermission w s g).result
        = (match w.urlParse (c.Host ++ "/repositories/" ++ c.Workspace ++ "/" ++ s
              ++ "/permissions-config/groups/" ++ g) with
          | some err => some err
          | none =>
            match w.readAnswer (w.Do (c.authorize
                { Method := "DELETE"
                  URL := c.Host ++ "/repositories/" ++ c.Workspace ++ "/" ++ s
              ++ "/permissions-config/groups/" ++ g
                  Header := [], Body := none })) with
            | .error err => some err
            | .ok _ => none) := by
  unfold Client.DeleteGroupPermission World.NewRequest
  cases w.urlParse (c.Host ++ "/repositories/" ++ c.Workspace ++ "/" ++ s
              ++ "/permissions-config/groups/" ++ g)
  · simp only [doRequest_reads_answer]
    repeat' split
    all_goals simp_all
  · rfl

/-- C7.  In every world the result of each repository operation is read off
the answer of `HTTPClient.Do` to one request, so that request is what the
operation hands the HTTP client: `GetRepository`, `CreateRepository`,
`UpdateRepository` and `DeleteRepository` call it on the one URL
`Host + "/repositories/" + Workspace + "/" + slug` with the methods GET, POST,
PUT and DELETE, and `GetRepositories` on `Host + "/repositories/" + Workspace`
with GET.  Nothing is handed over when the URL does not parse or the body does
not marshal; the request has the Authorization value, and for POST and PUT the
JSON content type and the marshalled body.  The list of requests each
operation reports agrees with this, and a transport that answers with the
method, URL and Authorization value of the request it is handed gets these
from each operation. -/
theorem repository_operations_address (c : Client) (w : World) (s : String)
    (newRepository : Repository) :
    ((c.GetRepository w s).result
        = (match w.urlParse (c.Host ++ "/repositories/" ++ c.Workspace ++ "/" ++ s) with
          | some err => .error err
          | none =>
            match w.readAnswer (w.Do (c.authorize
                { Method := "GET"
                  URL := c.Host ++ "/repositories/" ++ c.Workspace ++ "/" ++ s
                  Header := [], Body := none })) with
            | .error err => .error err
            | .ok body => w.unmarshalRepository body))
      ∧ ((c.CreateRepository w s newRepository).result
        = (match w.marshalRepository newRepository with
          | .error err => .error err
          | .ok rb =>
            match w.urlParse (c.Host ++ "/repositories/" ++ c.Workspace ++ "/" ++ s) with
            | some _ => .panic nilDereference
            | none =>
              match w.readAnswer (w.Do (c.authorize
                  { Method := "POST"
                    URL := c.Host ++ "/repositories/" ++ c.Workspace ++ "/" ++ s
                    Header := [("Content-Type", "application/json")], Body := some rb })) with
              | .error err => .error err
              | .ok body =>
                match w.unmarshalRepository body with
                | .error err => .error err
                | .ok r => .value r))
      ∧ ((c.UpdateRepository w s newRepository).result
        = (match w.marshalRepository newRepository with
          | .error err => .error err
          | .ok rb =>
            match w.urlParse (c.Host ++ "/repositories/" ++ c.Workspace ++ "/" ++ s) with
            | some _ => .panic nilDereference
            | none =>
              match w.readAnswer (w.Do (c.authorize
                  { Method := "PUT"
                    URL := c.Host ++ "/repositories/" ++ c.Workspace ++ "/" ++ s
                    Header := [("Content-Type", "application/json")], Body := some rb })) with
              | .error err => .error err
              | .ok body =>
                match w.unmarshalRepository body with
                | .error err => .error err
                | .ok r => .value r))
      ∧ ((c.DeleteRepository w s).result
        = (match w.urlParse (c.Host ++ "/repositories/" ++ c.Workspace ++ "/" ++ s) with
          | some err => some err
          | none =>
            match w.readAnswer (w.Do (c.authorize
                { Method := "DELETE"
                  URL := c.Host ++ "/repositories/" ++ c.Workspace ++ "/" ++ s
                  Header := [], Body := none })) with
            | .error err => some err
            | .ok _ => none))
      ∧ ((c.GetRepositories w).result
        = (match w.urlParse (c.Host ++ "/repositories/" ++ c.Workspace) with
          | some err => .error err
          | none =>
            match w.readAnswer (w.Do (c.authorize
                { Method := "GET"
                  URL := c.Host ++ "/repositories/" ++ c.Workspace
                  Header := [], Body := none })) with
            | .error err => .error err
            | .ok body => w.unmarshalRepositories body))
      ∧ ((c.GetRepository w s).sent.map (fun q => (q.Method, q.URL))
        = match w.urlParse (c.Host ++ "/repositories/" ++ c.Workspace ++ "/" ++ s) with
          | none => [("GET", c.Host ++ "/repositories/" ++ c.Workspace ++ "/" ++ s)]
          | some _ => [])
      ∧ ((c.CreateRepository w s newRepository).sent.map (fun q => (q.Method, q.URL))
        = match w.marshalRepository newRepository, w.urlParse (c.Host ++ "/repositories/" ++ c.Workspace ++ "/" ++ s) with
          | .ok _, none => [("POST", c.Host ++ "/repositories/" ++ c.Workspace ++ "/" ++ s)]
          | _, _ => [])
      ∧ ((c.UpdateRepository w s newRepository).sent.map (fun q => (q.Method, q.URL))
        = match w.marshalRepository newRepository, w.urlParse (c.Host ++ "/repositories/" ++ c.Workspace ++ "/" ++ s) with
          | .ok _, none => [("PUT", c.Host ++ "/repositories/" ++ c.Workspace ++ "/" ++ s)]
          | _, _ => [])
      ∧ ((c.DeleteRepository w s).sent.map (fun q => (q.Method, q.URL))
        = match w.urlParse (c.Host ++ "/repositories/" ++ c.Workspace ++ "/" ++ s) with
          | none => [("DELETE", c.Host ++ "/repositories/" ++ c.Workspace ++ "/" ++ s)]
          | some _ => [])
      ∧ ((c.GetRepositories w).sent.map (fun q => (q.Method, q.URL))
        = match w.urlParse (c.Host ++ "/repositories/" ++ c.Workspace) with
          | none => [("GET", c.Host ++ "/repositories/" ++ c.Workspace)]
          | some _ => [])
      ∧ ((c.GetRepository echoServer s).result
        = .error (.foreign ("GET" ++ " " ++ (c.Host ++ "/repositories/" ++ c.Workspace ++ "/" ++ s)
            ++ " " ++ ("Basic " ++ c.Token))))
      ∧ ((c.CreateRepository echoServer s newRepository).result
        = .error (.foreign ("POST" ++ " " ++ (c.Host ++ "/repositories/" ++ c.Workspace ++ "/" ++ s)
            ++ " " ++ ("Basic " ++ c.Token))))
      ∧ ((c.UpdateRepository echoServer s newRepository).result
        = .error (.foreign ("PUT" ++ " " ++ (c.Host ++ "/repositories/" ++ c.Workspace ++ "/" ++ s)
            ++ " " ++ ("Basic " ++ c.Token))))
      ∧ ((c.DeleteRepository echoServer s).result
        = some (.foreign ("DELETE" ++ " " ++ (c.Host ++ "/repositories/" ++ c.Workspace ++ "/" ++ s)
            ++ " " ++ ("Basic " ++ c.Token))))
      ∧ ((c.GetRepositories echoServer).result
        = .error (.foreign ("GET" ++ " " ++ (c.Host ++ "/repositories/" ++ c.Workspace)
            ++ " " ++ ("Basic " ++ c.Token)))) := by
  refine ⟨GetRepository_result c w s,
    CreateRepository_result c w s newRepository,
    UpdateRepository_result c w s newRepository,
    DeleteRepository_result c w s,
    GetRepositories_result c w,
    ?_, ?_, ?_, ?_, ?_, ?_, ?_, ?_, ?_, ?_⟩
  · unfold Client.GetRepository World.NewRequest
    cases w.urlParse (c.Host ++ "/repositories/" ++ c.Workspace ++ "/" ++ s) <;>
      (try simp only [doRequest_sent]) <;> (repeat' split) <;> rfl
  · unfold Client.CreateRepository World.NewRequest
    cases w.marshalRepository newRepository <;>
      cases w.urlParse (c.Host ++ "/repositories/" ++ c.Workspace ++ "/" ++ s) <;>
      (try simp only [doRequest_sent]) <;> (repeat' split) <;> rfl
  · unfold Client.UpdateRepository World.NewRequest
    cases w.marshalRepository newRepository <;>
      cases w.urlParse (c.Host ++ "/repositories/" ++ c.Workspace ++ "/" ++ s) <;>
      (try simp only [doRequest_sent]) <;> (repeat' split) <;> rfl
  · unfold Client.DeleteRepository World.NewRequest
    cases w.urlParse (c.Host ++ "/repositories/" ++ c.Workspace ++ "/" ++ s) <;>
      (try simp only [doRequest_sent]) <;> (repeat' split) <;> rfl
  · unfold Client.GetRepositories World.NewRequest
    cases w.urlParse (c.Host ++ "/repositories/" ++ c.Workspace) <;>
      (try simp only [doRequest_sent]) <;> (repeat' split) <;> rfl
  · rw [GetRepository_result]
    simp [echoServer, goWorld, World.readAnswer, Client.authorize, Header.Add, Header.Get,
      Header.Values, canonical_authorization]
  · rw [CreateRepository_result]
    simp [echoServer, goWorld, World.readAnswer, Client.authorize, Header.Add, Header.Get,
      Header.Values, canonical_authorization]
  · rw [UpdateRepository_result]
    simp [echoServer, goWorld, World.readAnswer, Client.authorize, Header.Add, Header.Get,
      Header.Values, canonical_authorization]
  · rw [DeleteRepository_result]
    simp [echoServer, goWorld, World.readAnswer, Client.authorize, Header.Add, Header.Get,
      Header.Values, canonical_authorization]
  · rw [GetRepositories_result]
    simp [echoServer, goWorld, World.readAnswer, Client.authorize, Header.Add, Header.Get,
      Header.Values, canonical_authorization]

/-- C8.  In every world the result of each branch restriction operation is
read off the answer of `HTTPClient.Do` to one request, so that request is
what the operation hands the HTTP client: `GetBranchRestriction`,
`UpdateBranchRestriction` and `DeleteBranchRestriction` call it on
`Host + "/repositories/" + Workspace + "/" + slug + "/branch-restrictions/" + decimal(id)`
with GET, PUT and DELETE, while `CreateBranchRestriction` (POST) and
`GetBranchRestrictions` (GET) call it on the collection URL, which has no id.
Nothing is handed over when the URL does not parse or the body does not
marshal.  The list of requests each operation reports agrees with this, and a
transport that answers with the method, URL and Authorization value of the
request it is handed gets these from each operation. -/
theorem branch_restriction_operations_address (c : Client) (w : World) (s : String) (n : Int)
    (newBranchRestriction : BranchRestriction) :
    ((c.GetBranchRestriction w s n).result
        = (match w.urlParse (c.Host ++ "/repositories/" ++ c.Workspace ++ "/" ++ s
              ++ "/branch-restrictions/" ++ decimal n) with
          | some err => .error err
          | none =>
            match w.readAnswer (w.Do (c.authorize
                { Method := "GET"
                  URL := c.Host ++ "/repositories/" ++ c.Workspace ++ "/" ++ s
              ++ "/branch-restrictions/" ++ decimal n
                  Header := [], Body := none })) with
            | .error err => .error err
            | .ok body => w.unmarshalBranchRestriction body))
      ∧ ((c.UpdateBranchRestriction w s n newBranchRestriction).result
        = (match w.marshalBranchRestriction newBranchRestriction with
          | .error err => .error err
          | .ok rb =>
            match w.urlParse (c.Host ++ "/repositories/" ++ c.Workspace ++ "/" ++ s
              ++ "/branch-restrictions/" ++ decimal n) with
            | some _ => .panic nilDereference
            | none =>
              match w.readAnswer (w.Do (c.authorize
                  { Method := "PUT"
                    URL := c.Host ++ "/repositories/" ++ c.Workspace ++ "/" ++ s
              ++ "/branch-restrictions/" ++ decimal n
                    Header := [("Content-Type", "application/json")], Body := some rb })) with
              | .error err => .error err
              | .ok body =>
                match w.unmarshalBranchRestriction body with
                | .error err => .error err
                | .ok r => .value r))
      ∧ ((c.DeleteBranchRestriction w s n).result
        = (match w.urlParse (c.Host ++ "/repositories/" ++ c.Workspace ++ "/" ++ s
              ++ "/branch-restrictions/" ++ decimal n) with
          | some err => some err
          | none =>
            match w.readAnswer (w.Do (c.authorize
                { Method := "DELETE"
                  URL := c.Host ++ "/repositories/" ++ c.Workspace ++ "/" ++ s
              ++ "/branch-restrictions/" ++ decimal n
                  Header := [], Body := none })) with
            | .error err => some err
            | .ok _ => none))
      ∧ ((c.CreateBranchRestriction w s newBranchRestriction).result
        = (match w.marshalBranchRestriction newBranchRestriction with
          | .error err => .error err
          | .ok rb =>
            match w.urlParse (c.Host ++ "/repositories/" ++ c.Workspace ++ "/" ++ s
              ++ "/branch-restrictions") with
            | some _ => .panic nilDereference
            | none =>
              match w.readAnswer (w.Do (c.authorize
                  { Method := "POST"
                    URL := c.Host ++ "/repositories/" ++ c.Workspace ++ "/" ++ s
              ++ "/branch-restrictions"
                    Header := [("Content-Type", "application/json")], Body := some rb })) with
              | .error err => .error err
              | .ok body =>
                match w.unmarshalBranchRestriction body with
                | .error err => .error err
                | .ok r => .value r))
      ∧ ((c.GetBranchRestrictions w s).result
        = (match w.urlParse (c.Host ++ "/repositories/" ++ c.Workspace ++ "/" ++ s
              ++ "/branch-restrictions") with
          | some err => .error err
          | none =>
            match w.readAnswer (w.Do (c.authorize
                { Method := "GET"
                  URL := c.Host ++ "/repositories/" ++ c.Workspace ++ "/" ++ s
              ++ "/branch-restrictions"
                  Header := [], Body := none })) with
            | .error err => .error err
            | .ok body => w.unmarshalBranchRestrictions body))
      ∧ ((c.GetBranchRestriction w s n).sent.map (fun q => (q.Method, q.URL))
        = match w.urlParse (c.Host ++ "/repositories/" ++ c.Workspace ++ "/" ++ s
              ++ "/branch-restrictions/" ++ decimal n) with
          | none => [("GET", c.Host ++ "/repositories/" ++ c.Workspace ++ "/" ++ s
              ++ "/branch-restrictions/" ++ decimal n)]
          | some _ => [])
      ∧ ((c.UpdateBranchRestriction w s n newBranchRestriction).sent.map (fun q => (q.Method, q.URL))
        = match w.marshalBranchRestriction newBranchRestriction, w.urlParse (c.Host ++ "/repositories/" ++ c.Workspace ++ "/" ++ s
              ++ "/branch-restrictions/" ++ decimal n) with
          | .ok _, none => [("PUT", c.Host ++ "/repositories/" ++ c.Workspace ++ "/" ++ s
              ++ "/branch-restrictions/" ++ decimal n)]
          | _, _ => [])
      ∧ ((c.DeleteBranchRestriction w s n).sent.map (fun q => (q.Method, q.URL))
        = match w.urlParse (c.Host ++ "/repositories/" ++ c.Workspace ++ "/" ++ s
              ++ "/branch-restrictions/" ++ decimal n) with
          | none => [("DELETE", c.Host ++ "/repositories/" ++ c.Workspace ++ "/" ++ s
              ++ "/branch-restrictions/" ++ decimal n)]
          | some _ => [])
      ∧ ((c.CreateBranchRestriction w s newBranchRestriction).sent.map (fun q => (q.Method, q.URL))
        = match w.marshalBranchRestriction newBranchRestriction, w.urlParse (c.Host ++ "/repositories/" ++ c.Workspace ++ "/" ++ s
              ++ "/branch-restrictions") with
          | .ok _, none => [("POST", c.Host ++ "/repositories/" ++ c.Workspace ++ "/" ++ s
              ++ "/branch-restrictions")]
          | _, _ => [])
      ∧ ((c.GetBranchRestrictions w s).sent.map (fun q => (q.Method, q.URL))
        = match w.urlParse (c.Host ++ "/repositories/" ++ c.Workspace ++ "/" ++ s
              ++ "/branch-restrictions") with
          | none => [("GET", c.Host ++ "/repositories/" ++ c.Workspace ++ "/" ++ s
              ++ "/branch-restrictions")]
          | some _ => [])
      ∧ ((c.GetBranchRestriction echoServer s n).result
        = .error (.foreign ("GET" ++ " " ++ (c.Host ++ "/repositories/" ++ c.Workspace ++ "/" ++ s
              ++ "/branch-restrictions/" ++ decimal n)
            ++ " " ++ ("Basic " ++ c.Token))))
      ∧ ((c.UpdateBranchRestriction echoServer s n newBranchRestriction).result
        = .error (.foreign ("PUT" ++ " " ++ (c.Host ++ "/repositories/" ++ c.Workspace ++ "/" ++ s
              ++ "/branch-restrictions/" ++ decimal n)
            ++ " " ++ ("Basic " ++ c.Token))))
      ∧ ((c.DeleteBranchRestriction echoServer s n).result
        = some (.foreign ("DELETE" ++ " " ++ (c.Host ++ "/repositories/" ++ c.Workspace ++ "/" ++ s
              ++ "/branch-restrictions/" ++ decimal n)
            ++ " " ++ ("Basic " ++ c.Token))))
      ∧ ((c.CreateBranchRestriction echoServer s newBranchRestriction).result
        = .error (.foreign ("POST" ++ " " ++ (c.Host ++ "/repositories/" ++ c.Workspace ++ "/" ++ s
              ++ "/branch-restrictions")
            ++ " " ++ ("Basic " ++ c.Token))))
      ∧ ((c.GetBranchRestrictions echoServer s).result
        = .error (.foreign ("GET" ++ " " ++ (c.Host ++ "/repositories/" ++ c.Workspace ++ "/" ++ s
              ++ "/branch-restrictions")
            ++ " " ++ ("Basic " ++ c.Token)))) := by
  refine ⟨GetBranchRestriction_result c w s n,
    UpdateBranchRestriction_result c w s n newBranchRestriction,
    DeleteBranchRestriction_result c w s n,
    CreateBranchRestriction_result c w s newBranchRestriction,
    GetBranchRestrictions_result c w s,
    ?_, ?_, ?_, ?_, ?_, ?_, ?_, ?_, ?_, ?_⟩
  · unfold Client.GetBranchRestriction World.NewRequest
    cases w.urlParse (c.Host ++ "/repositories/" ++ c.Workspace ++ "/" ++ s
              ++ "/branch-restrictions/" ++ decimal n) <;>
      (try simp only [doRequest_sent]) <;> (repeat' split) <;> rfl
  · unfold Client.UpdateBranchRestriction World.NewRequest
    cases w.marshalBranchRestriction newBranchRestriction <;>
      cases w.urlParse (c.Host ++ "/repositories/" ++ c.Workspace ++ "/" ++ s
              ++ "/branch-restrictions/" ++ decimal n) <;>
      (try simp only [doRequest_sent]) <;> (repeat' split) <;> rfl
  · unfold Client.DeleteBranchRestriction World.NewRequest
    cases w.urlParse (c.Host ++ "/repositories/" ++ c.Workspace ++ "/" ++ s
              ++ "/branch-restrictions/" ++ decimal n) <;>
      (try simp only [doRequest_sent]) <;> (repeat' split) <;> rfl
  · unfold Client.CreateBranchRestriction World.NewRequest
    cases w.marshalBranchRestriction newBranchRestriction <;>
      cases w.urlParse (c.Host ++ "/repositories/" ++ c.Workspace ++ "/" ++ s
              ++ "/branch-restrictions") <;>
      (try simp only [doRequest_sent]) <;> (repeat' split) <;> rfl
  · unfold Client.GetBranchRestrictions World.NewRequest
    cases w.urlParse (c.Host ++ "/repositories/" ++ c.Workspace ++ "/" ++ s
              ++ "/branch-restrictions") <;>
      (try simp only [doRequest_sent]) <;> (repeat' split) <;> rfl
  · rw [GetBranchRestriction_result]
    simp [echoServer, goWorld, World.readAnswer, Client.authorize, Header.Add, Header.Get,
      Header.Values, canonical_authorization]
  · rw [UpdateBranchRestriction_result]
    simp [echoServer, goWorld, World.readAnswer, Client.authorize, Header.Add, Header.Get,
      Header.Values, canonical_authorization]
  · rw [DeleteBranchRestriction_result]
    simp [echoServer, goWorld, World.readAnswer, Client.authorize, Header.Add, Header.Get,
      Header.Values, canonical_authorization]
  · rw [CreateBranchRestriction_result]
    simp [echoServer, goWorld, World.readAnswer, Client.authorize, Header.Add, Header.Get,
      Header.Values, canonical_authorization]
  · rw [GetBranchRestrictions_result]
    simp [echoServer, goWorld, World.readAnswer, Client.authorize, Header.Add, Header.Get,
      Header.Values, canonical_authorization]

/-- C9.  `CreateGroupPermission` and `UpdateGroupPermission` are the same
operation: in every world they return the same result and send the same
requests.  When the permission marshals to `rb` and the URL parses, the one
request sent has method PUT, the URL
`Host + "/repositories/" + Workspace + "/" + repositorySlug + "/permissions-config/groups/" + groupSlug`,
the content type `application/json` (before the Authorization value) and the
body `rb`; otherwise nothing is sent. -/
theorem group_permission_create_same_as_update (c : Client) (w : World)
    (repositorySlug groupSlug : String) (p : GroupPermission) :
    c.CreateGroupPermission w repositorySlug groupSlug p
        = c.UpdateGroupPermission w repositorySlug groupSlug p
      ∧ (c.CreateGroupPermission w repositorySlug groupSlug p).sent
        = (match w.marshalGroupPermission p,
            w.urlParse (c.Host ++ "/repositories/" ++ c.Workspace ++ "/" ++ repositorySlug
              ++ "/permissions-config/groups/" ++ groupSlug) with
          | .ok rb, none =>
            [{ Method := "PUT"
               URL := c.Host ++ "/repositories/" ++ c.Workspace ++ "/" ++ repositorySlug
                 ++ "/permissions-config/groups/" ++ groupSlug
               Header := [("Content-Type", "application/json"),
                 ("Authorization", "Basic " ++ c.Token)]
               Body := some rb }]
          | _, _ => [])
      ∧ ∀ q ∈ (c.CreateGroupPermission w repositorySlug groupSlug p).sent,
          Header.Get q.Header "content-type" = "application/json" := by
  have hsent : (c.CreateGroupPermission w repositorySlug groupSlug p).sent
      = (match w.marshalGroupPermission p,
          w.urlParse (c.Host ++ "/repositories/" ++ c.Workspace ++ "/" ++ repositorySlug
            ++ "/permissions-config/groups/" ++ groupSlug) with
        | .ok rb, none =>
          [{ Method := "PUT"
             URL := c.Host ++ "/repositories/" ++ c.Workspace ++ "/" ++ repositorySlug
               ++ "/permissions-config/groups/" ++ groupSlug
             Header := [("Content-Type", "application/json"),
               ("Authorization", "Basic " ++ c.Token)]
             Body := some rb }]
        | _, _ => []) := by
    unfold Client.CreateGroupPermission World.NewRequest
    cases w.marshalGroupPermission p <;>
      cases w.urlParse (c.Host ++ "/repositories/" ++ c.Workspace ++ "/" ++ repositorySlug
        ++ "/permissions-config/groups/" ++ groupSlug)
    all_goals try simp only [doRequest_sent, Client.authorize, Header.Add,
      canonical_content_type, canonical_authorization, List.nil_append, List.singleton_append]
    all_goals repeat' split
    all_goals rfl
  refine ⟨rfl, hsent, ?_⟩
  rw [hsent]
  intro q hq
  split at hq
  · rw [List.mem_singleton] at hq
    subst hq
    simp [Header.Get, Header.Values, canonical_content_type]
  · cases hq

/-! ### `Configure` -/

theorem Diagnostics.HasError_AddAttributeError (diags : Diagnostics)
    (name summary detail : String) :
    Diagnostics.HasError (Diagnostics.AddAttributeError diags name summary detail) = true := by
  unfold Diagnostics.AddAttributeError Diagnostics.Append
  split
  · rename_i hc
    have hmem : ({ severity := .error, summary := summary, detail := detail, path := some name }
        : Diagnostic) ∈ diags := by simpa using hc
    simp only [Diagnostics.Append, Diagnostics.HasError, List.any_eq_true]
    exact ⟨_, hmem, by simp⟩
  · simp [Diagnostics.Append, Diagnostics.HasError]

theorem Configure_staged (p : bitbucketProvider) (getenv : String → String)
    (req : ConfigureRequest) (resp : ConfigureResponse) :
    bitbucketProvider.Configure p getenv req resp =
      let r0 : ConfigureResponse :=
        { resp with Diagnostics := Diagnostics.Append resp.Diagnostics req.Config.diags }
      if Diagnostics.HasError r0.Diagnostics then r0
      else
        let r1 : ConfigureResponse :=
          (((r0.addAttributeErrorIf (req.Config.target.Host.IsUnknown = true)
            "host"
            "Unknown Bitbucket API Host"
            ("The provider cannot create the Bitbucket API client as there is an unknown configuration value for the Bitbucket API host. "
              ++ "Either target apply the source of the value first, set the value statically in the configuration, or use the BITBUCKET_HOST environment variable.")).addAttributeErrorIf
            (req.Config.target.Workspace.IsUnknown = true)
            "workspace"
            "Unknown Bitbucket API Workspace"
            ("The provider cannot create the Bitbucket API client as there is an unknown configuration value for the Bitbucket API workspace. "
              ++ "Either target apply the source of the value first, set the value statically in the configuration, or use the BITBUCKET_WORKSPACE environment variable.")).addAttributeErrorIf
            (req.Config.target.Token.IsUnknown = true)
            "token"
            "Unknown Bitbucket API Token"
            ("The provider cannot create the Bitbucket API client as there is an unknown configuration value for the Bitbucket API token. "
              ++ "Either target apply the source of the value first, set the value statically in the configuration, or use the BITBUCKET_TOKEN environment variable."))
        if Diagnostics.HasError r1.Diagnostics then r1
        else
          let r2 : ConfigureResponse :=
            (((r1.addAttributeErrorIf
              ((if (!req.Config.target.Host.IsNull) = true then req.Config.target.Host.ValueString
            else getenv "BITBUCKET_HOST") = "")
            "host"
            "Missing Bitbucket API Host"
            ("The provider cannot create the Bitbucket API client as there is a missing or empty value for the Bitbucket API host. "
              ++ "Set the host value in the configuration or use the BITBUCKET_HOST environment variable. "
              ++ "If either is already set, ensure the value is not empty.")).addAttributeErrorIf
              ((if (!req.Config.target.Workspace.IsNull) = true then req.Config.target.Workspace.ValueString
            else getenv "BITBUCKET_WORKSPACE") = "")
            "workspace"
            "Missing Bitbucket API Workspace"
            ("The provider cannot create the Bitbucket API client as there is a missing or empty value for the Bitbucket API workspace. "
              ++ "Set the workspace value in the configuration or use the BITBUCKET_WORKSPACE environment variable. "
              ++ "If either is already set, ensure the value is not empty.")).addAttributeErrorIf
              ((if (!req.Config.target.Token.IsNull) = true then req.Config.target.Token.ValueString
            else getenv "BITBUCKET_TOKEN") = "")
            "token"
            "Missing Bitbucket API Token"
            ("The provider cannot create the Bitbucket API client as there is a missing or empty value for the Bitbucket API token. "
              ++ "Set the token value in the configuration or use the BITBUCKET_TOKEN environment variable. "
              ++ "If either is already set, ensure the value is not empty."))
          if Diagnostics.HasError r2.Diagnostics then r2
          else
            { r2 with
              DataSourceData := some
                { Host := (if (!req.Config.target.Host.IsNull) = true then req.Config.target.Host.ValueString
            else getenv "BITBUCKET_HOST")
                  Workspace := (if (!req.Config.target.Workspace.IsNull) = true then req.Config.target.Workspace.ValueString
            else getenv "BITBUCKET_WORKSPACE")
                  Token := (if (!req.Config.target.Token.IsNull) = true then req.Config.target.Token.ValueString
            else getenv "BITBUCKET_TOKEN") }
              ResourceData := some
                { Host := (if (!req.Config.target.Host.IsNull) = true then req.Config.target.Host.ValueString
            else getenv "BITBUCKET_HOST")
                  Workspace := (if (!req.Config.target.Workspace.IsNull) = true then req.Config.target.Workspace.ValueString
            else getenv "BITBUCKET_WORKSPACE")
                  Token := (if (!req.Config.target.Token.IsNull) = true then req.Config.target.Token.ValueString
            else getenv "BITBUCKET_TOKEN") } } := by
  rfl

theorem addAttributeErrorIf_neg (r : ConfigureResponse) (b : Prop) [Decidable b]
    (name summary detail : String) (h : ¬ b) :
    r.addAttributeErrorIf b name summary detail = r := by
  unfold ConfigureResponse.addAttributeErrorIf
  rw [if_neg h]

theorem addAttributeErrorIf_HasError (r : ConfigureResponse) (b : Prop) [Decidable b]
    (name summary detail : String) (h : b) :
    Diagnostics.HasError (r.addAttributeErrorIf b name summary detail).Diagnostics = true := by
  unfold ConfigureResponse.addAttributeErrorIf
  rw [if_pos h]
  exact Diagnostics.HasError_AddAttributeError _ _ _ _

theorem addAttributeErrorIf_DataSourceData (r : ConfigureResponse) (b : Prop) [Decidable b]
    (name summary detail : String) :
    (r.addAttributeErrorIf b name summary detail).DataSourceData = r.DataSourceData := by
  unfold ConfigureResponse.addAttributeErrorIf
  split <;> rfl

theorem addAttributeErrorIf_ResourceData (r : ConfigureResponse) (b : Prop) [Decidable b]
    (name summary detail : String) :
    (r.addAttributeErrorIf b name summary detail).ResourceData = r.ResourceData := by
  unfold ConfigureResponse.addAttributeErrorIf
  split <;> rfl

theorem Configure_cases (p : bitbucketProvider) (getenv : String → String)
    (req : ConfigureRequest) (resp : ConfigureResponse)
    (hRead : Diagnostics.HasError (Diagnostics.Append resp.Diagnostics req.Config.diags) = false) :
    (usable req.Config.target getenv →
        bitbucketProvider.Configure p getenv req resp
          = { Diagnostics := Diagnostics.Append resp.Diagnostics req.Config.diags
              DataSourceData := some (resolvedClient req.Config.target getenv)
              ResourceData := some (resolvedClient req.Config.target getenv) })
      ∧ (¬ usable req.Config.target getenv →
        (bitbucketProvider.Configure p getenv req resp).DataSourceData = resp.DataSourceData
          ∧ (bitbucketProvider.Configure p getenv req resp).ResourceData = resp.ResourceData
          ∧ Diagnostics.HasError (bitbucketProvider.Configure p getenv req resp).Diagnostics
              = true) := by
  have e : ∀ (v : TfString) (env : String),
      (if (!v.IsNull) = true then v.ValueString else env) = resolved v env := by
    intro v env
    cases v <;> rfl
  rw [Configure_staged]
  simp only [e]
  unfold usable resolvedClient
  by_cases hu1 : req.Config.target.Host.IsUnknown = true <;>
    by_cases hu2 : req.Config.target.Workspace.IsUnknown = true <;>
    by_cases hu3 : req.Config.target.Token.IsUnknown = true <;>
    by_cases he1 : resolved req.Config.target.Host (getenv "BITBUCKET_HOST") = "" <;>
    by_cases he2 : resolved req.Config.target.Workspace (getenv "BITBUCKET_WORKSPACE") = "" <;>
    by_cases he3 : resolved req.Config.target.Token (getenv "BITBUCKET_TOKEN") = "" <;>
    simp [hRead, hu1, hu2, hu3, he1, he2, he3, addAttributeErrorIf_neg,
      addAttributeErrorIf_HasError, addAttributeErrorIf_DataSourceData,
      addAttributeErrorIf_ResourceData]

/-- C10.  Given a configuration read without error and a response that
holds no client yet, `Configure` hands a client to resources and data sources
exactly when no configuration value is unknown and the three resolved values
are non-empty.  Then the client holds exactly the resolved values and no
diagnostic is added; otherwise an error diagnostic is added and no client is
set.  In particular a configuration value that is the empty string is an
error, whatever the environment holds. -/
theorem Configure_hands_client_iff_usable (p : bitbucketProvider) (getenv : String → String)
    (req : ConfigureRequest) (resp : ConfigureResponse)
    (hRead : Diagnostics.HasError (Diagnostics.Append resp.Diagnostics req.Config.diags) = false)
    (hData : resp.DataSourceData = none) (hResource : resp.ResourceData = none) :
    (((bitbucketProvider.Configure p getenv req resp).ResourceData.isSome = true
          ∧ (bitbucketProvider.Configure p getenv req resp).DataSourceData.isSome = true)
        ↔ usable req.Config.target getenv)
      ∧ (usable req.Config.target getenv →
          (bitbucketProvider.Configure p getenv req resp).ResourceData
              = some (resolvedClient req.Config.target getenv)
            ∧ (bitbucketProvider.Configure p getenv req resp).DataSourceData
              = some (resolvedClient req.Config.target getenv)
            ∧ (bitbucketProvider.Configure p getenv req resp).Diagnostics
              = Diagnostics.Append resp.Diagnostics req.Config.diags)
      ∧ (¬ usable req.Config.target getenv →
          Diagnostics.HasError (bitbucketProvider.Configure p getenv req resp).Diagnostics = true
            ∧ (bitbucketProvider.Configure p getenv req resp).ResourceData = none
            ∧ (bitbucketProvider.Configure p getenv req resp).DataSourceData = none)
      ∧ ((req.Config.target.Host = .known "" ∨ req.Config.target.Workspace = .known ""
            ∨ req.Config.target.Token = .known "") →
          Diagnostics.HasError (bitbucketProvider.Configure p getenv req resp).Diagnostics = true
            ∧ (bitbucketProvider.Configure p getenv req resp).ResourceData = none
            ∧ (bitbucketProvider.Configure p getenv req resp).DataSourceData = none) := by
  obtain ⟨hGood, hBad⟩ := Configure_cases p getenv req resp hRead
  have hNot : ¬ usable req.Config.target getenv →
      Diagnostics.HasError (bitbucketProvider.Configure p getenv req resp).Diagnostics = true
        ∧ (bitbucketProvider.Configure p getenv req resp).ResourceData = none
        ∧ (bitbucketProvider.Configure p getenv req resp).DataSourceData = none := by
    intro h
    obtain ⟨h1, h2, h3⟩ := hBad h
    exact ⟨h3, h2.trans hResource, h1.trans hData⟩
  refine ⟨?_, ?_, hNot, ?_⟩
  · constructor
    · intro hs
      by_contra h
      have := (hNot h).2.1
      rw [this] at hs
      exact absurd hs.1 (by decide)
    · intro h
      rw [hGood h]
      exact ⟨rfl, rfl⟩
  · intro h
    rw [hGood h]
    exact ⟨rfl, rfl, rfl⟩
  · intro hEmpty
    apply hNot
    unfold usable resolved
    rcases hEmpty with h | h | h <;> rw [h] <;> simp [TfString.IsNull, TfString.ValueString]

theorem Configure_hands_client_iff_usable_witness :
    (bitbucketProvider.Configure { version := "0.1.0" } sampleEnv
        { Config := { target := { Host := .null, Workspace := .null, Token := .known "c2VjcmV0" }
                      diags := [] } }
        { Diagnostics := [], DataSourceData := none, ResourceData := none }).ResourceData
        = some { Host := "https://bitbucket.example/2.0", Workspace := "acme"
                 Token := "c2VjcmV0" }
      ∧ Diagnostics.HasError (bitbucketProvider.Configure { version := "0.1.0" } sampleEnv
          { Config := { target := { Host := .known "", Workspace := .null, Token := .null }
                        diags := [] } }
          { Diagnostics := [], DataSourceData := none, ResourceData := none }).Diagnostics
        = true :=
  ⟨((Configure_hands_client_iff_usable { version := "0.1.0" } sampleEnv
      { Config := { target := { Host := .null, Workspace := .null, Token := .known "c2VjcmV0" }
                    diags := [] } }
      { Diagnostics := [], DataSourceData := none, ResourceData := none } rfl rfl rfl).2.1
      (by unfold usable; decide)).1,
   ((Configure_hands_client_iff_usable { version := "0.1.0" } sampleEnv
      { Config := { target := { Host := .known "", Workspace := .null, Token := .null }
                    diags := [] } }
      { Diagnostics := [], DataSourceData := none, ResourceData := none } rfl rfl rfl).2.2.2
      (Or.inl rfl)).1⟩

/-! ### `NewClient` -/

/-- C12.  `NewClient` never returns an error; the client it returns has the
default host `https://api.bitbucket.org/2.0` when the host argument is nil
and the pointed-to string otherwise, and has the pointed-to workspace and
token, each empty when its argument is nil. -/
theorem NewClient_returns_client (host workspace token : Option String) :
    NewClient host workspace token
      = .ok { Host := host.getD "https://api.bitbucket.org/2.0"
              Workspace := workspace.getD ""
              Token := token.getD "" } := by
  cases host <;> cases workspace <;> cases token <;> rfl

/-! ### Mapping between wire records and models -/

/-- C13, as the code has it.  Filling any model with `mapFrom r` and mapping it
back with `mapTo` into a zero-valued `Repository` never panics and gives `r`
in the four fields is_private, scm, project key and website (a nil website
stays nil, a website string stays the same string); the slug is not copied
back and is the empty string of the zero value. -/
theorem repository_round_trip_keeps_all_but_slug (m : repositoryResourceModel)
    (r : Repository) :
    repositoryResourceModel.mapTo (m.mapFrom r) Repository.zero
      = .value { r with Slug := "" } := by
  cases r with
  | mk slug isPrivate scm project website =>
    cases website <;> rfl

/-- C13 as stated fails: the round trip of a repository whose slug is `site`
gives a record with the empty slug, which is not that repository. -/
theorem repository_round_trip_loses_slug :
    repositoryResourceModel.mapTo (sampleRepositoryModel.mapFrom sampleRepository)
        Repository.zero
      = .value { Slug := "", IsPrivate := true, Scm := "git", Project := { Key := "WEB" }
                 Website := some "https://acme.example" }
    ∧ repositoryResourceModel.mapTo (sampleRepositoryModel.mapFrom sampleRepository)
        Repository.zero
      ≠ .value sampleRepository := by
  constructor
  · rfl
  · decide

theorem Slice.foldl_append_some {α β : Type} (f : α → β) (l : List α) (init : List β) :
    l.foldl (fun acc x => Slice.append acc (f x)) (some init) = some (init ++ l.map f) := by
  induction l generalizing init with
  | nil => simp
  | cons x xs ih =>
    rw [List.foldl_cons, show Slice.append (some init) (f x) = some (init ++ [f x]) from rfl, ih]
    simp

theorem Slice.range_foldl_append_none {α β : Type} (f : α → β) (l : List α) :
    Slice.range (l.foldl (fun acc x => Slice.append acc (f x)) none) = l.map f := by
  cases l with
  | nil => rfl
  | cons x xs =>
    rw [List.foldl_cons, show Slice.append (none : Slice β) (f x) = some [f x] from rfl,
      Slice.foldl_append_some]
    rfl

theorem round_trip_Users_of_branchRestriction (m m' : branchRestrictionResourceModel)
    (c : BranchRestriction) :
    (m'.mapFrom (m.mapTo c)).Users
      = some ((Slice.range m.Users).map
          (fun user => ({ Uuid := .known user.Uuid.ValueString } : userModel))) := by
  unfold branchRestrictionResourceModel.mapFrom branchRestrictionResourceModel.mapTo
  simp only [Slice.foldl_append_some, Slice.range_foldl_append_none, List.nil_append,
    List.map_map]
  rfl

theorem round_trip_Groups_of_branchRestriction (m m' : branchRestrictionResourceModel)
    (c : BranchRestriction) :
    (m'.mapFrom (m.mapTo c)).Groups
      = some ((Slice.range m.Groups).map
          (fun group => ({ Slug := .known group.Slug.ValueString } : groupModel))) := by
  unfold branchRestrictionResourceModel.mapFrom branchRestrictionResourceModel.mapTo
  simp only [Slice.foldl_append_some, Slice.range_foldl_append_none, List.nil_append,
    List.map_map]
  rfl

/-- C14, as the code has it.  For a model `m` whose kind, branch_match_kind and
pattern are known and whose user UUIDs and group slugs are all known, mapping
`m` to a `BranchRestriction` with `mapTo` and back with `mapFrom` leaves kind,
branch_match_kind and pattern unchanged and gives the users and the groups of
`m` with the same elements in the same order; a users or groups list that is
not nil comes back as the same list. -/
theorem branchRestriction_round_trip_keeps_known_values (m m' : branchRestrictionResourceModel)
    (c : BranchRestriction) (kind branchMatchKind pattern : String)
    (hKind : m.Kind = .known kind) (hMatch : m.BranchMatchKind = .known branchMatchKind)
    (hPattern : m.Pattern = .known pattern)
    (hUsers : ∀ user ∈ Slice.range m.Users, ∃ uuid, user.Uuid = .known uuid)
    (hGroups : ∀ group ∈ Slice.range m.Groups, ∃ slug, group.Slug = .known slug) :
    (m'.mapFrom (m.mapTo c)).Kind = m.Kind
      ∧ (m'.mapFrom (m.mapTo c)).BranchMatchKind = m.BranchMatchKind
      ∧ (m'.mapFrom (m.mapTo c)).Pattern = m.Pattern
      ∧ Slice.range (m'.mapFrom (m.mapTo c)).Users = Slice.range m.Users
      ∧ Slice.range (m'.mapFrom (m.mapTo c)).Groups = Slice.range m.Groups
      ∧ (∀ users, m.Users = some users → (m'.mapFrom (m.mapTo c)).Users = some users)
      ∧ (∀ groups, m.Groups = some groups →
          (m'.mapFrom (m.mapTo c)).Groups = some groups) := by
  have hU : (Slice.range m.Users).map
      (fun user => ({ Uuid := .known user.Uuid.ValueString } : userModel))
      = Slice.range m.Users := by
    conv => rhs; rw [← List.map_id (Slice.range m.Users)]
    apply List.map_congr_left
    intro user hmem
    obtain ⟨uuid, h⟩ := hUsers user hmem
    cases user with
    | mk u =>
      simp only at h
      subst h
      rfl
  have hG : (Slice.range m.Groups).map
      (fun group => ({ Slug := .known group.Slug.ValueString } : groupModel))
      = Slice.range m.Groups := by
    conv => rhs; rw [← List.map_id (Slice.range m.Groups)]
    apply List.map_congr_left
    intro group hmem
    obtain ⟨slug, h⟩ := hGroups group hmem
    cases group with
    | mk g =>
      simp only at h
      subst h
      rfl
  rw [round_trip_Users_of_branchRestriction, round_trip_Groups_of_branchRestriction, hU, hG]
  refine ⟨?_, ?_, ?_, rfl, rfl, ?_, ?_⟩
  · rw [hKind]; simp [branchRestrictionResourceModel.mapFrom,
      branchRestrictionResourceModel.mapTo, hKind, TfString.ValueString]
  · rw [hMatch]; simp [branchRestrictionResourceModel.mapFrom,
      branchRestrictionResourceModel.mapTo, hMatch, TfString.ValueString]
  · rw [hPattern]; simp [branchRestrictionResourceModel.mapFrom,
      branchRestrictionResourceModel.mapTo, hPattern, TfString.ValueString]
  · intro users h
    rw [h]
    rfl
  · intro groups h
    rw [h]
    rfl

theorem branchRestriction_round_trip_keeps_known_values_witness :
    (sampleBranchRestrictionModel.mapFrom
        (sampleBranchRestrictionModel.mapTo BranchRestriction.zero)).Kind = .known "push"
      ∧ (sampleBranchRestrictionModel.mapFrom
        (sampleBranchRestrictionModel.mapTo BranchRestriction.zero)).Users
        = some [{ Uuid := .known "\x7b1f0e\x7d" }] :=
  have h := branchRestriction_round_trip_keeps_known_values sampleBranchRestrictionModel
    sampleBranchRestrictionModel BranchRestriction.zero "push" "glob" "main" rfl rfl rfl
    (by intro user hmem
        simp only [Slice.range, sampleBranchRestrictionModel, Option.getD_some,
          List.mem_singleton] at hmem
        exact ⟨"\x7b1f0e\x7d", by rw [hmem]⟩)
    (by intro group hmem
        simp [Slice.range, sampleBranchRestrictionModel] at hmem)
  ⟨h.1, h.2.2.2.2.2.1 _ rfl⟩

/-- C14 as stated fails: omitted groups (a nil slice) come back as an empty
list that is not nil, just as an empty list does, and a user whose UUID is
unknown comes back with the empty string as a known UUID. -/
theorem branchRestriction_round_trip_changes_lists :
    samplePlanWithUnknownUser.Groups = none
      ∧ (samplePlanWithUnknownUser.mapFrom
          (samplePlanWithUnknownUser.mapTo BranchRestriction.zero)).Groups = some []
      ∧ ({ samplePlanWithUnknownUser with Groups := some [] }.mapFrom
          ({ samplePlanWithUnknownUser with Groups := some [] }.mapTo
            BranchRestriction.zero)).Groups = some []
      ∧ samplePlanWithUnknownUser.Users = some [{ Uuid := .unknown }]
      ∧ (samplePlanWithUnknownUser.mapFrom
          (samplePlanWithUnknownUser.mapTo BranchRestriction.zero)).Users
        = some [{ Uuid := .known "" }]
      ∧ (samplePlanWithUnknownUser.mapFrom
          (samplePlanWithUnknownUser.mapTo BranchRestriction.zero)).Groups
        ≠ samplePlanWithUnknownUser.Groups
      ∧ (samplePlanWithUnknownUser.mapFrom
          (samplePlanWithUnknownUser.mapTo BranchRestriction.zero)).Users
        ≠ samplePlanWithUnknownUser.Users := by
  refine ⟨rfl, rfl, rfl, rfl, rfl, ?_, ?_⟩ <;> decide

/-! ### The identifying attributes -/

theorem branchRestriction_Create_keeps_identifiers (r : branchRestrictionResource) (w : World)
    (convert : branchRestrictionResourceModel → Diagnostics)
    (req : CreateRequest branchRestrictionResourceModel)
    (resp out : CreateResponse branchRestrictionResourceModel)
    (st : branchRestrictionResourceModel)
    (hOut : branchRestrictionResource.Create r w convert req resp = .value out)
    (hRaw : out.State.Raw = some st) (hNe : out.State ≠ resp.State) :
    st.RepositorySlug = req.Plan.target.RepositorySlug := by
  unfold branchRestrictionResource.Create State.Set at hOut
  dsimp only at hOut
  repeat' split at hOut
  all_goals first
    | (cases hOut; exact absurd rfl hNe)
    | (cases hOut; cases hRaw; rfl)
    | cases hOut

theorem branchRestriction_Update_keeps_identifiers (r : branchRestrictionResource) (w : World)
    (convert : branchRestrictionResourceModel → Diagnostics)
    (req : UpdateRequest branchRestrictionResourceModel)
    (resp out : UpdateResponse branchRestrictionResourceModel)
    (st : branchRestrictionResourceModel)
    (hOut : branchRestrictionResource.Update r w convert req resp = .value out)
    (hRaw : out.State.Raw = some st) (hNe : out.State ≠ resp.State) :
    st.RepositorySlug = req.Plan.target.RepositorySlug := by
  unfold branchRestrictionResource.Update State.Set at hOut
  dsimp only at hOut
  repeat' split at hOut
  all_goals first
    | (cases hOut; exact absurd rfl hNe)
    | (cases hOut; cases hRaw; rfl)
    | cases hOut

theorem branchRestriction_Read_keeps_identifiers (r : branchRestrictionResource) (w : World)
    (convert : branchRestrictionResourceModel → Diagnostics)
    (req : ReadRequest branchRestrictionResourceModel)
    (resp out : ReadResponse branchRestrictionResourceModel)
    (st : branchRestrictionResourceModel)
    (hOut : branchRestrictionResource.Read r w convert req resp = out)
    (hRaw : out.State.Raw = some st) (hNe : out.State ≠ resp.State) :
    st.RepositorySlug = req.State.target.RepositorySlug := by
  unfold branchRestrictionResource.Read State.Set at hOut
  dsimp only at hOut
  repeat' split at hOut
  all_goals first
    | (cases hOut; exact absurd rfl hNe)
    | (cases hOut; cases hRaw; rfl)
    | (cases hOut; cases hRaw)

theorem groupPermission_Create_keeps_identifiers (r : groupPermissionResource) (w : World)
    (convert : groupPermissionResourceModel → Diagnostics)
    (req : CreateRequest groupPermissionResourceModel)
    (resp out : CreateResponse groupPermissionResourceModel)
    (st : groupPermissionResourceModel)
    (hOut : groupPermissionResource.Create r w convert req resp = .value out)
    (hRaw : out.State.Raw = some st) (hNe : out.State ≠ resp.State) :
    st.RepositorySlug = req.Plan.target.RepositorySlug
      ∧ st.GroupSlug = req.Plan.target.GroupSlug := by
  unfold groupPermissionResource.Create State.Set at hOut
  dsimp only at hOut
  repeat' split at hOut
  all_goals first
    | (cases hOut; exact absurd rfl hNe)
    | (cases hOut; cases hRaw; exact ⟨rfl, rfl⟩)
    | cases hOut

theorem groupPermission_Update_keeps_identifiers (r : groupPermissionResource) (w : World)
    (convert : groupPermissionResourceModel → Diagnostics)
    (req : UpdateRequest groupPermissionResourceModel)
    (resp out : UpdateResponse groupPermissionResourceModel)
    (st : groupPermissionResourceModel)
    (hOut : groupPermissionResource.Update r w convert req resp = .value out)
    (hRaw : out.State.Raw = some st) (hNe : out.State ≠ resp.State) :
    st.RepositorySlug = req.Plan.target.RepositorySlug
      ∧ st.GroupSlug = req.Plan.target.GroupSlug := by
  unfold groupPermissionResource.Update State.Set at hOut
  dsimp only at hOut
  repeat' split at hOut
  all_goals first
    | (cases hOut; exact absurd rfl hNe)
    | (cases hOut; cases hRaw; exact ⟨rfl, rfl⟩)
    | cases hOut

theorem groupPermission_Read_keeps_identifiers (r : groupPermissionResource) (w : World)
    (convert : groupPermissionResourceModel → Diagnostics)
    (req : ReadRequest groupPermissionResourceModel)
    (resp out : ReadResponse groupPermissionResourceModel)
    (st : groupPermissionResourceModel)
    (hOut : groupPermissionResource.Read r w convert req resp = out)
    (hRaw : out.State.Raw = some st) (hNe : out.State ≠ resp.State) :
    st.RepositorySlug = req.State.target.RepositorySlug
      ∧ st.GroupSlug = req.State.target.GroupSlug := by
  unfold groupPermissionResource.Read State.Set at hOut
  dsimp only at hOut
  repeat' split at hOut
  all_goals first
    | (cases hOut; exact absurd rfl hNe)
    | (cases hOut; cases hRaw; exact ⟨rfl, rfl⟩)
    | (cases hOut; cases hRaw)

/-- C18.  `mapFrom` of a branch restriction model leaves repository_slug as it
was, and `mapFrom` of a group permission model leaves repository_slug and
group_slug as they were, whatever the response.  So whenever `Create`,
`Update` or `Read` of these two resources writes a state, the state written has
the identifying attributes of the plan (`Create`, `Update`) or of the prior
state (`Read`). -/
theorem mapFrom_keeps_identifiers (w : World) :
    (∀ (m : branchRestrictionResourceModel) (c : BranchRestriction),
        (m.mapFrom c).RepositorySlug = m.RepositorySlug)
      ∧ (∀ (m : groupPermissionResourceModel) (c : GroupPermission),
        (m.mapFrom c).RepositorySlug = m.RepositorySlug
          ∧ (m.mapFrom c).GroupSlug = m.GroupSlug)
      ∧ (∀ (r : branchRestrictionResource) (convert : branchRestrictionResourceModel → Diagnostics)
        (req : CreateRequest branchRestrictionResourceModel) (resp out : CreateResponse branchRestrictionResourceModel)
        (st : branchRestrictionResourceModel),
        branchRestrictionResource.Create r w convert req resp = .value out →
        out.State.Raw = some st → out.State ≠ resp.State →
        st.RepositorySlug = req.Plan.target.RepositorySlug)
      ∧ (∀ (r : branchRestrictionResource) (convert : branchRestrictionResourceModel → Diagnostics)
        (req : UpdateRequest branchRestrictionResourceModel) (resp out : UpdateResponse branchRestrictionResourceModel)
        (st : branchRestrictionResourceModel),
        branchRestrictionResource.Update r w convert req resp = .value out →
        out.State.Raw = some st → out.State ≠ resp.State →
        st.RepositorySlug = req.Plan.target.RepositorySlug)
      ∧ (∀ (r : branchRestrictionResource) (convert : branchRestrictionResourceModel → Diagnostics)
        (req : ReadRequest branchRestrictionResourceModel) (resp : ReadResponse branchRestrictionResourceModel)
        (st : branchRestrictionResourceModel),
        (branchRestrictionResource.Read r w convert req resp).State.Raw = some st →
        (branchRestrictionResource.Read r w convert req resp).State ≠ resp.State →
        st.RepositorySlug = req.State.target.RepositorySlug)
      ∧ (∀ (r : groupPermissionResource) (convert : groupPermissionResourceModel → Diagnostics)
        (req : CreateRequest groupPermissionResourceModel) (resp out : CreateResponse groupPermissionResourceModel)
        (st : groupPermissionResourceModel),
        groupPermissionResource.Create r w convert req resp = .value out →
        out.State.Raw = some st → out.State ≠ resp.State →
        st.RepositorySlug = req.Plan.target.RepositorySlug
          ∧ st.GroupSlug = req.Plan.target.GroupSlug)
      ∧ (∀ (r : groupPermissionResource) (convert : groupPermissionResourceModel → Diagnostics)
        (req : UpdateRequest groupPermissionResourceModel) (resp out : UpdateResponse groupPermissionResourceModel)
        (st : groupPermissionResourceModel),
        groupPermissionResource.Update r w convert req resp = .value out →
        out.State.Raw = some st → out.State ≠ resp.State →
        st.RepositorySlug = req.Plan.target.RepositorySlug
          ∧ st.GroupSlug = req.Plan.target.GroupSlug)
      ∧ (∀ (r : groupPermissionResource) (convert : groupPermissionResourceModel → Diagnostics)
        (req : ReadRequest groupPermissionResourceModel) (resp : ReadResponse groupPermissionResourceModel)
        (st : groupPermissionResourceModel),
        (groupPermissionResource.Read r w convert req resp).State.Raw = some st →
        (groupPermissionResource.Read r w convert req resp).State ≠ resp.State →
        st.RepositorySlug = req.State.target.RepositorySlug
          ∧ st.GroupSlug = req.State.target.GroupSlug) := by
  refine ⟨fun _ _ => rfl, fun _ _ => ⟨rfl, rfl⟩, ?_, ?_, ?_, ?_, ?_, ?_⟩
  · intro r convert req resp out st hOut hRaw hNe
    exact branchRestriction_Create_keeps_identifiers r w convert req resp out st hOut hRaw hNe
  · intro r convert req resp out st hOut hRaw hNe
    exact branchRestriction_Update_keeps_identifiers r w convert req resp out st hOut hRaw hNe
  · intro r convert req resp st hRaw hNe
    exact branchRestriction_Read_keeps_identifiers r w convert req resp _ st rfl hRaw hNe
  · intro r convert req resp out st hOut hRaw hNe
    exact groupPermission_Create_keeps_identifiers r w convert req resp out st hOut hRaw hNe
  · intro r convert req resp out st hOut hRaw hNe
    exact groupPermission_Update_keeps_identifiers r w convert req resp out st hOut hRaw hNe
  · intro r convert req resp st hRaw hNe
    exact groupPermission_Read_keeps_identifiers r w convert req resp _ st rfl hRaw hNe

set_option maxRecDepth 100000 in
theorem mapFrom_keeps_identifiers_witness :
    branchRestrictionResource.Create { client := sampleClient }
        (fixedServer 201 branchRestrictionBody) (fun _ => [])
        { Plan := { target := samplePlanWithUnknownUser, diags := [] } }
        { State := { Raw := none }, Diagnostics := [] }
      = .value { State := { Raw := some createdBranchRestrictionModel }, Diagnostics := [] }
      ∧ createdBranchRestrictionModel.RepositorySlug
        = samplePlanWithUnknownUser.RepositorySlug :=
  ⟨rfl, (mapFrom_keeps_identifiers (fixedServer 201 branchRestrictionBody)).2.2.1
    { client := sampleClient } (fun _ => [])
    { Plan := { target := samplePlanWithUnknownUser, diags := [] } }
    { State := { Raw := none }, Diagnostics := [] }
    { State := { Raw := some createdBranchRestrictionModel }, Diagnostics := [] }
    createdBranchRestrictionModel rfl rfl (by decide)⟩

/-! ### A request that cannot be built -/

theorem CreateRepository_panics_on_unparsable_URL (c : Client) (w : World)
    (slug : String) (v : Repository) (rb : Bytes) (err : GoError)
    (hMarshal : w.marshalRepository v = .ok rb)
    (hParse : w.urlParse (c.Host ++ "/repositories/" ++ c.Workspace ++ "/" ++ slug) = some err) :
    (c.CreateRepository w slug v).result = .panic nilDereference
      ∧ (c.CreateRepository w slug v).sent = [] := by
  unfold Client.CreateRepository World.NewRequest
  simp [hMarshal, hParse]

theorem UpdateRepository_panics_on_unparsable_URL (c : Client) (w : World)
    (slug : String) (v : Repository) (rb : Bytes) (err : GoError)
    (hMarshal : w.marshalRepository v = .ok rb)
    (hParse : w.urlParse (c.Host ++ "/repositories/" ++ c.Workspace ++ "/" ++ slug) = some err) :
    (c.UpdateRepository w slug v).result = .panic nilDereference
      ∧ (c.UpdateRepository w slug v).sent = [] := by
  unfold Client.UpdateRepository World.NewRequest
  simp [hMarshal, hParse]

theorem CreateBranchRestriction_panics_on_unparsable_URL (c : Client) (w : World)
    (repositorySlug : String) (v : BranchRestriction) (rb : Bytes) (err : GoError)
    (hMarshal : w.marshalBranchRestriction v = .ok rb)
    (hParse : w.urlParse (c.Host ++ "/repositories/" ++ c.Workspace ++ "/" ++ repositorySlug ++ "/branch-restrictions") = some err) :
    (c.CreateBranchRestriction w repositorySlug v).result = .panic nilDereference
      ∧ (c.CreateBranchRestriction w repositorySlug v).sent = [] := by
  unfold Client.CreateBranchRestriction World.NewRequest
  simp [hMarshal, hParse]

theorem UpdateBranchRestriction_panics_on_unparsable_URL (c : Client) (w : World)
    (repositorySlug : String) (id : Int) (v : BranchRestriction) (rb : Bytes) (err : GoError)
    (hMarshal : w.marshalBranchRestriction v = .ok rb)
    (hParse : w.urlParse (c.Host ++ "/repositories/" ++ c.Workspace ++ "/" ++ repositorySlug
        ++ "/branch-restrictions/" ++ decimal id) = some err) :
    (c.UpdateBranchRestriction w repositorySlug id v).result = .panic nilDereference
      ∧ (c.UpdateBranchRestriction w repositorySlug id v).sent = [] := by
  unfold Client.UpdateBranchRestriction World.NewRequest
  simp [hMarshal, hParse]

theorem CreateGroupPermission_panics_on_unparsable_URL (c : Client) (w : World)
    (repositorySlug groupSlug : String) (v : GroupPermission) (rb : Bytes) (err : GoError)
    (hMarshal : w.marshalGroupPermission v = .ok rb)
    (hParse : w.urlParse (c.Host ++ "/repositories/" ++ c.Workspace ++ "/" ++ repositorySlug
        ++ "/permissions-config/groups/" ++ groupSlug) = some err) :
    (c.CreateGroupPermission w repositorySlug groupSlug v).result = .panic nilDereference
      ∧ (c.CreateGroupPermission w repositorySlug groupSlug v).sent = [] := by
  unfold Client.CreateGroupPermission World.NewRequest
  simp [hMarshal, hParse]

theorem UpdateGroupPermission_panics_on_unparsable_URL (c : Client) (w : World)
    (repositorySlug groupSlug : String) (v : GroupPermission) (rb : Bytes) (err : GoError)
    (hMarshal : w.marshalGroupPermission v = .ok rb)
    (hParse : w.urlParse (c.Host ++ "/repositories/" ++ c.Workspace ++ "/" ++ repositorySlug
        ++ "/permissions-config/groups/" ++ groupSlug) = some err) :
    (c.UpdateGroupPermission w repositorySlug groupSlug v).result = .panic nilDereference
      ∧ (c.UpdateGroupPermission w repositorySlug groupSlug v).sent = [] := by
  unfold Client.UpdateGroupPermission World.NewRequest
  simp [hMarshal, hParse]

/-- C15, at the failing input.  With a slug that ends in a line feed the URL
does not parse and `http.NewRequest` returns a nil request.  `GetRepository`
and `DeleteRepository` return that error and send nothing; the six `Create*`
and `Update*` operations call `req.Header.Add` on the nil request before they
look at the error, and panic. -/
theorem create_and_update_panic_on_unparsable_URL :
    (sampleClient.GetRepository (strictServer 200 "\x7b\x7d") slugWithLineEnd).result
        = .error (.foreign "net/url: invalid control character in URL")
      ∧ (sampleClient.GetRepository (strictServer 200 "\x7b\x7d") slugWithLineEnd).sent = []
      ∧ (sampleClient.DeleteRepository (strictServer 200 "\x7b\x7d") slugWithLineEnd).result
        = some (.foreign "net/url: invalid control character in URL")
      ∧ (sampleClient.CreateRepository (strictServer 200 "\x7b\x7d") slugWithLineEnd
        sampleRepository).result = .panic nilDereference
      ∧ (sampleClient.CreateRepository (strictServer 200 "\x7b\x7d") slugWithLineEnd
        sampleRepository).sent = []
      ∧ (sampleClient.UpdateRepository (strictServer 200 "\x7b\x7d") slugWithLineEnd
        sampleRepository).result = .panic nilDereference
      ∧ (sampleClient.UpdateRepository (strictServer 200 "\x7b\x7d") slugWithLineEnd
        sampleRepository).sent = []
      ∧ (sampleClient.CreateBranchRestriction (strictServer 200 "\x7b\x7d") slugWithLineEnd
        BranchRestriction.zero).result = .panic nilDereference
      ∧ (sampleClient.CreateBranchRestriction (strictServer 200 "\x7b\x7d") slugWithLineEnd
        BranchRestriction.zero).sent = []
      ∧ (sampleClient.UpdateBranchRestriction (strictServer 200 "\x7b\x7d") slugWithLineEnd 7
        BranchRestriction.zero).result = .panic nilDereference
      ∧ (sampleClient.UpdateBranchRestriction (strictServer 200 "\x7b\x7d") slugWithLineEnd 7
        BranchRestriction.zero).sent = []
      ∧ (sampleClient.CreateGroupPermission (strictServer 200 "\x7b\x7d") slugWithLineEnd
        "developers" GroupPermission.zero).result = .panic nilDereference
      ∧ (sampleClient.CreateGroupPermission (strictServer 200 "\x7b\x7d") slugWithLineEnd
        "developers" GroupPermission.zero).sent = []
      ∧ (sampleClient.UpdateGroupPermission (strictServer 200 "\x7b\x7d") slugWithLineEnd
        "developers" GroupPermission.zero).result = .panic nilDereference
      ∧ (sampleClient.UpdateGroupPermission (strictServer 200 "\x7b\x7d") slugWithLineEnd
        "developers" GroupPermission.zero).sent = [] := by
  refine ⟨?_, ?_, ?_, ?_, ?_, ?_, ?_, ?_, ?_, ?_, ?_, ?_, ?_, ?_, ?_⟩ <;> rfl

/-! ### URLs of different kinds of object -/

/-! ### URLs of different kinds of object -/

theorem String.append_left_cancel (p s t : String) (h : p ++ s = p ++ t) : s = t := by
  have hd := congrArg String.data h
  rw [String.data_append, String.data_append] at hd
  exact String.ext (List.append_cancel_left hd)

theorem slash_mem_of_repository_URL_eq (p s s' mid tail : String)
    (hMid : '/' ∈ mid.toList) (h : p ++ s = p ++ s' ++ mid ++ tail) : '/' ∈ s.toList := by
  rw [String.append_assoc, String.append_assoc] at h
  have hs := String.append_left_cancel p s _ h
  rw [hs]
  simp only [String.toList, String.data_append, List.mem_append]
  exact Or.inr (Or.inl hMid)

/-! #### What `net/url` does to a text that ends in plain characters

A URL text `y ++ "/" ++ m ++ "/" ++ t`, with a non-empty `m` and a tail `t` of
bytes that a path keeps unescaped, is parsed at places that `y` and `m` fix:
`url.Parse` either rejects the text for every such tail, or gives a request
URI that ends in the tail.  The lemmas follow `Parse` step by step. -/

namespace neturl

theorem tailByte_facts (b : UInt8) (h : shouldEscape b = false) :
    isCTL b = false ∧ shouldEscape b = false ∧ b.toNat ≠ 35 ∧ b.toNat ≠ 37 ∧ b.toNat ≠ 63
      ∧ b.toNat ≠ 42 := by
  refine ⟨?_, h, ?_⟩
  all_goals
    simp only [unreserved, isLetter, isDigit, isCTL, shouldEscape, Bool.or_eq_true,
      Bool.and_eq_true, decide_eq_true_eq, Bool.or_eq_false_iff, decide_eq_false_iff_not,
      Bool.not_eq_false', Bool.not_eq_true'] at *
    omega

theorem cut_of_not_mem (sep : Nat) (s : Bytes) (h : ∀ b ∈ s, b.toNat ≠ sep) :
    cut sep s = (s, []) := by
  induction s with
  | nil => rfl
  | cons c rest ih =>
    have hc : c.toNat ≠ sep := h c (List.mem_cons_self _ _)
    have ih := ih (fun b hb => h b (List.mem_cons_of_mem _ hb))
    simp [cut, hc, ih]

theorem unescape_cons_of_ne (c : UInt8) (rest : Bytes) (hc : c.toNat ≠ 37) :
    unescape (c :: rest) = (unescape rest).map (fun p => c :: p) := by
  match rest with
  | [] => simp [unescape, hc]
  | [h1] => simp [unescape, hc]
  | h1 :: h2 :: rest' => simp [unescape, hc]

theorem unescape_percent (c h1 h2 : UInt8) (rest : Bytes) (hc : c.toNat = 37) :
    unescape (c :: h1 :: h2 :: rest) =
      if (ishex h1 && ishex h2) = true then
        (unescape rest).map (fun p => UInt8.ofNat (unhex h1 * 16 + unhex h2) :: p)
      else none := by
  rw [unescape]; simp [hc]

theorem unescape_percent_one (c h1 : UInt8) (hc : c.toNat = 37) : unescape [c, h1] = none := by
  simp [unescape, hc]

theorem unescape_tail (t : Bytes) (h : ∀ b ∈ t, shouldEscape b = false) :
    unescape t = some t := by
  induction t with
  | nil => rfl
  | cons c rest ih =>
    have hc := (tailByte_facts c (h c (List.mem_cons_self _ _))).2.2.2.1
    have ih := ih (fun b hb => h b (List.mem_cons_of_mem _ hb))
    rw [unescape_cons_of_ne c rest hc, ih]
    rfl

theorem unescape_uniform (n : Nat) : ∀ x : Bytes, x.length ≤ n →
    (∀ t : Bytes, (∀ b ∈ t, shouldEscape b = false) → unescape (x ++ 47 :: t) = none)
      ∨ (∃ p : Bytes, ∀ t : Bytes, (∀ b ∈ t, shouldEscape b = false) →
          unescape (x ++ 47 :: t) = some (p ++ 47 :: t)) := by
  induction n with
  | zero =>
    intro x hx
    have : x = [] := List.length_eq_zero.mp (Nat.le_zero.mp hx)
    subst this
    right
    refine ⟨[], fun t ht => ?_⟩
    have h47 : (47 : UInt8).toNat ≠ 37 := by decide
    simp [unescape_cons_of_ne _ _ h47, unescape_tail t ht]
  | succ n ih =>
    intro x hx
    match x, hx with
    | [], _ =>
      right
      refine ⟨[], fun t ht => ?_⟩
      have h47 : (47 : UInt8).toNat ≠ 37 := by decide
      simp [unescape_cons_of_ne _ _ h47, unescape_tail t ht]
    | c :: x1, hx =>
      have hx1 : x1.length ≤ n := by simpa using hx
      by_cases hc : c.toNat = 37
      · match x1, hx1 with
        | [], _ =>
          left
          intro t ht
          cases t with
          | nil => exact unescape_percent_one c 47 hc
          | cons h2 t2 =>
            have : ishex 47 = false := by decide
            simp [unescape_percent _ _ _ _ hc, this]
        | [h1], _ =>
          left
          intro t ht
          have : ishex 47 = false := by decide
          simp [unescape_percent _ _ _ _ hc, this]
        | h1 :: h2 :: x2, hx2 =>
          have hx2' : x2.length ≤ n := by
            simp only [List.length_cons] at hx2
            omega
          by_cases hh : (ishex h1 && ishex h2) = true
          · rcases ih x2 hx2' with hnone | ⟨p, hp⟩
            · left
              intro t ht
              simp [unescape_percent _ _ _ _ hc, hnone t ht]
            · right
              refine ⟨UInt8.ofNat (unhex h1 * 16 + unhex h2) :: p, fun t ht => ?_⟩
              simp [unescape_percent _ _ _ _ hc, hh, hp t ht]
          · left
            intro t ht
            simp [unescape_percent _ _ _ _ hc, hh]
      · rcases ih x1 hx1 with hnone | ⟨p, hp⟩
        · left
          intro t ht
          simp [unescape_cons_of_ne _ _ hc, hnone t ht]
        · right
          refine ⟨c :: p, fun t ht => ?_⟩
          simp [unescape_cons_of_ne _ _ hc, hp t ht]

theorem escape_append (a b : Bytes) : escape (a ++ b) = escape a ++ escape b := by
  simp [escape]

theorem escape_tail (t : Bytes) (h : ∀ b ∈ t, shouldEscape b = false) :
    escape t = t := by
  induction t with
  | nil => rfl
  | cons c rest ih =>
    have hc := (tailByte_facts c (h c (List.mem_cons_self _ _))).2.1
    have ih := ih (fun b hb => h b (List.mem_cons_of_mem _ hb))
    have e : escape (c :: rest) = [c] ++ escape rest := by
      simp [escape, hc]
    rw [e, ih]
    rfl

theorem tailBytes_cons (t : Bytes) (h : ∀ b ∈ t, shouldEscape b = false) :
    ∀ b ∈ (47 : UInt8) :: t, shouldEscape b = false := by
  intro b hb
  rcases List.mem_cons.mp hb with e | hb
  · rw [e]; decide
  · exact h b hb

theorem validEncoded_append_tail (x t : Bytes)
    (h : ∀ b ∈ t, shouldEscape b = false) :
    validEncoded (x ++ t) = validEncoded x := by
  have ht : validEncoded t = true := by
    unfold validEncoded
    rw [List.all_eq_true]
    intro b hb
    simp [(tailByte_facts b (h b hb)).2.1]
  unfold validEncoded at *
  rw [List.all_append, ht, Bool.and_true]

theorem cut_append_sep_slash (r : Bytes) :
    ∃ a x : Bytes, ∀ t : Bytes, (cut 47 (r ++ 47 :: t)).1 = a
      ∧ 47 :: (cut 47 (r ++ 47 :: t)).2 = x ++ 47 :: t := by
  induction r with
  | nil =>
    refine ⟨[], [], fun t => ?_⟩
    have h47 : (47 : UInt8).toNat = 47 := rfl
    simp [cut, h47]
  | cons c rest ih =>
    obtain ⟨a, x, h⟩ := ih
    by_cases hc : c.toNat = 47
    · refine ⟨[], 47 :: rest, fun t => ?_⟩
      simp [cut, hc]
    · refine ⟨c :: a, x, fun t => ?_⟩
      simp [cut, hc, (h t).1, (h t).2]

theorem cut_append_of_mem (sep : Nat) (r : Bytes) (h : ∃ b ∈ r, b.toNat = sep) :
    ∃ a q : Bytes, ∀ t : Bytes, cut sep (r ++ t) = (a, q ++ t) := by
  induction r with
  | nil =>
    obtain ⟨b, hb, _⟩ := h
    cases hb
  | cons c rest ih =>
    by_cases hc : c.toNat = sep
    · exact ⟨[], rest, fun t => by simp [cut, hc]⟩
    · have h' : ∃ b ∈ rest, b.toNat = sep := by
        obtain ⟨b, hb, e⟩ := h
        rcases List.mem_cons.mp hb with e' | hb
        · subst e'; exact absurd e hc
        · exact ⟨b, hb, e⟩
      obtain ⟨a, q, hq⟩ := ih h'
      exact ⟨c :: a, q, fun t => by simp [cut, hc, hq]⟩

theorem getSchemeLoop_uniform (y : Bytes) : ∀ (first : Bool) (acc : Bytes),
    (∀ z raw : Bytes, getSchemeLoop raw first acc (y ++ 47 :: z) = none)
      ∨ (∀ z raw : Bytes, getSchemeLoop raw first acc (y ++ 47 :: z) = some ([], raw))
      ∨ (∃ s y' : Bytes, ∀ z raw : Bytes,
          getSchemeLoop raw first acc (y ++ 47 :: z) = some (s, y' ++ 47 :: z)) := by
  induction y with
  | nil =>
    intro first acc
    right; left
    intro z raw
    have h1 : isLetter 47 = false := by decide
    have h2 : isSchemeMark 47 = false := by decide
    have h3 : ¬ ((47 : UInt8).toNat = 58) := by decide
    rw [List.nil_append, getSchemeLoop]
    simp only [h1, h2, if_neg h3, Bool.false_eq_true, if_false]
  | cons c y ih =>
    intro first acc
    by_cases h1 : isLetter c = true
    · rcases ih false (acc ++ [c]) with h | h | ⟨s, y', h⟩
      · left; intro z raw; simp [getSchemeLoop, h1, h z raw]
      · right; left; intro z raw; simp [getSchemeLoop, h1, h z raw]
      · right; right; exact ⟨s, y', fun z raw => by simp [getSchemeLoop, h1, h z raw]⟩
    · by_cases h2 : isSchemeMark c = true
      · cases first with
        | true => right; left; intro z raw; simp [getSchemeLoop, h1, h2]
        | false =>
          rcases ih false (acc ++ [c]) with h | h | ⟨s, y', h⟩
          · left; intro z raw; simp [getSchemeLoop, h1, h2, h z raw]
          · right; left; intro z raw; simp [getSchemeLoop, h1, h2, h z raw]
          · right; right; exact ⟨s, y', fun z raw => by simp [getSchemeLoop, h1, h2, h z raw]⟩
      · by_cases h3 : c.toNat = 58
        · cases first with
          | true => left; intro z raw; simp [getSchemeLoop, h1, h2, h3]
          | false =>
            right; right
            exact ⟨acc, y, fun z raw => by simp [getSchemeLoop, h1, h2, h3]⟩
        · right; left; intro z raw; simp [getSchemeLoop, h1, h2, h3]

theorem getScheme_uniform (y : Bytes) :
    (∀ z : Bytes, getScheme (y ++ 47 :: z) = none)
      ∨ (∃ s y' : Bytes, ∀ z : Bytes, getScheme (y ++ 47 :: z) = some (s, y' ++ 47 :: z)) := by
  unfold getScheme
  rcases getSchemeLoop_uniform y true [] with h | h | ⟨s, y', h⟩
  · left; intro z; exact h z _
  · right; exact ⟨[], y, fun z => h z _⟩
  · right; exact ⟨s, y', fun z => h z _⟩

theorem map_toNat_ne_star (p t : Bytes) : (p ++ 47 :: t).map UInt8.toNat ≠ [42] := by
  intro h
  cases p with
  | nil =>
    simp only [List.nil_append, List.map_cons, List.cons.injEq] at h
    exact absurd h.1 (by decide)
  | cons c p =>
    have hl := congrArg List.length h
    simp at hl

theorem EscapedPath_default (v : URL)
    (h1 : ¬ (v.RawPath ≠ [] ∧ validEncoded v.RawPath = true ∧ unescape v.RawPath = some v.Path))
    (h2 : v.Path.map UInt8.toNat ≠ [42]) : v.EscapedPath = escape v.Path := by
  unfold URL.EscapedPath
  rw [if_neg h1, if_neg h2]

theorem EscapedPath_raw (v : URL)
    (h1 : v.RawPath ≠ [] ∧ validEncoded v.RawPath = true ∧ unescape v.RawPath = some v.Path) :
    v.EscapedPath = v.RawPath := by
  unfold URL.EscapedPath
  rw [if_pos h1]

theorem RequestURI_of_path (v : URL) (hO : v.Opaque = []) (hF : v.ForceQuery = false)
    (hQ : v.RawQuery = []) (hE : v.EscapedPath ≠ []) : v.RequestURI = v.EscapedPath := by
  simp [URL.RequestURI, hO, hF, hQ, hE]

theorem RequestURI_setPath (u : URL) (path raw e : Bytes) (hO : u.Opaque = [])
    (hF : u.ForceQuery = false) (hQ : u.RawQuery = [])
    (hE : ({ u with Path := path, RawPath := raw } : URL).EscapedPath = e) (hne : e ≠ []) :
    ({ u with Path := path, RawPath := raw } : URL).RequestURI = e := by
  rw [RequestURI_of_path ({ u with Path := path, RawPath := raw } : URL) hO hF hQ
    (by rw [hE]; exact hne), hE]

theorem setPath_uniform (u : URL) (x : Bytes) (hO : u.Opaque = []) (hF : u.ForceQuery = false)
    (hQ : u.RawQuery = []) :
    (∀ t : Bytes, (∀ b ∈ t, shouldEscape b = false) →
        setPath u (x ++ 47 :: t) = none)
      ∨ (∃ uri : Bytes, ∀ t : Bytes, (∀ b ∈ t, shouldEscape b = false) →
          ∃ v, setPath u (x ++ 47 :: t) = some v ∧ v.Scheme = u.Scheme ∧ v.Host = u.Host
            ∧ v.RequestURI = uri ++ t) := by
  rcases unescape_uniform x.length x (Nat.le_refl _) with hnone | ⟨p, hp⟩
  · left
    intro t ht
    unfold setPath
    rw [hnone t ht]
  · right
    have hesc : ∀ t : Bytes, (∀ b ∈ t, shouldEscape b = false) →
        escape (p ++ 47 :: t) = escape p ++ 47 :: t := by
      intro t ht
      rw [escape_append, escape_tail (47 :: t) (tailBytes_cons t ht)]
    have hcond : ∀ t : Bytes, (∀ b ∈ t, shouldEscape b = false) →
        (x ++ 47 :: t = escape (p ++ 47 :: t) ↔ x = escape p) := by
      intro t ht
      rw [hesc t ht]
      exact List.append_left_inj _
    have hset : ∀ t : Bytes, (∀ b ∈ t, shouldEscape b = false) →
        setPath u (x ++ 47 :: t) = some { u with Path := p ++ 47 :: t
                                                 RawPath := if x = escape p then [] else x ++ 47 :: t } := by
      intro t ht
      unfold setPath
      rw [hp t ht]
      simp only [hcond t ht]
    have hne : ∀ (a t : Bytes), a ++ 47 :: t ≠ [] := by
      intro a t; simp
    by_cases hx : x = escape p
    · refine ⟨escape p ++ [47], fun t ht => ?_⟩
      refine ⟨_, hset t ht, rfl, rfl, ?_⟩
      have hE : ({ u with Path := p ++ 47 :: t
                          RawPath := if x = escape p then [] else x ++ 47 :: t } : URL).EscapedPath
          = escape p ++ 47 :: t := by
        rw [EscapedPath_default _ (by simp [hx]) (map_toNat_ne_star p t)]
        exact hesc t ht
      rw [RequestURI_setPath u _ _ _ hO hF hQ hE (hne _ _)]
      simp
    · by_cases hv : validEncoded x = true
      · refine ⟨x ++ [47], fun t ht => ?_⟩
        refine ⟨_, hset t ht, rfl, rfl, ?_⟩
        have hv' : validEncoded (x ++ 47 :: t) = true := by
          rw [validEncoded_append_tail x (47 :: t) (tailBytes_cons t ht)]
          exact hv
        have hE : ({ u with Path := p ++ 47 :: t
                            RawPath := if x = escape p then [] else x ++ 47 :: t } : URL).EscapedPath
            = x ++ 47 :: t := by
          rw [EscapedPath_raw _ (by simp [hx, hv', hp t ht])]
          simp [hx]
        rw [RequestURI_setPath u _ _ _ hO hF hQ hE (hne _ _)]
        simp
      · refine ⟨escape p ++ [47], fun t ht => ?_⟩
        refine ⟨_, hset t ht, rfl, rfl, ?_⟩
        have hv' : ¬ validEncoded (x ++ 47 :: t) = true := by
          rw [validEncoded_append_tail x (47 :: t) (tailBytes_cons t ht)]
          exact hv
        have hE : ({ u with Path := p ++ 47 :: t
                            RawPath := if x = escape p then [] else x ++ 47 :: t } : URL).EscapedPath
            = escape p ++ 47 :: t := by
          rw [EscapedPath_default _ (by simp [hx, hv']) (map_toNat_ne_star p t)]
          exact hesc t ht
        rw [RequestURI_setPath u _ _ _ hO hF hQ hE (hne _ _)]
        simp

theorem parseRest_opaque (parseAuthority : Bytes → Option Bytes) (u : URL) (rest : Bytes)
    (h1 : ¬ hasPrefix rest [47] = true) (hs : u.Scheme ≠ []) :
    parseRest parseAuthority u rest = some { u with Opaque := rest } := by
  unfold parseRest
  rw [if_pos ⟨h1, hs⟩]

theorem parseRest_colon (parseAuthority : Bytes → Option Bytes) (u : URL) (rest : Bytes)
    (h1 : ¬ hasPrefix rest [47] = true) (hs : u.Scheme = [])
    (hc : (cut 47 rest).1.any (fun c => decide (c.toNat = 58)) = true) :
    parseRest parseAuthority u rest = none := by
  unfold parseRest
  rw [if_neg (fun h => h.2 hs), if_pos ⟨h1, hc⟩]

theorem parseRest_authority (parseAuthority : Bytes → Option Bytes) (u : URL) (rest : Bytes)
    (h1 : hasPrefix rest [47] = true)
    (h3 : (u.Scheme ≠ [] ∨ ¬ hasPrefix rest [47, 47, 47] = true) ∧ hasPrefix rest [47, 47] = true) :
    parseRest parseAuthority u rest =
      match parseAuthority (cut 47 (rest.drop 2)).1 with
      | none => none
      | some host =>
        setPath { u with Host := host }
          (if (rest.drop 2).any (fun c => decide (c.toNat = 47)) then
            47 :: (cut 47 (rest.drop 2)).2 else []) := by
  unfold parseRest
  rw [if_neg (fun h => h.1 h1), if_neg (fun h => h.1 h1), if_pos h3]

theorem parseRest_path (parseAuthority : Bytes → Option Bytes) (u : URL) (rest : Bytes)
    (h1 : hasPrefix rest [47] = true
      ∨ (u.Scheme = [] ∧ ¬ (cut 47 rest).1.any (fun c => decide (c.toNat = 58)) = true))
    (h3 : ¬ hasPrefix rest [47, 47] = true) :
    parseRest parseAuthority u rest = setPath u rest := by
  unfold parseRest
  have c1 : ¬ (¬ hasPrefix rest [47] = true ∧ u.Scheme ≠ []) := by
    rcases h1 with h | h
    · exact fun c => c.1 h
    · exact fun c => c.2 h.1
  have c2 : ¬ (¬ hasPrefix rest [47] = true
      ∧ (cut 47 rest).1.any (fun c => decide (c.toNat = 58)) = true) := by
    rcases h1 with h | h
    · exact fun c => c.1 h
    · exact fun c => h.2 c.2
  rw [if_neg c1, if_neg c2, if_neg (fun h => h3 h.2)]

theorem parseRest_triple (parseAuthority : Bytes → Option Bytes) (u : URL) (rest : Bytes)
    (h1 : hasPrefix rest [47] = true) (hs : u.Scheme = [])
    (h3 : hasPrefix rest [47, 47, 47] = true) :
    parseRest parseAuthority u rest = setPath u rest := by
  unfold parseRest
  rw [if_neg (fun h => h.1 h1), if_neg (fun h => h.1 h1),
    if_neg (fun h => h.1.elim (fun a => a hs) (fun a => a h3))]

theorem parseRest_uniform (parseAuthority : Bytes → Option Bytes) (u : URL) (b1 b2 : UInt8)
    (r2 : Bytes) (hO : u.Opaque = []) (hF : u.ForceQuery = false) (hQ : u.RawQuery = []) :
    (∀ t : Bytes, (∀ b ∈ t, shouldEscape b = false) →
        parseRest parseAuthority u (b1 :: b2 :: (r2 ++ 47 :: t)) = none)
      ∨ (∃ host uri : Bytes, ∀ t : Bytes, (∀ b ∈ t, shouldEscape b = false) →
          ∃ v, parseRest parseAuthority u (b1 :: b2 :: (r2 ++ 47 :: t)) = some v
            ∧ v.Scheme = u.Scheme ∧ v.Host = host ∧ v.RequestURI = uri ++ t) := by
  have hp1 : ∀ t : Bytes, hasPrefix (b1 :: b2 :: (r2 ++ 47 :: t)) [47] = decide (b1.toNat = 47) := by
    intro t; simp [hasPrefix]
  have hp2 : ∀ t : Bytes, hasPrefix (b1 :: b2 :: (r2 ++ 47 :: t)) [47, 47]
      = (decide (b1.toNat = 47) && decide (b2.toNat = 47)) := by
    intro t; simp [hasPrefix]
  have hp3 : ∀ t : Bytes, hasPrefix (b1 :: b2 :: (r2 ++ 47 :: t)) [47, 47, 47]
      = (decide (b1.toNat = 47) && (decide (b2.toNat = 47) && hasPrefix (r2 ++ [47]) [47])) := by
    intro t
    cases r2 with
    | nil => simp [hasPrefix]
    | cons c r => simp [hasPrefix]
  -- the path branches, shared
  have hpath : (∀ t : Bytes, parseRest parseAuthority u (b1 :: b2 :: (r2 ++ 47 :: t))
        = setPath u (b1 :: b2 :: (r2 ++ 47 :: t))) →
      (∀ t : Bytes, (∀ b ∈ t, shouldEscape b = false) →
        parseRest parseAuthority u (b1 :: b2 :: (r2 ++ 47 :: t)) = none)
      ∨ (∃ host uri : Bytes, ∀ t : Bytes, (∀ b ∈ t, shouldEscape b = false) →
          ∃ v, parseRest parseAuthority u (b1 :: b2 :: (r2 ++ 47 :: t)) = some v
            ∧ v.Scheme = u.Scheme ∧ v.Host = host ∧ v.RequestURI = uri ++ t) := by
    intro h
    rcases setPath_uniform u (b1 :: b2 :: r2) hO hF hQ with hn | ⟨uri, hu⟩
    · left
      intro t ht
      rw [h t]
      exact hn t ht
    · right
      refine ⟨u.Host, uri, fun t ht => ?_⟩
      obtain ⟨v, hv, h1, h2, h3⟩ := hu t ht
      exact ⟨v, by rw [h t]; exact hv, h1, h2, h3⟩
  by_cases hb1 : b1.toNat = 47
  · by_cases hauth : (u.Scheme ≠ [] ∨ ¬ hasPrefix (r2 ++ [47]) [47] = true) ∧ b2.toNat = 47
    · obtain ⟨a, x, hcut⟩ := cut_append_sep_slash r2
      have hrw : ∀ t : Bytes, parseRest parseAuthority u (b1 :: b2 :: (r2 ++ 47 :: t))
          = match parseAuthority a with
            | none => none
            | some host => setPath { u with Host := host } (x ++ 47 :: t) := by
        intro t
        rw [parseRest_authority parseAuthority u _ (by rw [hp1]; simp [hb1])
          (by
            rw [hp2, hp3]
            have hb2 := hauth.2
            rcases hauth.1 with h | h
            · exact ⟨Or.inl h, by simp [hb1, hb2]⟩
            · exact ⟨Or.inr (by simpa [hb1, hb2] using h), by simp [hb1, hb2]⟩)]
        have hany : ((b1 :: b2 :: (r2 ++ 47 :: t)).drop 2).any (fun c => decide (c.toNat = 47))
            = true := by
          simp
        rw [hany]
        simp only [List.drop_succ_cons, List.drop_zero, if_true, (hcut t).1, (hcut t).2]
      cases hpa : parseAuthority a with
      | none =>
        left
        intro t _
        rw [hrw t, hpa]
      | some host =>
        rcases setPath_uniform { u with Host := host } x hO hF hQ with hn | ⟨uri, hu⟩
        · left
          intro t ht
          rw [hrw t, hpa]
          exact hn t ht
        · right
          refine ⟨host, uri, fun t ht => ?_⟩
          obtain ⟨v, hv, h1, h2, h3⟩ := hu t ht
          exact ⟨v, by rw [hrw t, hpa]; exact hv, h1, h2, h3⟩
    · apply hpath
      intro t
      by_cases hb2 : b2.toNat = 47
      · have hs : u.Scheme = [] := by
          by_contra hs
          exact hauth ⟨Or.inl hs, hb2⟩
        have h3 : hasPrefix (r2 ++ [47]) [47] = true := by
          by_contra h3
          exact hauth ⟨Or.inr h3, hb2⟩
        exact parseRest_triple parseAuthority u _ (by rw [hp1]; simp [hb1]) hs
          (by rw [hp3]; simp [hb1, hb2, h3])
      · exact parseRest_path parseAuthority u _ (Or.inl (by rw [hp1]; simp [hb1]))
          (by rw [hp2]; simp [hb2])
  · have hnp : ∀ t : Bytes, ¬ hasPrefix (b1 :: b2 :: (r2 ++ 47 :: t)) [47] = true := by
      intro t; rw [hp1]; simp [hb1]
    by_cases hs : u.Scheme = []
    · obtain ⟨a, x, hcut⟩ := cut_append_sep_slash (b1 :: b2 :: r2)
      have hcut' : ∀ t : Bytes, (cut 47 (b1 :: b2 :: (r2 ++ 47 :: t))).1 = a := fun t => (hcut t).1
      by_cases hc : a.any (fun c => decide (c.toNat = 58)) = true
      · left
        intro t _
        exact parseRest_colon parseAuthority u _ (hnp t) hs (by rw [hcut' t]; exact hc)
      · apply hpath
        intro t
        exact parseRest_path parseAuthority u _ (Or.inr ⟨hs, by rw [hcut' t]; exact hc⟩)
          (by rw [hp2]; simp [hb1])
    · right
      refine ⟨u.Host, b1 :: b2 :: (r2 ++ [47]), fun t _ => ?_⟩
      refine ⟨_, parseRest_opaque parseAuthority u _ (hnp t) hs, rfl, rfl, ?_⟩
      simp [URL.RequestURI, hF, hQ, hasPrefix, hb1]

theorem setPath_query (u : URL) (p q : Bytes) :
    setPath { u with RawQuery := q } p = (setPath u p).map (fun v => { v with RawQuery := q }) := by
  unfold setPath
  cases unescape p <;> rfl

theorem parseRest_query (parseAuthority : Bytes → Option Bytes) (u : URL) (a q : Bytes) :
    parseRest parseAuthority { u with RawQuery := q } a
      = (parseRest parseAuthority u a).map (fun v => { v with RawQuery := q }) := by
  unfold parseRest
  dsimp only
  split
  · rfl
  · split
    · rfl
    · split
      · cases parseAuthority (cut 47 (List.drop 2 a)).1 with
        | none => rfl
        | some host => exact setPath_query { u with Host := host } _ q
      · exact setPath_query u _ q

theorem RequestURI_query (v : URL) (q : Bytes) (hq : q ≠ []) :
    ({ v with RawQuery := q } : URL).RequestURI
      = ({ v with RawQuery := [], ForceQuery := false } : URL).RequestURI ++ 63 :: q := by
  simp [URL.RequestURI, URL.EscapedPath, hq]

theorem getLast_tail (r t : Bytes) (ht : ∀ b ∈ t, shouldEscape b = false) :
    ((r ++ 47 :: t).getLast?).map UInt8.toNat ≠ some 63 := by
  intro h
  cases hl : (r ++ 47 :: t).getLast? with
  | none => rw [hl] at h; cases h
  | some x =>
    rw [hl] at h
    have hx : x.toNat = 63 := by simpa using h
    have hmem : x ∈ (47 : UInt8) :: t := by
      rw [List.getLast?_append_of_ne_nil _ (by simp)] at hl
      exact List.mem_of_getLast?_eq_some hl
    exact (tailByte_facts x (tailBytes_cons t ht x hmem)).2.2.2.2.1 hx

theorem parse_uniform (parseAuthority : Bytes → Option Bytes) (y m : Bytes) (hm : m ≠ []) :
    (∀ t : Bytes, (∀ b ∈ t, shouldEscape b = false) →
        parse parseAuthority (y ++ 47 :: (m ++ 47 :: t)) = none)
      ∨ (∃ sch host uri : Bytes, ∀ t : Bytes, (∀ b ∈ t, shouldEscape b = false) →
          ∃ v, parse parseAuthority (y ++ 47 :: (m ++ 47 :: t)) = some v
            ∧ v.Scheme = sch ∧ v.Host = host ∧ v.RequestURI = uri ++ t) := by
  have hstar : ∀ t : Bytes, ¬ (y ++ 47 :: (m ++ 47 :: t)).map UInt8.toNat = [42] := by
    intro t h
    have hl := congrArg List.length h
    simp at hl
    omega
  have hctl : ∀ t : Bytes, (∀ b ∈ t, shouldEscape b = false) →
      (y ++ 47 :: (m ++ 47 :: t)).any isCTL = (y ++ 47 :: m).any isCTL := by
    intro t ht
    have e : y ++ 47 :: (m ++ 47 :: t) = (y ++ 47 :: m) ++ 47 :: t := by simp
    have htl : ((47 : UInt8) :: t).any isCTL = false := by
      rw [List.any_eq_false]
      intro b hb
      simp [(tailByte_facts b (tailBytes_cons t ht b hb)).1]
    rw [e, List.any_append, htl, Bool.or_false]
  by_cases hc : (y ++ 47 :: m).any isCTL = true
  · left
    intro t ht
    unfold parse
    rw [if_pos (by rw [hctl t ht]; exact hc)]
  · rcases getScheme_uniform y with hnone | ⟨s, y', hs⟩
    · left
      intro t ht
      unfold parse
      rw [if_neg (by rw [hctl t ht]; exact hc), if_neg (hstar t), hnone]
    · have hforce : ∀ t : Bytes, (∀ b ∈ t, shouldEscape b = false) →
          ¬ (((y' ++ 47 :: (m ++ 47 :: t)).getLast?).map UInt8.toNat = some 63
            ∧ ((y' ++ 47 :: (m ++ 47 :: t)).filter (fun c => decide (c.toNat = 63))).length = 1) := by
        intro t ht h
        have e : y' ++ 47 :: (m ++ 47 :: t) = (y' ++ 47 :: m) ++ 47 :: t := by simp
        rw [e] at h
        exact getLast_tail _ t ht h.1
      have hparse : ∀ t : Bytes, (∀ b ∈ t, shouldEscape b = false) →
          parse parseAuthority (y ++ 47 :: (m ++ 47 :: t))
            = parseRest parseAuthority
                { URL.zero with Scheme := s.map toLower
                                RawQuery := (cut 63 (y' ++ 47 :: (m ++ 47 :: t))).2 }
                (cut 63 (y' ++ 47 :: (m ++ 47 :: t))).1 := by
        intro t ht
        unfold parse
        rw [if_neg (by rw [hctl t ht]; exact hc), if_neg (hstar t), hs]
        dsimp only
        rw [if_neg (hforce t ht)]
      by_cases hq : ∃ b ∈ y' ++ 47 :: m, b.toNat = 63
      · obtain ⟨a, q, hcut⟩ := cut_append_of_mem 63 (y' ++ 47 :: m) hq
        have hcut' : ∀ t : Bytes, cut 63 (y' ++ 47 :: (m ++ 47 :: t)) = (a, q ++ 47 :: t) := by
          intro t
          have e : y' ++ 47 :: (m ++ 47 :: t) = (y' ++ 47 :: m) ++ 47 :: t := by simp
          rw [e, hcut]
        have hrw : ∀ t : Bytes, (∀ b ∈ t, shouldEscape b = false) →
            parse parseAuthority (y ++ 47 :: (m ++ 47 :: t))
              = (parseRest parseAuthority { URL.zero with Scheme := s.map toLower } a).map
                  (fun v => { v with RawQuery := q ++ 47 :: t }) := by
          intro t ht
          rw [hparse t ht, hcut' t]
          exact parseRest_query parseAuthority { URL.zero with Scheme := s.map toLower } a _
        cases hr : parseRest parseAuthority { URL.zero with Scheme := s.map toLower } a with
        | none =>
          left
          intro t ht
          rw [hrw t ht, hr]
          rfl
        | some v0 =>
          right
          refine ⟨v0.Scheme, v0.Host,
            ({ v0 with RawQuery := [], ForceQuery := false } : URL).RequestURI ++ 63 :: (q ++ [47]),
            fun t ht => ?_⟩
          refine ⟨{ v0 with RawQuery := q ++ 47 :: t }, by rw [hrw t ht, hr]; rfl, rfl, rfl, ?_⟩
          rw [RequestURI_query v0 (q ++ 47 :: t) (by simp)]
          simp
      · have hcut : ∀ t : Bytes, (∀ b ∈ t, shouldEscape b = false) →
            cut 63 (y' ++ 47 :: (m ++ 47 :: t)) = (y' ++ 47 :: (m ++ 47 :: t), []) := by
          intro t ht
          apply cut_of_not_mem
          intro b hb
          have e : y' ++ 47 :: (m ++ 47 :: t) = (y' ++ 47 :: m) ++ 47 :: t := by simp
          rw [e] at hb
          rcases List.mem_append.mp hb with hb | hb
          · exact fun h => hq ⟨b, hb, h⟩
          · exact (tailByte_facts b (tailBytes_cons t ht b hb)).2.2.2.2.1
        obtain ⟨b1, b2, r2, hr0⟩ : ∃ b1 b2 r2, y' ++ 47 :: m = b1 :: b2 :: r2 := by
          cases y' with
          | nil =>
            cases m with
            | nil => exact absurd rfl hm
            | cons c m => exact ⟨47, c, m, rfl⟩
          | cons c y' =>
            cases y' with
            | nil => exact ⟨c, 47, m, rfl⟩
            | cons d y' => exact ⟨c, d, y' ++ 47 :: m, rfl⟩
        have hform : ∀ t : Bytes, y' ++ 47 :: (m ++ 47 :: t) = b1 :: b2 :: (r2 ++ 47 :: t) := by
          intro t
          have e : y' ++ 47 :: (m ++ 47 :: t) = (y' ++ 47 :: m) ++ 47 :: t := by simp
          rw [e, hr0]
          rfl
        rcases parseRest_uniform parseAuthority { URL.zero with Scheme := s.map toLower }
            b1 b2 r2 rfl rfl rfl with hn | ⟨host, uri, hu⟩
        · left
          intro t ht
          rw [hparse t ht, hcut t ht, hform t]
          exact hn t ht
        · right
          refine ⟨s.map toLower, host, uri, fun t ht => ?_⟩
          obtain ⟨v, hv, h1, h2, h3⟩ := hu t ht
          exact ⟨v, by rw [hparse t ht, hcut t ht, hform t]; exact hv, h1, h2, h3⟩

theorem Parse_uniform (parseAuthority : Bytes → Option Bytes) (y m : Bytes) (hm : m ≠ [])
    (hFragment : ∀ b ∈ y ++ 47 :: m, b.toNat ≠ 35) :
    (∀ t : Bytes, (∀ b ∈ t, shouldEscape b = false) →
        Parse parseAuthority (y ++ 47 :: (m ++ 47 :: t)) = none)
      ∨ (∃ sch host uri : Bytes, ∀ t : Bytes, (∀ b ∈ t, shouldEscape b = false) →
          ∃ v, Parse parseAuthority (y ++ 47 :: (m ++ 47 :: t)) = some v
            ∧ v.Scheme = sch ∧ v.Host = host ∧ v.RequestURI = uri ++ t) := by
  have hcut : ∀ t : Bytes, (∀ b ∈ t, shouldEscape b = false) →
      cut 35 (y ++ 47 :: (m ++ 47 :: t)) = (y ++ 47 :: (m ++ 47 :: t), []) := by
    intro t ht
    apply cut_of_not_mem
    intro b hb
    have e : y ++ 47 :: (m ++ 47 :: t) = (y ++ 47 :: m) ++ 47 :: t := by simp
    rw [e] at hb
    rcases List.mem_append.mp hb with hb | hb
    · exact hFragment b hb
    · exact (tailByte_facts b (tailBytes_cons t ht b hb)).2.2.1
  have hP : ∀ t : Bytes, (∀ b ∈ t, shouldEscape b = false) →
      Parse parseAuthority (y ++ 47 :: (m ++ 47 :: t))
        = parse parseAuthority (y ++ 47 :: (m ++ 47 :: t)) := by
    intro t ht
    unfold Parse
    rw [hcut t ht]
    dsimp only
    cases parse parseAuthority (y ++ 47 :: (m ++ 47 :: t)) with
    | none => rfl
    | some u => simp
  rcases parse_uniform parseAuthority y m hm with hn | ⟨sch, host, uri, hu⟩
  · left
    intro t ht
    rw [hP t ht]
    exact hn t ht
  · right
    refine ⟨sch, host, uri, fun t ht => ?_⟩
    rw [hP t ht]
    exact hu t ht

theorem RequestURI_injective (parseAuthority : Bytes → Option Bytes) (host workspace t1 t2 : Bytes)
    (hHost : ∀ b ∈ host, b.toNat ≠ 35) (hWorkspace : ∀ b ∈ workspace, b.toNat ≠ 35)
    (ht1 : ∀ b ∈ t1, shouldEscape b = false)
    (ht2 : ∀ b ∈ t2, shouldEscape b = false)
    (v1 v2 : URL)
    (h1 : Parse parseAuthority
      (host ++ bytesOf "/repositories/" ++ workspace ++ bytesOf "/" ++ t1) = some v1)
    (h2 : Parse parseAuthority
      (host ++ bytesOf "/repositories/" ++ workspace ++ bytesOf "/" ++ t2) = some v2)
    (hURI : v1.RequestURI = v2.RequestURI) : t1 = t2 := by
  have e : ∀ t : Bytes, host ++ bytesOf "/repositories/" ++ workspace ++ bytesOf "/" ++ t
      = host ++ 47 :: ((bytesOf "repositories/" ++ workspace) ++ 47 :: t) := by
    intro t
    have e1 : bytesOf "/repositories/" = 47 :: bytesOf "repositories/" := by decide
    have e2 : bytesOf "/" = [47] := by decide
    rw [e1, e2]
    simp
  rw [e] at h1 h2
  have hm : bytesOf "repositories/" ++ workspace ≠ [] := by
    have : bytesOf "repositories/" ≠ [] := by decide
    simp [this]
  have hFragment : ∀ b ∈ host ++ 47 :: (bytesOf "repositories/" ++ workspace), b.toNat ≠ 35 := by
    intro b hb
    rcases List.mem_append.mp hb with hb | hb
    · exact hHost b hb
    · rcases List.mem_cons.mp hb with e | hb
      · rw [e]; decide
      · rcases List.mem_append.mp hb with hb | hb
        · have hall : ∀ b ∈ bytesOf "repositories/", b.toNat ≠ 35 := by decide
          exact hall b hb
        · exact hWorkspace b hb
  rcases Parse_uniform parseAuthority host (bytesOf "repositories/" ++ workspace) hm hFragment
    with hn | ⟨sch, hst, uri, hu⟩
  · rw [hn t1 ht1] at h1
    cases h1
  · obtain ⟨w1, hw1, _, _, hr1⟩ := hu t1 ht1
    obtain ⟨w2, hw2, _, _, hr2⟩ := hu t2 ht2
    rw [hw1] at h1
    rw [hw2] at h2
    cases h1
    cases h2
    rw [hr1, hr2] at hURI
    exact List.append_cancel_left hURI

end neturl

theorem bytesOf_append (a b : String) : bytesOf (a ++ b) = bytesOf a ++ bytesOf b := by
  simp [bytesOf, String.toList, String.data_append]

theorem mem_bytesOf (s : String) (b : UInt8) :
    b ∈ bytesOf s ↔ ∃ c ∈ s.toList, b ∈ String.utf8EncodeChar c := by
  simp [bytesOf]

theorem toDigitsCore_digits (fuel n : Nat) (ds : List Char)
    (h : ∀ c ∈ ds, c ∈ ['0', '1', '2', '3', '4', '5', '6', '7', '8', '9']) :
    ∀ c ∈ Nat.toDigitsCore 10 fuel n ds, c ∈ ['0', '1', '2', '3', '4', '5', '6', '7', '8', '9'] := by
  induction fuel generalizing n ds with
  | zero => simpa [Nat.toDigitsCore] using h
  | succ fuel ih =>
    have hd : Nat.digitChar (n % 10) ∈ ['0', '1', '2', '3', '4', '5', '6', '7', '8', '9'] := by
      have hlt : n % 10 < 10 := Nat.mod_lt _ (by decide)
      generalize n % 10 = d at hlt
      interval_cases d <;> decide
    have hcons : ∀ c ∈ Nat.digitChar (n % 10) :: ds,
        c ∈ ['0', '1', '2', '3', '4', '5', '6', '7', '8', '9'] := by
      intro c hc
      rcases List.mem_cons.mp hc with e | hc
      · rw [e]; exact hd
      · exact h c hc
    unfold Nat.toDigitsCore
    simp only
    split
    · exact hcons
    · exact ih _ _ hcons

theorem bytesOf_decimal_unescaped (n : Int) :
    ∀ b ∈ bytesOf (decimal n), neturl.shouldEscape b = false := by
  have hdigit : ∀ c ∈ ['0', '1', '2', '3', '4', '5', '6', '7', '8', '9'],
      ∀ b ∈ String.utf8EncodeChar c, neturl.shouldEscape b = false := by decide
  have hrepr : ∀ k : Nat, ∀ b ∈ bytesOf (Nat.repr k), neturl.shouldEscape b = false := by
    intro k b hb
    obtain ⟨c, hc, hbc⟩ := (mem_bytesOf _ b).mp hb
    have hc' : c ∈ Nat.toDigitsCore 10 (k + 1) k [] := by
      simpa [Nat.repr, Nat.toDigits, String.toList, List.asString] using hc
    exact hdigit c (toDigitsCore_digits _ _ [] (by simp) c hc') b hbc
  unfold decimal
  cases n with
  | ofNat k => exact hrepr k
  | negSucc k =>
    intro b hb
    dsimp only at hb
    rw [bytesOf_append] at hb
    rcases List.mem_append.mp hb with hb | hb
    · have hall : ∀ b ∈ bytesOf "-", neturl.shouldEscape b = false := by decide
      exact hall b hb
    · exact hrepr _ b hb

theorem repository_URL_text_differs (host workspace s s' mid tail : String)
    (hSlash : '/' ∉ s.toList) (hMid : '/' ∈ mid.toList) :
    host ++ "/repositories/" ++ workspace ++ "/" ++ s
      ≠ host ++ "/repositories/" ++ workspace ++ "/" ++ s' ++ mid ++ tail :=
  fun h => hSlash (slash_mem_of_repository_URL_eq _ s s' mid tail hMid h)

theorem requestTarget_RequestURI_ne (parseAuthority : Bytes → Option Bytes)
    (host workspace s tail : String)
    (hHost : ∀ b ∈ bytesOf host, b.toNat ≠ 35)
    (hWorkspace : ∀ b ∈ bytesOf workspace, b.toNat ≠ 35)
    (hs : ∀ b ∈ bytesOf s, neturl.shouldEscape b = false ∧ b.toNat ≠ 47)
    (hTail : ∀ b ∈ bytesOf tail, neturl.shouldEscape b = false)
    (hSlash : (47 : UInt8) ∈ bytesOf tail) (t t' : Target)
    (h : requestTarget parseAuthority (host ++ "/repositories/" ++ workspace ++ "/" ++ s) = some t)
    (h' : requestTarget parseAuthority (host ++ "/repositories/" ++ workspace ++ "/" ++ tail)
      = some t') :
    t.RequestURI ≠ t'.RequestURI := by
  intro hURI
  unfold requestTarget at h h'
  rw [Option.map_eq_some'] at h h'
  obtain ⟨v, hv, ev⟩ := h
  obtain ⟨v', hv', ev'⟩ := h'
  simp only [bytesOf_append] at hv hv'
  have hEq : v.RequestURI = v'.RequestURI := by
    rw [← ev, ← ev'] at hURI
    exact hURI
  have e := neturl.RequestURI_injective parseAuthority (bytesOf host) (bytesOf workspace)
    (bytesOf s) (bytesOf tail) hHost hWorkspace (fun b hb => (hs b hb).1) hTail v v' hv hv' hEq
  exact (hs 47 (by rw [e]; exact hSlash)).2 rfl

/-- C17, as the code has it.  Take a client whose Host and Workspace hold no
`#` (byte 35) and slugs written in the bytes that `net/url` leaves unescaped in
a path (ASCII letters, digits and `- _ . ~ $ & + , / : ; = @`), the repository
slug `s` without `/`.  Then the URL of `DeleteRepository(s)`,
`GetRepository(s)` and `UpdateRepository(s)` differs from the URL of
`DeleteBranchRestriction(s', n)` and from the URL of
`DeleteGroupPermission(s', g)`: the texts built differ, and whenever
`url.Parse` accepts both texts the request URIs that go on the wire differ,
whatever `parseAuthority` makes of the host.  These texts are the URLs of the
one request each operation calls `HTTPClient.Do` on: in every world the
result of the operation is read off the answer to that request. -/
theorem repository_URL_differs_for_plain_slugs (c : Client) (w : World)
    (parseAuthority : Bytes → Option Bytes) (s s' g : String) (n : Int) (v : Repository)
    (hHost : ∀ b ∈ bytesOf c.Host, b.toNat ≠ 35)
    (hWorkspace : ∀ b ∈ bytesOf c.Workspace, b.toNat ≠ 35)
    (hs : ∀ b ∈ bytesOf s, neturl.shouldEscape b = false ∧ b.toNat ≠ 47)
    (hs' : ∀ b ∈ bytesOf s', neturl.shouldEscape b = false)
    (hg : ∀ b ∈ bytesOf g, neturl.shouldEscape b = false) :
    c.Host ++ "/repositories/" ++ c.Workspace ++ "/" ++ s
        ≠ c.Host ++ "/repositories/" ++ c.Workspace ++ "/" ++ s'
          ++ "/branch-restrictions/" ++ decimal n
      ∧ c.Host ++ "/repositories/" ++ c.Workspace ++ "/" ++ s
        ≠ c.Host ++ "/repositories/" ++ c.Workspace ++ "/" ++ s'
          ++ "/permissions-config/groups/" ++ g
      ∧ (∀ t t' : Target,
          requestTarget parseAuthority
            (c.Host ++ "/repositories/" ++ c.Workspace ++ "/" ++ s) = some t →
          requestTarget parseAuthority
            (c.Host ++ "/repositories/" ++ c.Workspace ++ "/" ++ s'
          ++ "/branch-restrictions/" ++ decimal n) = some t' →
          t.RequestURI ≠ t'.RequestURI)
      ∧ (∀ t t' : Target,
          requestTarget parseAuthority
            (c.Host ++ "/repositories/" ++ c.Workspace ++ "/" ++ s) = some t →
          requestTarget parseAuthority
            (c.Host ++ "/repositories/" ++ c.Workspace ++ "/" ++ s'
          ++ "/permissions-config/groups/" ++ g) = some t' →
          t.RequestURI ≠ t'.RequestURI)
      ∧ (c.DeleteRepository w s).result
        = (match w.urlParse (c.Host ++ "/repositories/" ++ c.Workspace ++ "/" ++ s) with
          | some err => some err
          | none =>
            match w.readAnswer (w.Do (c.authorize
                { Method := "DELETE"
                  URL := c.Host ++ "/repositories/" ++ c.Workspace ++ "/" ++ s
                  Header := [], Body := none })) with
            | .error err => some err
            | .ok _ => none)
      ∧ (c.GetRepository w s).result
        = (match w.urlParse (c.Host ++ "/repositories/" ++ c.Workspace ++ "/" ++ s) with
          | some err => .error err
          | none =>
            match w.readAnswer (w.Do (c.authorize
                { Method := "GET"
                  URL := c.Host ++ "/repositories/" ++ c.Workspace ++ "/" ++ s
                  Header := [], Body := none })) with
            | .error err => .error err
            | .ok body => w.unmarshalRepository body)
      ∧ (c.UpdateRepository w s v).result
        = (match w.marshalRepository v with
          | .error err => .error err
          | .ok rb =>
            match w.urlParse (c.Host ++ "/repositories/" ++ c.Workspace ++ "/" ++ s) with
            | some _ => .panic nilDereference
            | none =>
              match w.readAnswer (w.Do (c.authorize
                  { Method := "PUT"
                    URL := c.Host ++ "/repositories/" ++ c.Workspace ++ "/" ++ s
                    Header := [("Content-Type", "application/json")], Body := some rb })) with
              | .error err => .error err
              | .ok body =>
                match w.unmarshalRepository body with
                | .error err => .error err
                | .ok r => .value r)
      ∧ (c.DeleteBranchRestriction w s' n).result
        = (match w.urlParse (c.Host ++ "/repositories/" ++ c.Workspace ++ "/" ++ s'
          ++ "/branch-restrictions/" ++ decimal n) with
          | some err => some err
          | none =>
            match w.readAnswer (w.Do (c.authorize
                { Method := "DELETE"
                  URL := c.Host ++ "/repositories/" ++ c.Workspace ++ "/" ++ s'
          ++ "/branch-restrictions/" ++ decimal n
                  Header := [], Body := none })) with
            | .error err => some err
            | .ok _ => none)
      ∧ (c.DeleteGroupPermission w s' g).result
        = (match w.urlParse (c.Host ++ "/repositories/" ++ c.Workspace ++ "/" ++ s'
          ++ "/permissions-config/groups/" ++ g) with
          | some err => some err
          | none =>
            match w.readAnswer (w.Do (c.authorize
                { Method := "DELETE"
                  URL := c.Host ++ "/repositories/" ++ c.Workspace ++ "/" ++ s'
          ++ "/permissions-config/groups/" ++ g
                  Header := [], Body := none })) with
            | .error err => some err
            | .ok _ => none) := by
  have hSlash : '/' ∉ s.toList := by
    intro hmem
    have h47 : (47 : UInt8) ∈ bytesOf s := (mem_bytesOf s 47).mpr ⟨'/', hmem, by decide⟩
    exact (hs 47 h47).2 rfl
  have hTailB : ∀ b ∈ bytesOf (s' ++ "/branch-restrictions/" ++ decimal n),
      neturl.shouldEscape b = false := by
    intro b hb
    rw [bytesOf_append, bytesOf_append] at hb
    rcases List.mem_append.mp hb with hb | hb
    · rcases List.mem_append.mp hb with hb | hb
      · exact hs' b hb
      · have hall : ∀ b ∈ bytesOf "/branch-restrictions/",
            neturl.shouldEscape b = false := by decide
        exact hall b hb
    · exact bytesOf_decimal_unescaped n b hb
  have hTailG : ∀ b ∈ bytesOf (s' ++ "/permissions-config/groups/" ++ g),
      neturl.shouldEscape b = false := by
    intro b hb
    rw [bytesOf_append, bytesOf_append] at hb
    rcases List.mem_append.mp hb with hb | hb
    · rcases List.mem_append.mp hb with hb | hb
      · exact hs' b hb
      · have hall : ∀ b ∈ bytesOf "/permissions-config/groups/",
            neturl.shouldEscape b = false := by decide
        exact hall b hb
    · exact hg b hb
  have hMemB : (47 : UInt8) ∈ bytesOf (s' ++ "/branch-restrictions/" ++ decimal n) := by
    rw [bytesOf_append, bytesOf_append]
    exact List.mem_append_left _ (List.mem_append_right _ (by decide))
  have hMemG : (47 : UInt8) ∈ bytesOf (s' ++ "/permissions-config/groups/" ++ g) := by
    rw [bytesOf_append, bytesOf_append]
    exact List.mem_append_left _ (List.mem_append_right _ (by decide))
  have eB : c.Host ++ "/repositories/" ++ c.Workspace ++ "/" ++ s'
          ++ "/branch-restrictions/" ++ decimal n
      = c.Host ++ "/repositories/" ++ c.Workspace ++ "/"
        ++ (s' ++ "/branch-restrictions/" ++ decimal n) := by
    simp only [String.append_assoc]
  have eG : c.Host ++ "/repositories/" ++ c.Workspace ++ "/" ++ s'
          ++ "/permissions-config/groups/" ++ g
      = c.Host ++ "/repositories/" ++ c.Workspace ++ "/"
        ++ (s' ++ "/permissions-config/groups/" ++ g) := by
    simp only [String.append_assoc]
  refine ⟨repository_URL_text_differs c.Host c.Workspace s s' "/branch-restrictions/"
      (decimal n) hSlash (by decide),
    repository_URL_text_differs c.Host c.Workspace s s' "/permissions-config/groups/" g
      hSlash (by decide), ?_, ?_,
    DeleteRepository_result c w s, GetRepository_result c w s, UpdateRepository_result c w s v,
    DeleteBranchRestriction_result c w s' n, DeleteGroupPermission_result c w s' g⟩
  · intro t t' h h'
    rw [eB] at h'
    exact requestTarget_RequestURI_ne parseAuthority c.Host c.Workspace s _ hHost hWorkspace hs
      hTailB hMemB t t' h h'
  · intro t t' h h'
    rw [eG] at h'
    exact requestTarget_RequestURI_ne parseAuthority c.Host c.Workspace s _ hHost hWorkspace hs
      hTailG hMemG t t' h h'

theorem repository_URL_differs_for_plain_slugs_witness :
    (∀ b ∈ bytesOf sampleClient.Host, b.toNat ≠ 35)
      ∧ (∀ b ∈ bytesOf sampleClient.Workspace, b.toNat ≠ 35)
      ∧ (∀ b ∈ bytesOf "site", neturl.shouldEscape b = false ∧ b.toNat ≠ 47)
      ∧ (∀ b ∈ bytesOf "site", neturl.shouldEscape b = false)
      ∧ (∀ b ∈ bytesOf "developers", neturl.shouldEscape b = false)
      ∧ sampleClient.Host ++ "/repositories/" ++ sampleClient.Workspace ++ "/" ++ "site"
        ≠ sampleClient.Host ++ "/repositories/" ++ sampleClient.Workspace ++ "/" ++ "site"
          ++ "/branch-restrictions/" ++ decimal 7
      ∧ sampleClient.Host ++ "/repositories/" ++ sampleClient.Workspace ++ "/" ++ "site"
        ≠ sampleClient.Host ++ "/repositories/" ++ sampleClient.Workspace ++ "/" ++ "site"
          ++ "/permissions-config/groups/" ++ "developers"
      ∧ (∀ t t' : Target,
          requestTarget registeredName
            (sampleClient.Host ++ "/repositories/" ++ sampleClient.Workspace ++ "/" ++ "site") = some t →
          requestTarget registeredName
            (sampleClient.Host ++ "/repositories/" ++ sampleClient.Workspace ++ "/" ++ "site"
              ++ "/branch-restrictions/" ++ decimal 7) = some t' →
          t.RequestURI ≠ t'.RequestURI)
      ∧ (∀ t t' : Target,
          requestTarget registeredName
            (sampleClient.Host ++ "/repositories/" ++ sampleClient.Workspace ++ "/" ++ "site") = some t →
          requestTarget registeredName
            (sampleClient.Host ++ "/repositories/" ++ sampleClient.Workspace ++ "/" ++ "site"
              ++ "/permissions-config/groups/" ++ "developers") = some t' →
          t.RequestURI ≠ t'.RequestURI)
      ∧ requestTarget registeredName
          (sampleClient.Host ++ "/repositories/" ++ sampleClient.Workspace ++ "/" ++ "site")
        = some { Scheme := bytesOf "https", Host := bytesOf "api.bitbucket.org"
                 RequestURI := bytesOf "/2.0/repositories/acme/site" }
      ∧ requestTarget registeredName
          (sampleClient.Host ++ "/repositories/" ++ sampleClient.Workspace ++ "/" ++ "site"
            ++ "/branch-restrictions/" ++ decimal 7)
        = some { Scheme := bytesOf "https", Host := bytesOf "api.bitbucket.org"
                 RequestURI := bytesOf "/2.0/repositories/acme/site/branch-restrictions/7" }
      ∧ (sampleClient.DeleteRepository echoServer "site").result
        = some (.foreign
            "DELETE https://api.bitbucket.org/2.0/repositories/acme/site Basic dG9rZW4=")
      ∧ (sampleClient.DeleteBranchRestriction echoServer "site" 7).result
        = some (.foreign ("DELETE https://api.bitbucket.org/2.0/repositories/acme/site"
            ++ "/branch-restrictions/7 Basic dG9rZW4="))
      ∧ (sampleClient.DeleteRepository wireEchoServer "site").result
        = some (.foreign "DELETE https://api.bitbucket.org/2.0/repositories/acme/site")
      ∧ (sampleClient.DeleteBranchRestriction wireEchoServer "site" 7).result
        = some (.foreign ("DELETE https://api.bitbucket.org/2.0/repositories/acme/site"
            ++ "/branch-restrictions/7"))
      ∧ (sampleClient.DeleteGroupPermission wireEchoServer "site" "developers").result
        = some (.foreign ("DELETE https://api.bitbucket.org/2.0/repositories/acme/site"
            ++ "/permissions-config/groups/developers")) :=
  ⟨by decide, by decide, by decide, by decide, by decide,
   (repository_URL_differs_for_plain_slugs sampleClient echoServer registeredName "site" "site"
      "developers" 7 sampleRepository (by decide) (by decide) (by decide) (by decide)
      (by decide)).1,
   (repository_URL_differs_for_plain_slugs sampleClient echoServer registeredName "site" "site"
      "developers" 7 sampleRepository (by decide) (by decide) (by decide) (by decide)
      (by decide)).2.1,
   (repository_URL_differs_for_plain_slugs sampleClient echoServer registeredName "site" "site"
      "developers" 7 sampleRepository (by decide) (by decide) (by decide) (by decide)
      (by decide)).2.2.1,
   (repository_URL_differs_for_plain_slugs sampleClient echoServer registeredName "site" "site"
      "developers" 7 sampleRepository (by decide) (by decide) (by decide) (by decide)
      (by decide)).2.2.2.1,
   by decide, by decide, rfl, rfl, by decide, by decide, by decide⟩

/-- C17 as stated fails, in three ways.  Slugs go into the URL as they are, so
a repository slug that holds `/` spells the URL of a branch restriction or of
a group permission of another repository: both operations call the HTTP client
on the same method and URL text.  The fragment is not sent, so
`DeleteBranchRestriction("site#", 7)` is addressed to the request URI of
`DeleteRepository("site")`, whose slug holds no `/`; and with a Host that ends
in `#` every operation is addressed to the same request URI.  A transport that
reports what goes on the wire cannot tell these operations apart. -/
theorem repository_URL_collisions :
    (sampleClient.DeleteRepository echoServer "site/branch-restrictions/7").result
        = some (.foreign ("DELETE https://api.bitbucket.org/2.0/repositories/acme/site"
            ++ "/branch-restrictions/7 Basic dG9rZW4="))
      ∧ (sampleClient.DeleteBranchRestriction echoServer "site" 7).result
        = some (.foreign ("DELETE https://api.bitbucket.org/2.0/repositories/acme/site"
            ++ "/branch-restrictions/7 Basic dG9rZW4="))
      ∧ (sampleClient.DeleteRepository echoServer
          "site/permissions-config/groups/developers").result
        = some (.foreign ("DELETE https://api.bitbucket.org/2.0/repositories/acme/site"
            ++ "/permissions-config/groups/developers Basic dG9rZW4="))
      ∧ (sampleClient.DeleteGroupPermission echoServer "site" "developers").result
        = some (.foreign ("DELETE https://api.bitbucket.org/2.0/repositories/acme/site"
            ++ "/permissions-config/groups/developers Basic dG9rZW4="))
      ∧ requestTarget registeredName
          (sampleClient.Host ++ "/repositories/" ++ sampleClient.Workspace ++ "/"
            ++ "site/branch-restrictions/7")
        = requestTarget registeredName
          (sampleClient.Host ++ "/repositories/" ++ sampleClient.Workspace ++ "/" ++ "site"
            ++ "/branch-restrictions/" ++ decimal 7)
      ∧ '/' ∉ "site".toList
      ∧ (sampleClient.DeleteBranchRestriction echoServer "site#" 7).result
        = some (.foreign ("DELETE https://api.bitbucket.org/2.0/repositories/acme/site#"
            ++ "/branch-restrictions/7 Basic dG9rZW4="))
      ∧ requestTarget registeredName
          (sampleClient.Host ++ "/repositories/" ++ sampleClient.Workspace ++ "/" ++ "site#"
            ++ "/branch-restrictions/" ++ decimal 7)
        = some { Scheme := bytesOf "https", Host := bytesOf "api.bitbucket.org"
                 RequestURI := bytesOf "/2.0/repositories/acme/site" }
      ∧ requestTarget registeredName
          (sampleClient.Host ++ "/repositories/" ++ sampleClient.Workspace ++ "/" ++ "site")
        = some { Scheme := bytesOf "https", Host := bytesOf "api.bitbucket.org"
                 RequestURI := bytesOf "/2.0/repositories/acme/site" }
      ∧ requestTarget registeredName
          (clientWithFragment.Host ++ "/repositories/" ++ clientWithFragment.Workspace ++ "/"
            ++ "site")
        = some { Scheme := bytesOf "https", Host := bytesOf "api.bitbucket.org"
                 RequestURI := bytesOf "/2.0" }
      ∧ requestTarget registeredName
          (clientWithFragment.Host ++ "/repositories/" ++ clientWithFragment.Workspace ++ "/"
            ++ "site" ++ "/branch-restrictions/" ++ decimal 7)
        = some { Scheme := bytesOf "https", Host := bytesOf "api.bitbucket.org"
                 RequestURI := bytesOf "/2.0" }
      ∧ (sampleClient.DeleteBranchRestriction wireEchoServer "site#" 7).result
        = some (.foreign "DELETE https://api.bitbucket.org/2.0/repositories/acme/site")
      ∧ (sampleClient.DeleteRepository wireEchoServer "site").result
        = some (.foreign "DELETE https://api.bitbucket.org/2.0/repositories/acme/site")
      ∧ (clientWithFragment.DeleteRepository wireEchoServer "site").result
        = some (.foreign "DELETE https://api.bitbucket.org/2.0")
      ∧ (clientWithFragment.DeleteGroupPermission wireEchoServer "site" "developers").result
        = some (.foreign "DELETE https://api.bitbucket.org/2.0") := by
  refine ⟨rfl, rfl, rfl, rfl, ?_, ?_, rfl, ?_, ?_, ?_, ?_, ?_, ?_, ?_, ?_⟩ <;> decide

/-! ### `ImportState` -/

theorem Diagnostics.HasError_Append (diags more : Diagnostics) :
    Diagnostics.HasError (Diagnostics.Append diags more)
      = (Diagnostics.HasError diags || Diagnostics.HasError more) := by
  induction more generalizing diags with
  | nil => simp [Diagnostics.Append, Diagnostics.HasError]
  | cons d rest ih =>
    unfold Diagnostics.Append
    split
    · rename_i hc
      have hmem : d ∈ diags := by simpa using hc
      rw [ih]
      by_cases hd : d.severity = Severity.error
      · have : Diagnostics.HasError diags = true := by
          unfold Diagnostics.HasError
          rw [List.any_eq_true]
          exact ⟨d, hmem, by simp [hd]⟩
        simp [this]
      · have hb : (d.severity == Severity.error) = false := by simp [hd]
        simp [Diagnostics.HasError, hb]
    · rw [ih]
      simp [Diagnostics.HasError, Bool.or_assoc]

theorem splitChars_ne_nil (sep : Char) (l : List Char) : splitChars sep l ≠ [] := by
  cases l with
  | nil => simp [splitChars]
  | cons c cs =>
    unfold splitChars
    split
    · simp
    · split <;> simp

theorem splitChars_of_not_mem (sep : Char) (l : List Char) (h : sep ∉ l) :
    splitChars sep l = [l] := by
  induction l with
  | nil => rfl
  | cons c cs ih =>
    have hc : c ≠ sep := fun e => h (e ▸ List.mem_cons_self _ _)
    have hcs : sep ∉ cs := fun hm => h (List.mem_cons_of_mem _ hm)
    unfold splitChars
    rw [if_neg hc, ih hcs]

theorem splitChars_append_sep (sep : Char) (a b : List Char) (h : sep ∉ a) :
    splitChars sep (a ++ sep :: b) = a :: splitChars sep b := by
  induction a with
  | nil => simp [splitChars]
  | cons c cs ih =>
    have hc : c ≠ sep := fun e => h (e ▸ List.mem_cons_self _ _)
    have hcs : sep ∉ cs := fun hm => h (List.mem_cons_of_mem _ hm)
    rw [List.cons_append]
    conv => lhs; unfold splitChars
    rw [if_neg hc, ih hcs]

theorem stringsSplit_pair (a b : String) (ha : ',' ∉ a.toList) (hb : ',' ∉ b.toList) :
    stringsSplit (a ++ "," ++ b) ',' = [a, b] := by
  unfold stringsSplit
  have e : (a ++ "," ++ b).toList = a.toList ++ ',' :: b.toList := by
    simp [String.toList, String.data_append]
  rw [e, splitChars_append_sep _ _ _ ha, splitChars_of_not_mem _ _ hb]
  rfl

theorem two_parts_iff (l : List String) :
    ¬ (l.length ≠ 2 ∨ l.getD 0 "" = "" ∨ l.getD 1 "" = "")
      ↔ ∃ a b, l = [a, b] ∧ a ≠ "" ∧ b ≠ "" := by
  constructor
  · intro h
    match l, h with
    | [a, b], h =>
      refine ⟨a, b, rfl, ?_, ?_⟩
      · intro e
        exact h (Or.inr (Or.inl (by simpa using e)))
      · intro e
        exact h (Or.inr (Or.inr (by simpa using e)))
    | [], h => exact absurd (Or.inl (by simp)) h
    | [_], h => exact absurd (Or.inl (by simp)) h
    | _ :: _ :: _ :: _, h => exact absurd (Or.inl (by simp)) h
  · rintro ⟨a, b, rfl, ha, hb⟩
    simp [ha, hb]

theorem Attributes.SetAttribute_of_no_error (convert : String → AttrValue → Diagnostics)
    (st : Attributes) (name : String) (val : AttrValue)
    (h : Diagnostics.HasError (convert name val) = false) :
    Attributes.SetAttribute convert st name val = (st ++ [(name, val)], convert name val) := by
  unfold Attributes.SetAttribute
  simp [h]

theorem groupPermission_ImportState_rejects (r : groupPermissionResource)
    (quote : String → String) (convert : String → AttrValue → Diagnostics)
    (req : ImportStateRequest) (resp : ImportStateResponse)
    (h : ¬ ∃ a b, stringsSplit req.ID ',' = [a, b] ∧ a ≠ "" ∧ b ≠ "") :
    groupPermissionResource.ImportState r quote convert req resp
      = { resp with Diagnostics := (Diagnostics.AddError resp.Diagnostics
            "Unexpected Import Identifier"
            ("Expected import identifier with format: repository_slug,group_slug. Got: "
              ++ quote req.ID)) } := by
  rw [← two_parts_iff, not_not] at h
  unfold groupPermissionResource.ImportState
  simp only [h, if_true]

theorem groupPermission_ImportState_accepts (r : groupPermissionResource)
    (quote : String → String) (convert : String → AttrValue → Diagnostics)
    (req : ImportStateRequest) (resp : ImportStateResponse) (a b : String)
    (hSplit : stringsSplit req.ID ',' = [a, b]) (ha : a ≠ "") (hb : b ≠ "")
    (hConv : ∀ name val, Diagnostics.HasError (convert name val) = false) :
    groupPermissionResource.ImportState r quote convert req resp
      = { State := resp.State ++ [("repository_slug", .string a), ("group_slug", .string b)]
          Diagnostics := Diagnostics.Append
            (Diagnostics.Append resp.Diagnostics (convert "repository_slug" (.string a)))
            (convert "group_slug" (.string b)) } := by
  have h : ¬ ((stringsSplit req.ID ',').length ≠ 2 ∨ (stringsSplit req.ID ',').getD 0 "" = ""
      ∨ (stringsSplit req.ID ',').getD 1 "" = "") :=
    (two_parts_iff _).mpr ⟨a, b, hSplit, ha, hb⟩
  unfold groupPermissionResource.ImportState
  simp only [h, if_false]
  simp [hSplit, Attributes.SetAttribute_of_no_error _ _ _ _ (hConv _ _)]

/-- C11.  Given a response without error and a framework that accepts the
attribute writes, `ImportState` of a group permission adds no error exactly
when splitting the identifier on `,` gives two parts, both non-empty.  When
the parts are `a` and `b` (so for the identifier `a,b` with `a` and `b`
non-empty and free of commas) it writes repository_slug = `a` and then
group_slug = `b`; otherwise it writes no attribute and adds the one error
`Unexpected Import Identifier`. -/
theorem groupPermission_ImportState_accepts_iff_two_parts (r : groupPermissionResource)
    (quote : String → String) (convert : String → AttrValue → Diagnostics)
    (req : ImportStateRequest) (resp : ImportStateResponse)
    (hResp : Diagnostics.HasError resp.Diagnostics = false)
    (hConv : ∀ name val, Diagnostics.HasError (convert name val) = false) :
    (Diagnostics.HasError (groupPermissionResource.ImportState r quote convert req resp).Diagnostics = false
        ↔ ∃ a b, stringsSplit req.ID ',' = [a, b] ∧ a ≠ "" ∧ b ≠ "")
      ∧ (∀ a b, stringsSplit req.ID ',' = [a, b] → a ≠ "" → b ≠ "" →
          (groupPermissionResource.ImportState r quote convert req resp).State
            = resp.State ++ [("repository_slug", .string a), ("group_slug", .string b)])
      ∧ (∀ a b : String, ',' ∉ a.toList → ',' ∉ b.toList → a ≠ "" → b ≠ "" →
          req.ID = a ++ "," ++ b →
          (groupPermissionResource.ImportState r quote convert req resp).State
            = resp.State ++ [("repository_slug", .string a), ("group_slug", .string b)])
      ∧ (¬ (∃ a b, stringsSplit req.ID ',' = [a, b] ∧ a ≠ "" ∧ b ≠ "") →
          (groupPermissionResource.ImportState r quote convert req resp).State = resp.State
            ∧ (groupPermissionResource.ImportState r quote convert req resp).Diagnostics
              = resp.Diagnostics ++ [{ severity := .error
                                       summary := "Unexpected Import Identifier"
                                       detail := "Expected import identifier with format: "
                                         ++ "repository_slug,group_slug. Got: " ++ quote req.ID
                                       path := none }]) := by
  have hAccept : ∀ a b, stringsSplit req.ID ',' = [a, b] → a ≠ "" → b ≠ "" →
      (groupPermissionResource.ImportState r quote convert req resp).State
        = resp.State ++ [("repository_slug", .string a), ("group_slug", .string b)] := by
    intro a b hSplit ha hb
    rw [groupPermission_ImportState_accepts r quote convert req resp a b hSplit ha hb hConv]
  refine ⟨?_, hAccept, ?_, ?_⟩
  · constructor
    · intro hNoError
      by_contra hNot
      rw [groupPermission_ImportState_rejects r quote convert req resp hNot,
        Diagnostics.AddError_of_no_error _ _ _ hResp] at hNoError
      simp [Diagnostics.HasError] at hNoError
    · rintro ⟨a, b, hSplit, ha, hb⟩
      rw [groupPermission_ImportState_accepts r quote convert req resp a b hSplit ha hb hConv]
      simp [Diagnostics.HasError_Append, hResp, hConv]
  · intro a b hCommaA hCommaB ha hb hID
    exact hAccept a b (by rw [hID]; exact stringsSplit_pair a b hCommaA hCommaB) ha hb
  · intro hNot
    rw [groupPermission_ImportState_rejects r quote convert req resp hNot,
      Diagnostics.AddError_of_no_error _ _ _ hResp]
    exact ⟨rfl, rfl⟩

theorem groupPermission_ImportState_accepts_iff_two_parts_witness :
    (groupPermissionResource.ImportState { client := sampleClient } plainQuote (fun _ _ => [])
        { ID := "site,developers" } freshImport).State
        = [("repository_slug", .string "site"), ("group_slug", .string "developers")]
      ∧ (groupPermissionResource.ImportState { client := sampleClient } plainQuote
          (fun _ _ => []) { ID := "site," } freshImport).State = [] :=
  ⟨(groupPermission_ImportState_accepts_iff_two_parts { client := sampleClient } plainQuote
      (fun _ _ => []) { ID := "site,developers" } freshImport rfl (fun _ _ => rfl)).2.2.1
      "site" "developers" (by decide) (by decide) (by decide) (by decide) rfl,
   ((groupPermission_ImportState_accepts_iff_two_parts { client := sampleClient } plainQuote
      (fun _ _ => []) { ID := "site," } freshImport rfl (fun _ _ => rfl)).2.2.2
      (by
        rintro ⟨a, b, h, _, hb⟩
        have e : stringsSplit "site," ',' = ["site", ""] := by decide
        simp only [e, List.cons.injEq] at h
        exact hb h.2.1.symm)).1⟩

theorem branchRestriction_ImportState_rejects (r : branchRestrictionResource)
    (quote : String → String) (convert : String → AttrValue → Diagnostics)
    (req : ImportStateRequest) (resp : ImportStateResponse)
    (h : ¬ ∃ a b, stringsSplit req.ID ',' = [a, b] ∧ a ≠ "" ∧ b ≠ "") :
    branchRestrictionResource.ImportState r quote convert req resp
      = { resp with Diagnostics := (Diagnostics.AddError resp.Diagnostics
            "Unexpected Import Identifier"
            ("Expected import identifier with format: repository_slug,id. Got: "
              ++ quote req.ID)) } := by
  rw [← two_parts_iff, not_not] at h
  unfold branchRestrictionResource.ImportState
  simp only [h, if_true]

/-- With two non-empty parts of which the second is an integer for
`strconv.Atoi`, the import adds no error and writes repository_slug and then
id, the value of that integer. -/
theorem branchRestriction_ImportState_accepts (r : branchRestrictionResource)
    (quote : String → String) (convert : String → AttrValue → Diagnostics)
    (req : ImportStateRequest) (resp : ImportStateResponse) (a b : String) (id : Int)
    (hSplit : stringsSplit req.ID ',' = [a, b]) (ha : a ≠ "") (hb : b ≠ "")
    (hAtoi : strconvAtoi quote b = (id, none))
    (hConv : ∀ name val, Diagnostics.HasError (convert name val) = false) :
    branchRestrictionResource.ImportState r quote convert req resp
      = { State := resp.State ++ [("repository_slug", .string a), ("id", .int id)]
          Diagnostics := Diagnostics.Append
            (Diagnostics.Append resp.Diagnostics (convert "repository_slug" (.string a)))
            (convert "id" (.int id)) } := by
  have h : ¬ ((stringsSplit req.ID ',').length ≠ 2 ∨ (stringsSplit req.ID ',').getD 0 "" = ""
      ∨ (stringsSplit req.ID ',').getD 1 "" = "") :=
    (two_parts_iff _).mpr ⟨a, b, hSplit, ha, hb⟩
  unfold branchRestrictionResource.ImportState
  simp only [h, if_false]
  simp [hSplit, hAtoi, Attributes.SetAttribute_of_no_error _ _ _ _ (hConv _ _)]

/-- With two non-empty parts of which the second is no integer for
`strconv.Atoi`, the import adds the error and still writes both attributes,
the id being what `Atoi` returned next to its error. -/
theorem branchRestriction_ImportState_writes_after_error (r : branchRestrictionResource)
    (quote : String → String) (convert : String → AttrValue → Diagnostics)
    (req : ImportStateRequest) (resp : ImportStateResponse) (a b : String) (id : Int)
    (err : GoError)
    (hSplit : stringsSplit req.ID ',' = [a, b]) (ha : a ≠ "") (hb : b ≠ "")
    (hAtoi : strconvAtoi quote b = (id, some err))
    (hConv : ∀ name val, Diagnostics.HasError (convert name val) = false) :
    (branchRestrictionResource.ImportState r quote convert req resp).State
        = resp.State ++ [("repository_slug", .string a), ("id", .int id)]
      ∧ Diagnostics.HasError
          (branchRestrictionResource.ImportState r quote convert req resp).Diagnostics
        = true := by
  have h : ¬ ((stringsSplit req.ID ',').length ≠ 2 ∨ (stringsSplit req.ID ',').getD 0 "" = ""
      ∨ (stringsSplit req.ID ',').getD 1 "" = "") :=
    (two_parts_iff _).mpr ⟨a, b, hSplit, ha, hb⟩
  have hAdd : ∀ (diags : Diagnostics) (summary detail : String),
      Diagnostics.HasError (Diagnostics.AddError diags summary detail) = true := by
    intro diags summary detail
    unfold Diagnostics.AddError
    rw [Diagnostics.HasError_Append]
    simp [Diagnostics.HasError]
  unfold branchRestrictionResource.ImportState
  simp only [h, if_false]
  simp [hSplit, hAtoi, Attributes.SetAttribute_of_no_error _ _ _ _ (hConv _ _),
    Diagnostics.HasError_Append, hAdd]

/-- C16, at the failing input.  For the identifier `site,abc` the import adds
the error `Error converting ID` and, having no `return` there, goes on to
write repository_slug = `site` and id = 0.  The other error path does return:
`site` alone adds `Unexpected Import Identifier` and writes nothing.  For
`site,7` no error is added and repository_slug = `site`, id = 7 are written.
An id past the range of `int` is written as the largest `int`. -/
theorem branchRestriction_ImportState_not_atomic :
    branchRestrictionResource.ImportState { client := sampleClient } plainQuote
        (fun _ _ => []) { ID := "site,abc" } freshImport
      = { State := [("repository_slug", .string "site"), ("id", .int 0)]
          Diagnostics := [{ severity := .error
                            summary := "Error converting ID"
                            detail := "Could not convert resource id, unexpected error: "
                              ++ "strconv.Atoi: parsing \"abc\": invalid syntax"
                            path := none }] }
    ∧ branchRestrictionResource.ImportState { client := sampleClient } plainQuote
        (fun _ _ => []) { ID := "site" } freshImport
      = { State := []
          Diagnostics := [{ severity := .error
                            summary := "Unexpected Import Identifier"
                            detail := "Expected import identifier with format: "
                              ++ "repository_slug,id. Got: \"site\""
                            path := none }] }
    ∧ branchRestrictionResource.ImportState { client := sampleClient } plainQuote
        (fun _ _ => []) { ID := "site,7" } freshImport
      = { State := [("repository_slug", .string "site"), ("id", .int 7)]
          Diagnostics := [] }
    ∧ (branchRestrictionResource.ImportState { client := sampleClient } plainQuote
        (fun _ _ => []) { ID := "site,99999999999999999999" } freshImport).State
      = [("repository_slug", .string "site"), ("id", .int 9223372036854775807)] := by
  refine ⟨?_, ?_, ?_, ?_⟩ <;> rfl

/-! ### `strconv.Atoi` on the decimal text of an `int` -/

theorem digitChar_toNat (d : Nat) (h : d < 10) : (Nat.digitChar d).toNat = 48 + d := by
  interval_cases d <;> rfl

theorem parseUintLoop_digit (n d : Nat) (rest : List Char) (hd : d < 10)
    (h : n * 10 + d < 2 ^ 64) :
    parseUintLoop n (Nat.digitChar d :: rest) = parseUintLoop (n * 10 + d) rest := by
  conv => lhs; unfold parseUintLoop
  rw [digitChar_toNat d hd]
  have h1 : ¬ (48 + d < 48 ∨ 57 < 48 + d) := by omega
  have h2 : ¬ (2 ^ 64 ≤ n * 10) := by omega
  have h3 : ¬ (2 ^ 64 ≤ n * 10 + (48 + d - 48)) := by
    rw [Nat.add_sub_cancel_left]; omega
  rw [if_neg h1, if_neg h2, if_neg h3, Nat.add_sub_cancel_left]

theorem parseUintLoop_toDigitsCore (fuel n : Nat) (ds : List Char) (hFuel : n < fuel)
    (hn : n < 2 ^ 64) :
    parseUintLoop 0 (Nat.toDigitsCore 10 fuel n ds) = parseUintLoop n ds := by
  induction fuel generalizing n ds with
  | zero => omega
  | succ fuel ih =>
    unfold Nat.toDigitsCore
    simp only
    have hmod : n % 10 < 10 := Nat.mod_lt _ (by decide)
    split
    · rename_i hz
      rw [parseUintLoop_digit 0 (n % 10) ds hmod (by omega)]
      congr 1
      omega
    · rename_i hz
      rw [ih (n / 10) _ (by omega) (by omega),
        parseUintLoop_digit (n / 10) (n % 10) ds hmod (by omega)]
      congr 1
      omega

theorem parseUintLoop_repr (n : Nat) (hn : n < 2 ^ 64) :
    parseUintLoop 0 (Nat.repr n).toList = .ok n := by
  unfold Nat.repr Nat.toDigits
  simp only [String.toList, List.asString]
  rw [parseUintLoop_toDigitsCore (n + 1) n [] (by omega) hn]
  rfl

theorem parseUintLoop_ok_digits (l : List Char) (n m : Nat)
    (h : parseUintLoop n l = .ok m) : ∀ ch ∈ l, 48 ≤ ch.toNat ∧ ch.toNat ≤ 57 := by
  induction l generalizing n with
  | nil => intro ch hch; cases hch
  | cons c rest ih =>
    unfold parseUintLoop at h
    split at h
    · cases h
    · rename_i hc
      split at h
      · cases h
      · split at h
        · cases h
        · intro ch hch
          rcases List.mem_cons.mp hch with e | hmem
          · subst e; omega
          · exact ih _ h ch hmem

theorem toDigitsCore_ne_nil_of_ne_nil (fuel n : Nat) (ds : List Char) (h : ds ≠ []) :
    Nat.toDigitsCore 10 fuel n ds ≠ [] := by
  induction fuel generalizing n ds with
  | zero => simpa [Nat.toDigitsCore] using h
  | succ fuel ih =>
    unfold Nat.toDigitsCore
    simp only
    split
    · simp
    · exact ih _ _ (by simp)

theorem repr_toList_ne_nil (n : Nat) : (Nat.repr n).toList ≠ [] := by
  unfold Nat.repr Nat.toDigits
  simp only [String.toList, List.asString]
  unfold Nat.toDigitsCore
  simp only
  split
  · simp
  · exact toDigitsCore_ne_nil_of_ne_nil _ _ _ (by simp)

theorem parseInt_repr (n : Nat) (hn : n < 2 ^ 63) :
    parseInt (Nat.repr n).toList = ((n : Int), none) := by
  have hParse := parseUintLoop_repr n (by omega)
  have hDigits := parseUintLoop_ok_digits _ _ _ hParse
  have hne := repr_toList_ne_nil n
  match hl : (Nat.repr n).toList with
  | [] => exact absurd hl hne
  | c :: cs =>
    rw [hl] at hParse hDigits
    have hc := hDigits c (List.mem_cons_self _ _)
    unfold parseInt
    have h45 : ¬ c.toNat = 45 := by omega
    have h43 : ¬ c.toNat = 43 := by omega
    simp only [h43, h45, or_self, if_false, hParse, decide_False]
    simp
    omega

theorem parseInt_neg_repr (n : Nat) (hn : n ≤ 2 ^ 63) (hpos : 0 < n) :
    parseInt (Char.ofNat 45 :: (Nat.repr n).toList) = (-(n : Int), none) := by
  have hParse := parseUintLoop_repr n (by omega)
  have hne := repr_toList_ne_nil n
  match hl : (Nat.repr n).toList with
  | [] => exact absurd hl hne
  | c :: cs =>
    rw [hl] at hParse
    unfold parseInt
    have h45 : (Char.ofNat 45).toNat = 45 := by decide
    simp only [h45, or_true, if_true, hParse, decide_True]
    simp
    omega

theorem strconvAtoi_decimal (quote : String → String) (v : Int)
    (hLow : -(2 : Int) ^ 63 ≤ v) (hHigh : v < (2 : Int) ^ 63) :
    strconvAtoi quote (decimal v) = (v, none) := by
  unfold strconvAtoi decimal
  cases v with
  | ofNat k =>
    have hk : k < 2 ^ 63 := by
      have : (k : Int) < (2 : Int) ^ 63 := hHigh
      exact_mod_cast this
    simp only [parseInt_repr k hk]
    rfl
  | negSucc k =>
    have hk : k + 1 ≤ 2 ^ 63 := by
      have : -(2 : Int) ^ 63 ≤ -((k : Int) + 1) := by
        rw [Int.negSucc_eq] at hLow; exact hLow
      have h2 : ((k : Int) + 1) ≤ (2 : Int) ^ 63 := by omega
      exact_mod_cast h2
    have e : ("-" ++ Nat.repr (k + 1)).toList = Char.ofNat 45 :: (Nat.repr (k + 1)).toList := by
      simp [String.toList, String.data_append]
    rw [e]
    simp only [parseInt_neg_repr (k + 1) hk (by omega)]
    rw [Int.negSucc_eq]
    push_cast
    rfl

theorem decimal_toList_no_comma (v : Int) (hLow : -(2 : Int) ^ 63 ≤ v)
    (hHigh : v < (2 : Int) ^ 63) : ',' ∉ (decimal v).toList ∧ decimal v ≠ "" := by
  have hDigits : ∀ n : Nat, n < 2 ^ 64 → ',' ∉ (Nat.repr n).toList := by
    intro n hn hmem
    have := parseUintLoop_ok_digits _ _ _ (parseUintLoop_repr n hn) ',' hmem
    have hc : (',' : Char).toNat = 44 := by decide
    omega
  have hne : ∀ t : String, t.toList ≠ [] → t ≠ "" := by
    intro t ht e
    exact ht (by rw [e]; rfl)
  unfold decimal
  cases v with
  | ofNat k =>
    have hk : k < 2 ^ 63 := by
      have : (k : Int) < (2 : Int) ^ 63 := hHigh
      exact_mod_cast this
    exact ⟨hDigits k (by omega), hne _ (repr_toList_ne_nil k)⟩
  | negSucc k =>
    have hk : k + 1 ≤ 2 ^ 63 := by
      have : -(2 : Int) ^ 63 ≤ -((k : Int) + 1) := by
        rw [Int.negSucc_eq] at hLow; exact hLow
      have h2 : ((k : Int) + 1) ≤ (2 : Int) ^ 63 := by omega
      exact_mod_cast h2
    have e : ("-" ++ Nat.repr (k + 1)).toList = Char.ofNat 45 :: (Nat.repr (k + 1)).toList := by
      simp [String.toList, String.data_append]
    constructor
    · simp only
      rw [e]
      intro hmem
      rcases List.mem_cons.mp hmem with h | h
      · exact absurd h (by decide)
      · exact hDigits (k + 1) (by omega) h
    · apply hne
      simp only
      rw [e]
      simp

/-- The identifier made of a non-empty slug without comma, a comma and the
decimal text of an `int`: the import adds no error and writes the slug and
the value of the integer. -/
theorem branchRestriction_ImportState_of_decimal (r : branchRestrictionResource)
    (quote : String → String) (convert : String → AttrValue → Diagnostics)
    (resp : ImportStateResponse) (s : String) (v : Int)
    (hComma : ',' ∉ s.toList) (hs : s ≠ "")
    (hLow : -(2 : Int) ^ 63 ≤ v) (hHigh : v < (2 : Int) ^ 63)
    (hConv : ∀ name val, Diagnostics.HasError (convert name val) = false) :
    branchRestrictionResource.ImportState r quote convert { ID := s ++ "," ++ decimal v } resp
      = { State := resp.State ++ [("repository_slug", .string s), ("id", .int v)]
          Diagnostics := Diagnostics.Append
            (Diagnostics.Append resp.Diagnostics (convert "repository_slug" (.string s)))
            (convert "id" (.int v)) } :=
  branchRestriction_ImportState_accepts r quote convert _ resp s (decimal v) v
    (stringsSplit_pair s (decimal v) hComma (decimal_toList_no_comma v hLow hHigh).1) hs
    (decimal_toList_no_comma v hLow hHigh).2 (strconvAtoi_decimal quote v hLow hHigh) hConv

end Bitbucket
